import Mathlib

/-!
# DS1302 real-time-clock driver (`Clock_Libs/time/time.h`)

A shallow embedding of the driver and of its calendar helpers.

Conventions of the embedding.

* A C `int` is a Lean `Int`; `/` and `%` of C truncate toward zero and are
  `Int.tdiv` and `Int.tmod`.  No computation on the paths reached from the
  8-bit fields of `int_time` leaves the 16-bit range, so no wrap is modelled
  for `int`.
* A `uint8_t` is a `Nat` below 256; a store into one reduces modulo 256.
* A bit-field of width `w` is a `Fin (2^w)`; a store reduces modulo `2^w`.
  Bit-fields are laid out from the least significant bit of their byte, in
  declaration order, which is what the casts `(uint8_t *)&t_time` rely on.
* An array access outside the array has no defined result: it is `none`.
* The Arduino primitives (`digitalWrite`, `pinMode`, `digitalRead`,
  `delayMicroseconds`) are not part of the file.  A call is recorded as an
  `Event` in a trace and shown to whatever is attached to the pins (a `Board`),
  which also answers `digitalRead`.
-/

namespace DS1302

/-! ## BCD macros -/

/-- Macro `#define bcd2bin(h,l) (((h)*10) + (l))`. -/
def bcd2bin (h l : Int) : Int := (h * 10) + l

/-- Macro `#define bin2bcd_h(x) ((x)/10)`. -/
def bin2bcd_h (x : Int) : Int := Int.tdiv x 10

/-- Macro `#define bin2bcd_l(x) ((x)%10)`. -/
def bin2bcd_l (x : Int) : Int := Int.tmod x 10

/-! ## Calendar helpers -/

/-- Read of a C array at an `int` index; outside the array there is no value. -/
def cIndex (a : List Int) (i : Int) : Option Int :=
  if 0 ≤ i then a.get? i.toNat else none

/-- Table `const int num_day_in_month[12]`. -/
def num_day_in_month : List Int := [31, 28, 31, 30, 31, 30, 31, 31, 30, 31, 30, 31]

/-- Table `static const char* MonthNames[]` (it holds weekday names). -/
def MonthNames : List String := ["SUN", "MON", "TUE", "WED", "THU", "FRI", "SAT"]

/-- Function `int isLeapYear(int year)`; `true` is 1 and `false` is 0. -/
def isLeapYear (year : Int) : Int :=
  if Int.tmod year 4 = 0 ∧ (Int.tmod year 100 ≠ 0 ∨ Int.tmod year 400 = 0) then 1 else 0

/-- Function `int numDayInMonth(int year, int month)`. -/
def numDayInMonth (year month : Int) : Option Int :=
  let leap_year : Int := if isLeapYear year = 1 then 1 else 0
  if month = 2 then
    (cIndex num_day_in_month 1).map (fun n => n + leap_year)
  else
    cIndex num_day_in_month (month - 1)

/-- The table `static int t[]` of `dayofweek`. -/
def dayofweek_t : List Int := [0, 3, 2, 5, 0, 3, 5, 1, 4, 6, 2, 4]

/-- Function `int dayofweek(int d, int m, int y)`. -/
def dayofweek (d m y : Int) : Option Int :=
  let y := y + 2000
  let y := y - (if m < 3 then 1 else 0)
  (cIndex dayofweek_t (m - 1)).map
    (fun tm => Int.tmod (y + Int.tdiv y 4 - Int.tdiv y 100 + Int.tdiv y 400 + tm + d) 7)

/-! ## Integer stores -/

/-- Conversion of an `int` to `uint8_t`. -/
def u8 (x : Int) : Nat := (x % 256).toNat

/-- Store of an `int` into an unsigned bit-field with `n = 2^w` values. -/
def bitfield (n : Nat) (hn : 0 < n) (x : Int) : Fin n :=
  ⟨(x % (n : Int)).toNat, by
    have h0 : (0 : Int) < n := by exact_mod_cast hn
    have h1 := Int.emod_nonneg x (ne_of_gt h0)
    have h2 := Int.emod_lt_of_pos x h0
    omega⟩

/-! ## Data model -/

/-- Type `struct int_time`: the normalized time, seven `uint8_t` fields. -/
structure int_time where
  Seconds : Nat := 0
  Minutes : Nat := 0
  Hours : Nat := 0
  Day : Nat := 0
  Date : Nat := 0
  Month : Nat := 0
  Year : Nat := 0
deriving DecidableEq, Repr

/-- Type `struct ds_time`: the register snapshot, bit-field by bit-field in declaration
order.  The hour byte is declared through the `h24` member of the anonymous union,
the only one the code uses; the `h12` member is a second view of the same bits. -/
structure ds_time where
  Seconds : Fin 16
  Seconds10 : Fin 8
  CH : Fin 2
  Minutes : Fin 16
  Minutes10 : Fin 8
  reserved1 : Fin 2
  h24_Hour : Fin 16
  h24_Hour10 : Fin 4
  h24_reserved2 : Fin 2
  h24_hour_12_24 : Fin 2
  Date : Fin 16
  Date10 : Fin 4
  reserved3 : Fin 4
  Month : Fin 16
  Month10 : Fin 2
  reserved4 : Fin 8
  Day : Fin 8
  reserved5 : Fin 32
  Year : Fin 16
  Year10 : Fin 16
  reserved6 : Fin 128
  WP : Fin 2
deriving DecidableEq, Repr

namespace ds_time

/-- Member `h12.Hour` of the union: bits 3-0 of the hour byte. -/
def h12_Hour (t : ds_time) : Nat := t.h24_Hour.val

/-- Member `h12.Hour10` of the union: bit 4 of the hour byte. -/
def h12_Hour10 (t : ds_time) : Nat := t.h24_Hour10.val % 2

/-- Member `h12.AM_PM` of the union: bit 5 of the hour byte. -/
def h12_AM_PM (t : ds_time) : Nat := t.h24_Hour10.val / 2

/-- The eight bytes of the object, as seen through `(uint8_t *)&t_time`. -/
def toBytes (t : ds_time) : List Nat :=
  [ t.Seconds.val + 16 * t.Seconds10.val + 128 * t.CH.val,
    t.Minutes.val + 16 * t.Minutes10.val + 128 * t.reserved1.val,
    t.h24_Hour.val + 16 * t.h24_Hour10.val + 64 * t.h24_reserved2.val
      + 128 * t.h24_hour_12_24.val,
    t.Date.val + 16 * t.Date10.val + 64 * t.reserved3.val,
    t.Month.val + 16 * t.Month10.val + 32 * t.reserved4.val,
    t.Day.val + 8 * t.reserved5.val,
    t.Year.val + 16 * t.Year10.val,
    t.reserved6.val + 128 * t.WP.val ]

/-- The object whose eight bytes are the given ones (a byte that is absent reads 0). -/
def ofBytes (bs : List Nat) : ds_time :=
  let b (i : Nat) : Int := ((bs.getD i 0 : Nat) : Int)
  { Seconds := bitfield 16 (by decide) (b 0)
    Seconds10 := bitfield 8 (by decide) (b 0 / 16)
    CH := bitfield 2 (by decide) (b 0 / 128)
    Minutes := bitfield 16 (by decide) (b 1)
    Minutes10 := bitfield 8 (by decide) (b 1 / 16)
    reserved1 := bitfield 2 (by decide) (b 1 / 128)
    h24_Hour := bitfield 16 (by decide) (b 2)
    h24_Hour10 := bitfield 4 (by decide) (b 2 / 16)
    h24_reserved2 := bitfield 2 (by decide) (b 2 / 64)
    h24_hour_12_24 := bitfield 2 (by decide) (b 2 / 128)
    Date := bitfield 16 (by decide) (b 3)
    Date10 := bitfield 4 (by decide) (b 3 / 16)
    reserved3 := bitfield 4 (by decide) (b 3 / 64)
    Month := bitfield 16 (by decide) (b 4)
    Month10 := bitfield 2 (by decide) (b 4 / 16)
    reserved4 := bitfield 8 (by decide) (b 4 / 32)
    Day := bitfield 8 (by decide) (b 5)
    reserved5 := bitfield 32 (by decide) (b 5 / 8)
    Year := bitfield 16 (by decide) (b 6)
    Year10 := bitfield 16 (by decide) (b 6 / 16)
    reserved6 := bitfield 128 (by decide) (b 7)
    WP := bitfield 2 (by decide) (b 7 / 128) }

/-- The store `p[i] = v` through `uint8_t *p = (uint8_t *)&t_time`. -/
def poke (t : ds_time) (i : Nat) (v : Nat) : ds_time :=
  ofBytes ((toBytes t).set i (v % 256))

/-- Result of `memset((char *)&t_time, 0, sizeof(t_time))`. -/
def zero : ds_time := ofBytes (List.replicate 8 0)

end ds_time

/-- The data members of `class ds1302_struct`. -/
structure ds1302_struct where
  DS1302_SCLK_PIN : Int
  DS1302_IO_PIN : Int
  DS1302_CE_PIN : Int
  t_time : ds_time
  b_time : int_time
deriving DecidableEq, Repr

/-! ## The pins and what is attached to them -/

/-- Second argument of `pinMode`. -/
inductive PinMode where
  | INPUT
  | OUTPUT
deriving DecidableEq, Repr

/-- One call of an Arduino primitive.  A level is `true` for `HIGH`. -/
inductive Event where
  | digitalWrite (pin : Int) (val : Bool)
  | pinMode (pin : Int) (mode : PinMode)
  | delayMicroseconds (us : Nat)
  | digitalRead (pin : Int) (val : Bool)
deriving DecidableEq, Repr

/-- Whatever is wired to the pins: it sees every call and answers `digitalRead`. -/
structure Board (σ : Type) where
  react : σ → Event → σ
  level : σ → Int → Bool

/-- State outside the object: the attached hardware and the calls made so far. -/
structure World (σ : Type) where
  board : σ
  trace : List Event

section Primitives

variable {σ : Type} (B : Board σ)

/-- Perform one call: the board reacts and the call is appended to the trace. -/
def emit (e : Event) (w : World σ) : World σ :=
  { board := B.react w.board e, trace := w.trace ++ [e] }

/-- Arduino `digitalWrite(pin, val)`; any non-zero `val` is `HIGH`. -/
def digitalWrite (pin : Int) (val : Bool) (w : World σ) : World σ :=
  emit B (Event.digitalWrite pin val) w

/-- Arduino `pinMode(pin, mode)`. -/
def pinMode (pin : Int) (mode : PinMode) (w : World σ) : World σ :=
  emit B (Event.pinMode pin mode) w

/-- Arduino `delayMicroseconds(us)`. -/
def delayMicroseconds (us : Nat) (w : World σ) : World σ :=
  emit B (Event.delayMicroseconds us) w

/-- Arduino `digitalRead(pin)`. -/
def digitalRead (pin : Int) (w : World σ) : Bool × World σ :=
  let v := B.level w.board pin
  (v, emit B (Event.digitalRead pin v) w)

end Primitives

/-- Arduino `bitRead(value, bit)` -/
def bitRead (value bit : Nat) : Nat := (value >>> bit) &&& 1

/-- Arduino `bitSet(value, bit)` -/
def bitSet (value bit : Nat) : Nat := value ||| (1 <<< bit)

/-- Arduino `bitClear(value, bit)`: `value & ~(1 << bit)`. -/
def bitClear (value bit : Nat) : Nat := value ^^^ (value &&& (1 <<< bit))

/-- Arduino `bitWrite(value, bit, bitvalue)` -/
def bitWrite (value bit : Nat) (bitvalue : Bool) : Nat :=
  if bitvalue then bitSet value bit else bitClear value bit

/-- Arduino `bitSet(value, bit)` on an `int`. -/
def bitSetInt (value : Int) (bit : Nat) : Int := Int.lor value ((1 <<< bit : Nat) : Int)

/-- Arduino `bitClear(value, bit)` on an `int`. -/
def bitClearInt (value : Int) (bit : Nat) : Int :=
  Int.land value (Int.lnot ((1 <<< bit : Nat) : Int))

/-! ## Register names -/

def DS1302_ENABLE : Int := 0x8E
def DS1302_TRICKLE : Int := 0x90
def DS1302_CLOCK_BURST_WRITE : Int := 0xBE
def DS1302_CLOCK_BURST_READ : Int := 0xBF
def DS1302_READBIT : Nat := 0

/-! ## Bit-serial transport -/

section Driver

variable {σ : Type} (B : Board σ)

/-- Method `_DS1302_start`. -/
def _DS1302_start (self : ds1302_struct) (w : World σ) : World σ :=
  let w := digitalWrite B self.DS1302_CE_PIN false w
  let w := pinMode B self.DS1302_CE_PIN PinMode.OUTPUT w
  let w := digitalWrite B self.DS1302_SCLK_PIN false w
  let w := pinMode B self.DS1302_SCLK_PIN PinMode.OUTPUT w
  let w := pinMode B self.DS1302_IO_PIN PinMode.OUTPUT w
  let w := digitalWrite B self.DS1302_CE_PIN true w
  delayMicroseconds B 4 w

/-- Method `_DS1302_stop`. -/
def _DS1302_stop (self : ds1302_struct) (w : World σ) : World σ :=
  let w := digitalWrite B self.DS1302_CE_PIN false w
  delayMicroseconds B 4 w

/-- Body of the loop of `_DS1302_toggleread` for one `i`; the state is `data` and the world. -/
def toggleread_body (self : ds1302_struct) (st : Nat × World σ) (i : Nat) : Nat × World σ :=
  let w := digitalWrite B self.DS1302_SCLK_PIN true st.2
  let w := delayMicroseconds B 1 w
  let w := digitalWrite B self.DS1302_SCLK_PIN false w
  let w := delayMicroseconds B 1 w
  let r := digitalRead B self.DS1302_IO_PIN w
  (u8 (bitWrite st.1 i r.1), r.2)

/-- Method `_DS1302_toggleread`: `for(i = 0; i <= 7; i++)` from `data = 0`. -/
def _DS1302_toggleread (self : ds1302_struct) (w : World σ) : Nat × World σ :=
  (List.range 8).foldl (toggleread_body B self) (0, w)

/-- Body of the loop of `_DS1302_togglewrite` for one `i`. -/
def togglewrite_body (self : ds1302_struct) (data release : Nat) (w : World σ) (i : Nat) :
    World σ :=
  let w := digitalWrite B self.DS1302_IO_PIN (bitRead data i != 0) w
  let w := delayMicroseconds B 1 w
  let w := digitalWrite B self.DS1302_SCLK_PIN true w
  let w := delayMicroseconds B 1 w
  if release ≠ 0 ∧ i = 7 then
    pinMode B self.DS1302_IO_PIN PinMode.INPUT w
  else
    let w := digitalWrite B self.DS1302_SCLK_PIN false w
    delayMicroseconds B 1 w

/-- Method `_DS1302_togglewrite(uint8_t data, uint8_t release)`: `for(i = 0; i <= 7; i++)`. -/
def _DS1302_togglewrite (self : ds1302_struct) (data release : Nat) (w : World σ) : World σ :=
  (List.range 8).foldl (togglewrite_body B self data release) w

/-! ## Register access -/

/-- Body of the loop of `DS1302_clock_burst_read`: `*p++ = _DS1302_toggleread()`. -/
def burst_read_body (st : ds1302_struct × World σ) (i : Nat) : ds1302_struct × World σ :=
  let r := _DS1302_toggleread B st.1 st.2
  ({ st.1 with t_time := st.1.t_time.poke i r.1 }, r.2)

/-- Method `DS1302_clock_burst_read`. -/
def DS1302_clock_burst_read (self : ds1302_struct) (w : World σ) : ds1302_struct × World σ :=
  let w := _DS1302_start B self w
  let w := _DS1302_togglewrite B self (u8 DS1302_CLOCK_BURST_READ) 1 w
  let st := (List.range 8).foldl (burst_read_body B) (self, w)
  (st.1, _DS1302_stop B st.1 st.2)

/-- Body of the loop of `DS1302_clock_burst_write`: `_DS1302_togglewrite(*p++, false)`. -/
def burst_write_body (self : ds1302_struct) (w : World σ) (i : Nat) : World σ :=
  _DS1302_togglewrite B self (self.t_time.toBytes.getD i 0) 0 w

/-- Method `DS1302_clock_burst_write`. -/
def DS1302_clock_burst_write (self : ds1302_struct) (w : World σ) : World σ :=
  let w := _DS1302_start B self w
  let w := _DS1302_togglewrite B self (u8 DS1302_CLOCK_BURST_WRITE) 0 w
  let w := (List.range 8).foldl (burst_write_body B self) w
  _DS1302_stop B self w

/-- Method `DS1302_read(int address)`. -/
def DS1302_read (self : ds1302_struct) (address : Int) (w : World σ) : Nat × World σ :=
  let address := bitSetInt address DS1302_READBIT
  let w := _DS1302_start B self w
  let w := _DS1302_togglewrite B self (u8 address) 1 w
  let r := _DS1302_toggleread B self w
  (r.1, _DS1302_stop B self r.2)

/-- Method `DS1302_write(int address, uint8_t data)`. -/
def DS1302_write (self : ds1302_struct) (address : Int) (data : Nat) (w : World σ) : World σ :=
  let address := bitClearInt address DS1302_READBIT
  let w := _DS1302_start B self w
  let w := _DS1302_togglewrite B self (u8 address) 0 w
  let w := _DS1302_togglewrite B self data 0 w
  _DS1302_stop B self w

/-! ## Device facade -/

/-- Constructor `ds1302_struct(int clk_pin, int IO_pin, int CE_pin)`.  The member `t_time`
has no initializer; its content at entry is the argument `t0`. -/
def ds1302_struct.new (clk_pin IO_pin CE_pin : Int) (t0 : ds_time) (w : World σ) :
    ds1302_struct × World σ :=
  let self : ds1302_struct :=
    { DS1302_SCLK_PIN := clk_pin, DS1302_IO_PIN := IO_pin, DS1302_CE_PIN := CE_pin,
      t_time := t0, b_time := {} }
  let w := DS1302_write B self DS1302_ENABLE 0 w
  let w := DS1302_write B self DS1302_TRICKLE 0x00 w
  (self, w)

/-- Destructor `~ds1302_struct()`. -/
def ds1302_struct.delete (self : ds1302_struct) (w : World σ) : World σ :=
  _DS1302_stop B self w

/-- Method `_DS1302_update`. -/
def _DS1302_update (self : ds1302_struct) (w : World σ) : ds1302_struct × World σ :=
  DS1302_clock_burst_read B self w

/-- The assignments of `_DS1302_set_date_time` to `t_time`, up to the call of
`DS1302_clock_burst_write`; `none` when `dayofweek` reads outside its table. -/
def set_date_time_fill (b_time : int_time) : Option ds_time :=
  let t := ds_time.zero
  let t := { t with Seconds := bitfield 16 (by decide) (bin2bcd_l b_time.Seconds) }
  let t := { t with Seconds10 := bitfield 8 (by decide) (bin2bcd_h b_time.Seconds) }
  let t := { t with CH := 0 }
  let t := { t with Minutes := bitfield 16 (by decide) (bin2bcd_l b_time.Minutes) }
  let t := { t with Minutes10 := bitfield 8 (by decide) (bin2bcd_h b_time.Minutes) }
  let t := { t with h24_Hour := bitfield 16 (by decide) (bin2bcd_l b_time.Hours) }
  let t := { t with h24_Hour10 := bitfield 4 (by decide) (bin2bcd_h b_time.Hours) }
  let t := { t with h24_hour_12_24 := 0 }
  let t := { t with Date := bitfield 16 (by decide) (bin2bcd_l b_time.Date) }
  let t := { t with Date10 := bitfield 4 (by decide) (bin2bcd_h b_time.Date) }
  let t := { t with Month := bitfield 16 (by decide) (bin2bcd_l b_time.Month) }
  let t := { t with Month10 := bitfield 2 (by decide) (bin2bcd_h b_time.Month) }
  (dayofweek b_time.Date b_time.Month b_time.Year).map fun dow =>
    let t := { t with Day := bitfield 8 (by decide) dow }
    let t := { t with Year := bitfield 16 (by decide) (bin2bcd_l b_time.Year) }
    let t := { t with Year10 := bitfield 16 (by decide) (bin2bcd_h b_time.Year) }
    { t with WP := 0 }

/-- Method `_DS1302_set_date_time(int_time b_time)`. -/
def _DS1302_set_date_time (self : ds1302_struct) (b_time : int_time) (w : World σ) :
    Option (ds1302_struct × World σ) :=
  (set_date_time_fill b_time).map fun t =>
    let self := { self with t_time := t }
    (self, DS1302_clock_burst_write B self w)

end Driver

/-- Method `_DS1302_get_time_and_date(int_time &b_time)`: the object and the argument
after the call; `none` when `dayofweek` reads outside its table. -/
def _DS1302_get_time_and_date (self : ds1302_struct) (b_time : int_time) :
    Option (ds1302_struct × int_time) :=
  let t_time := self.t_time
  let b_time := { b_time with Hours := u8 (bcd2bin t_time.h24_Hour10.val t_time.h24_Hour.val) }
  let b_time := { b_time with Minutes := u8 (bcd2bin t_time.Minutes10.val t_time.Minutes.val) }
  let b_time := { b_time with Seconds := u8 (bcd2bin t_time.Seconds10.val t_time.Seconds.val) }
  let b_time := { b_time with Year := u8 (bcd2bin t_time.Year10.val t_time.Year.val) }
  let b_time := { b_time with Month := u8 (bcd2bin t_time.Month10.val t_time.Month.val) }
  let b_time := { b_time with Date := u8 (bcd2bin t_time.Date10.val t_time.Date.val) }
  (dayofweek b_time.Date b_time.Month b_time.Year).map fun dow =>
    let t_time := { t_time with Day := bitfield 8 (by decide) dow }
    let b_time := { b_time with Day := t_time.Day.val }
    ({ self with t_time := t_time }, b_time)

/-- Conversion `%0<width>d` of `sprintf`: decimal digits, a minus sign for a negative
value, zeros after the sign up to `width` characters. -/
def printf_0d (width : Nat) (x : Int) : List Char :=
  let digits := Nat.toDigits 10 x.natAbs
  if x < 0 then
    [Char.ofNat 45] ++ List.replicate (width - 1 - digits.length) (Char.ofNat 48) ++ digits
  else
    List.replicate (width - digits.length) (Char.ofNat 48) ++ digits

/-- Method `_DS1302_get_time(char * buffer)`: the characters written before the terminator. -/
def _DS1302_get_time (self : ds1302_struct) : String :=
  let t_time := self.t_time
  String.mk
    (printf_0d 2 (bcd2bin t_time.h24_Hour10.val t_time.h24_Hour.val) ++ [Char.ofNat 58] ++
     printf_0d 2 (bcd2bin t_time.Minutes10.val t_time.Minutes.val) ++ [Char.ofNat 58] ++
     printf_0d 2 (bcd2bin t_time.Seconds10.val t_time.Seconds.val))

/-- Method `_DS1302_get_date(char * buffer)`: the characters written before the terminator. -/
def _DS1302_get_date (self : ds1302_struct) : String :=
  let t_time := self.t_time
  String.mk
    (printf_0d 2 (bcd2bin t_time.Date10.val t_time.Date.val) ++ [Char.ofNat 47] ++
     printf_0d 2 (bcd2bin t_time.Month10.val t_time.Month.val) ++ [Char.ofNat 47] ++
     printf_0d 4 (2000 + bcd2bin t_time.Year10.val t_time.Year.val))

/-! ## Calendar reference -/

/-- Length of month `m` of the year `2000 + y`, read from `numDayInMonth`. -/
def monthLength (y m : Int) : Int := (numDayInMonth (2000 + y) m).getD 0

/-- Days in the months `1 .. m - 1` of the year `2000 + y`. -/
def daysBeforeMonth (y : Int) : Nat → Int
  | 0 => 0
  | 1 => 0
  | m + 1 => daysBeforeMonth y m + monthLength y m

/-- Days in the years `2000 .. 2000 + y - 1`. -/
def daysBeforeYear : Nat → Int
  | 0 => 0
  | y + 1 => daysBeforeYear y + daysBeforeMonth y 13

/-- Days elapsed from 1 January 2000 to day `d` of month `m` of the year `2000 + y`. -/
def daysSince2000 (d m y : Nat) : Int :=
  daysBeforeYear y + daysBeforeMonth y m + ((d : Int) - 1)

/-- A date `(d, m, y)` of the years 2000 to 2099 that exists in the calendar. -/
def validDate (d m y : Nat) : Prop :=
  y ≤ 99 ∧ 1 ≤ m ∧ m ≤ 12 ∧ 1 ≤ d ∧ (d : Int) ≤ monthLength y m

instance (d m y : Nat) : Decidable (validDate d m y) := by
  unfold validDate
  infer_instance

/-- Year that `dayofweek` computes with: `y += 2000; y -= m < 3`. -/
def dowYear (m y : Int) : Int := y + 2000 - (if m < 3 then 1 else 0)

/-- Entry `t[m-1]` of the table of `dayofweek`, 0 outside the table. -/
def dowOffset (m : Int) : Int := (cIndex dayofweek_t (m - 1)).getD 0

/-- Weekday name of the day that lies `n` days after 1 January 2000, a Saturday. -/
def weekdayNameAfter (n : Nat) : String :=
  ["SAT", "SUN", "MON", "TUE", "WED", "THU", "FRI"].getD (n % 7) ""

/-- The date seven days after `(d, m, y)`: the day number advances by 7 and carries into
the next month, and from December into January of the next year. -/
def weekLater (d m y : Nat) : Nat × Nat × Nat :=
  if ((d : Int) + 7) ≤ monthLength y m then (d + 7, m, y)
  else if m = 12 then (d + 7 - (monthLength y m).toNat, 1, y + 1)
  else (d + 7 - (monthLength y m).toNat, m + 1, y)

/-! ## Observers of the three lines -/

/-- Bits of a byte, least significant first. -/
def byteBits (b : Nat) : List Bool := (List.range 8).map (fun i => bitRead b i != 0)

/-- Byte whose bits, least significant first, are the first eight of the list. -/
def bitsByte (bs : List Bool) : Nat :=
  ((List.range 8).map (fun i => if bs.getD i false then 2 ^ i else 0)).sum

/-- The three lines as the chip sees them, and the bits it has latched: `io` is the level
the controller puts on the data line and `ioMode` the direction of its pin; `past` holds
the sessions before the latest one and `cur` the latest one, each the list of the levels
latched at the rising clock edges (`none` when the controller did not drive the line). -/
structure Wire where
  ce : Bool
  sclk : Bool
  io : Bool
  ioMode : PinMode
  past : List (List (Option Bool))
  cur : Option (List (Option Bool))
  /-- Number of times the controller has released the data line (made its pin an input). -/
  releases : Nat

/-- All sessions seen so far, oldest first. -/
def Wire.sessions (s : Wire) : List (List (Option Bool)) := s.past ++ s.cur.toList

/-- Effect of one call on the lines: a session opens when the enable line rises, and
while it is high every rising edge of the clock latches the data line. -/
def Wire.react (clk dat en : Int) (s : Wire) : Event → Wire
  | Event.digitalWrite pin v =>
    if pin = en then
      if v && !s.ce then { s with ce := true, past := s.sessions, cur := some [] }
      else { s with ce := v }
    else if pin = clk then
      if v && !s.sclk && s.ce then
        { s with sclk := true,
                 cur := some (s.cur.getD [] ++
                   [if s.ioMode = PinMode.OUTPUT then some s.io else none]) }
      else { s with sclk := v }
    else if pin = dat then { s with io := v }
    else s
  | Event.pinMode pin mode =>
    if pin = dat then
      { s with ioMode := mode,
               releases := if mode = PinMode.INPUT then s.releases + 1 else s.releases }
    else s
  | Event.delayMicroseconds _ => s
  | Event.digitalRead _ _ => s

/-- The lines after one bit was put on the data line and latched by a clock pulse. -/
def Wire.latch (s : Wire) (v : Bool) : Wire :=
  { s with io := v, cur := some (s.cur.getD [] ++ [some v]) }

/-- The lines after a trace of calls, from the state `s`. -/
def Wire.observe (clk dat en : Int) (s : Wire) (tr : List Event) : Wire :=
  tr.foldl (Wire.react clk dat en) s

/-- State of a simulated device that stores what a clock burst write sends and plays it
back on a clock burst read. -/
structure Loopback where
  ce : Bool
  sclk : Bool
  io : Bool
  /-- Rising clock edges of the session that belong to the command byte. -/
  n : Nat
  /-- Command byte assembled so far, least significant bit first. -/
  cmd : Nat
  /-- Data-line levels recorded after the command `0xBE`. -/
  mem : List Bool
  /-- Recorded levels not yet played back after the command `0xBF`. -/
  queue : List Bool
  /-- Level the device puts on the data line. -/
  out : Bool

/-- Reaction of the loopback device to one call. -/
def Loopback.react (clk dat en : Int) (s : Loopback) : Event → Loopback
  | Event.digitalWrite pin v =>
    if pin = en then
      if v && !s.ce then { s with ce := true, n := 0, cmd := 0 }
      else { s with ce := v }
    else if pin = clk then
      if v && !s.sclk && s.ce then
        if s.n < 8 then
          let cmd := s.cmd + (if s.io then 2 ^ s.n else 0)
          if s.n + 1 = 8 then
            { s with sclk := true, n := 8, cmd := cmd,
                     mem := if cmd = 0xBE then [] else s.mem,
                     queue := if cmd = 0xBF then s.mem else s.queue }
          else { s with sclk := true, n := s.n + 1, cmd := cmd }
        else if s.cmd = 0xBE then { s with sclk := true, mem := s.mem ++ [s.io] }
        else { s with sclk := true }
      else if !v && s.sclk && s.ce && s.n == 8 && s.cmd == 0xBF then
        { s with sclk := false, out := s.queue.headD false, queue := s.queue.tail }
      else { s with sclk := v }
    else if pin = dat then { s with io := v }
    else s
  | Event.pinMode _ _ => s
  | Event.delayMicroseconds _ => s
  | Event.digitalRead _ _ => s

/-- The loopback device after it recorded one bit of a clock burst write. -/
def Loopback.record (s : Loopback) (v : Bool) : Loopback :=
  { s with io := v, mem := s.mem ++ [v] }

/-- The loopback device after it played back one bit of a clock burst read. -/
def Loopback.play (s : Loopback) : Loopback :=
  { s with sclk := false, out := s.queue.headD false, queue := s.queue.tail }

/-- The byte that the loop of `_DS1302_toggleread` builds from `data` when it runs over
the indices `is` and samples the levels `q` in order. -/
def assemble (data : Nat) : List Nat → List Bool → Nat
  | [], _ => data
  | i :: is, q => assemble (u8 (bitWrite data i (q.headD false))) is q.tail

/-- The loopback device wired to the pins `clk`, `dat`, `en`. -/
def loopbackBoard (clk dat en : Int) : Board Loopback :=
  { react := Loopback.react clk dat en
    level := fun s pin => if pin = dat then s.out else false }

/-! ## Reference values for the statements -/

/-- Two decimal digits of `n`, tens first. -/
def twoDigits (n : Nat) : List Char := [Nat.digitChar (n / 10 % 10), Nat.digitChar (n % 10)]

/-- Four decimal digits of `n`, thousands first. -/
def fourDigits (n : Nat) : List Char :=
  [Nat.digitChar (n / 1000 % 10), Nat.digitChar (n / 100 % 10), Nat.digitChar (n / 10 % 10),
   Nat.digitChar (n % 10)]

/-- Packed BCD byte of `x`: high digit in bits 7-4, low digit in bits 3-0. -/
def bcd (x : Nat) : Nat := 16 * (x / 10) + x % 10

/-- Lines at rest before any call: all low, the data pin an input, no session seen. -/
def idleWire : Wire :=
  { ce := false, sclk := false, io := false, ioMode := PinMode.INPUT, past := [], cur := none,
    releases := 0 }

/-- A loopback device in some state left over from earlier traffic. -/
def exampleLoopback : Loopback :=
  { ce := true, sclk := true, io := true, n := 3, cmd := 5, mem := [true], queue := [false],
    out := true }

/-- An object on the pins 6, 7, 8 whose snapshot has every kind of bit set. -/
def busyHandle : ds1302_struct :=
  { DS1302_SCLK_PIN := 6, DS1302_IO_PIN := 7, DS1302_CE_PIN := 8,
    t_time := ds_time.ofBytes [0x92, 0x83, 0xFE, 0x55, 0xAA, 0x07, 0x99, 0x80], b_time := {} }

/-- A board with nothing attached: it keeps no state and every read is `LOW`. -/
def idleBoard : Board Unit := { react := fun _ _ => (), level := fun _ _ => false }

/-- The empty world of the idle board. -/
def idleWorld : World Unit := { board := (), trace := [] }

/-- An object on the pins 6 (clock), 7 (data), 8 (enable) with an all-zero snapshot. -/
def exampleHandle : ds1302_struct :=
  { DS1302_SCLK_PIN := 6, DS1302_IO_PIN := 7, DS1302_CE_PIN := 8,
    t_time := ds_time.zero, b_time := {} }

/-- Monday 15 April 2013, 10:08:00, the example of the source; the caller says Day 2. -/
def exampleTime : int_time :=
  { Seconds := 0, Minutes := 8, Hours := 10, Day := 2, Date := 15, Month := 4, Year := 13 }

/-- Sunday 2 January 2000, 00:00:00. -/
def sundayTime : int_time :=
  { Seconds := 0, Minutes := 0, Hours := 0, Day := 1, Date := 2, Month := 1, Year := 0 }

/-- A normalized time with out-of-range fields and a valid month. -/
def oversizedTime : int_time :=
  { Seconds := 255, Minutes := 255, Hours := 255, Day := 255, Date := 255, Month := 12,
    Year := 255 }

/-- An object on the pins 6, 7, 8 whose snapshot reads 1 January 2000 with the hour byte
`0xA1`: 12-hour mode, PM, hour 1. -/
def pmHandle : ds1302_struct :=
  { DS1302_SCLK_PIN := 6, DS1302_IO_PIN := 7, DS1302_CE_PIN := 8,
    t_time := ds_time.ofBytes [0x00, 0x00, 0xA1, 0x01, 0x01, 0x00, 0x00, 0x00], b_time := {} }

/-! ## Further observers of a trace -/

/-- The samples taken by `digitalRead`, in order: the pin read and the level returned. -/
def reads (tr : List Event) : List (Int × Bool) :=
  tr.filterMap (fun e =>
    match e with
    | Event.digitalRead pin v => some (pin, v)
    | _ => none)

/-- What the controller did to the clock and data pins: `sclk` and `io` are the levels it
last wrote, `ioMode` the direction of the data pin. -/
structure Pulse where
  sclk : Bool
  io : Bool
  ioMode : PinMode
  /-- Every call that drove the clock line, in order: the level driven and the level last
  written to the data pin at that moment. -/
  clock : List (Bool × Bool)
  /-- Number of calls that drove the clock line HIGH. -/
  highs : Nat
  /-- Number of calls that drove the clock line LOW. -/
  lows : Nat
  /-- Number of `pinMode` calls on the data pin. -/
  modes : Nat

/-- Effect of one call on the record of the clock and data pins. -/
def Pulse.react (clk dat : Int) (s : Pulse) : Event → Pulse
  | Event.digitalWrite pin v =>
    if pin = clk then
      { s with sclk := v, clock := s.clock ++ [(v, s.io)],
               highs := if v then s.highs + 1 else s.highs,
               lows := if v then s.lows else s.lows + 1 }
    else if pin = dat then { s with io := v }
    else s
  | Event.pinMode pin mode =>
    if pin = dat then { s with ioMode := mode, modes := s.modes + 1 } else s
  | Event.delayMicroseconds _ => s
  | Event.digitalRead _ _ => s

/-- The record of the clock and data pins after a trace of calls, from the state `s`. -/
def Pulse.observe (clk dat : Int) (s : Pulse) (tr : List Event) : Pulse :=
  tr.foldl (Pulse.react clk dat) s

/-- The clock calls of a byte written with a low after every bit: for each bit, least
significant first, HIGH then LOW with that bit on the data pin. -/
def bytePulses (data : Nat) : List (Bool × Bool) :=
  (byteBits data).flatMap (fun b => [(true, b), (false, b)])

/-- The levels last written to the three lines, and the number of calls that drove the
clock HIGH or sampled the data line while the enable line was LOW. -/
structure Guard where
  ce : Bool
  sclk : Bool
  io : Bool
  outside : Nat

/-- Effect of one call on the three levels and on the count of calls outside a session. -/
def Guard.react (clk dat en : Int) (s : Guard) : Event → Guard
  | Event.digitalWrite pin v =>
    if pin = en then { s with ce := v }
    else if pin = clk then
      { s with sclk := v, outside := if v && !s.ce then s.outside + 1 else s.outside }
    else if pin = dat then { s with io := v }
    else s
  | Event.pinMode _ _ => s
  | Event.delayMicroseconds _ => s
  | Event.digitalRead pin _ =>
    if pin = dat then { s with outside := if s.ce then s.outside else s.outside + 1 } else s

/-- The three levels and the count after a trace of calls, from the state `s`. -/
def Guard.observe (clk dat en : Int) (s : Guard) (tr : List Event) : Guard :=
  tr.foldl (Guard.react clk dat en) s

/-- Some state of the clock and data pins before a call. -/
def examplePulse : Pulse :=
  { sclk := true, io := true, ioMode := PinMode.INPUT, clock := [(false, true)], highs := 4,
    lows := 9, modes := 2 }

/-- Some state of the three lines before a call: a session left open, clock high. -/
def exampleGuard : Guard := { ce := true, sclk := true, io := false, outside := 0 }

/-- A board whose data line reads HIGH at every sample. -/
def highBoard : Board Unit := { react := fun _ _ => (), level := fun _ _ => true }

/-! # Theorems -/

/-! ## Arithmetic of C on non-negative operands -/

theorem tdiv_of_nonneg {a b : Int} (ha : 0 ≤ a) (hb : 0 ≤ b) : Int.tdiv a b = a / b :=
  Int.tdiv_eq_ediv ha hb

theorem tmod_of_nonneg {a b : Int} (ha : 0 ≤ a) (hb : 0 ≤ b) : Int.tmod a b = a % b :=
  Int.tmod_eq_emod ha hb

theorem bin2bcd_h_nat (n : Nat) : bin2bcd_h (n : Int) = ((n / 10 : Nat) : Int) := by
  unfold bin2bcd_h
  rw [tdiv_of_nonneg (by omega) (by omega)]
  omega

theorem bin2bcd_l_nat (n : Nat) : bin2bcd_l (n : Int) = ((n % 10 : Nat) : Int) := by
  unfold bin2bcd_l
  rw [tmod_of_nonneg (by omega) (by omega)]
  omega

/-- C2. BCD round trip: for every integer `x` with `0 ≤ x ≤ 99` the two digits
`bin2bcd_h x = x / 10` and `bin2bcd_l x = x % 10` lie in `0..9` and
`bcd2bin (bin2bcd_h x) (bin2bcd_l x) = x`. -/
theorem bcd_round_trip (x : Int) (h0 : 0 ≤ x) (h99 : x ≤ 99) :
    bcd2bin (bin2bcd_h x) (bin2bcd_l x) = x ∧
    bin2bcd_h x = x / 10 ∧ bin2bcd_l x = x % 10 ∧
    0 ≤ bin2bcd_h x ∧ bin2bcd_h x ≤ 9 ∧ 0 ≤ bin2bcd_l x ∧ bin2bcd_l x ≤ 9 := by
  unfold bcd2bin bin2bcd_h bin2bcd_l
  rw [tdiv_of_nonneg h0 (by omega), tmod_of_nonneg h0 (by omega)]
  omega

theorem bcd_round_trip_witness :
    bcd2bin (bin2bcd_h 59) (bin2bcd_l 59) = 59 ∧
    bin2bcd_h 59 = 59 / 10 ∧ bin2bcd_l 59 = 59 % 10 ∧
    0 ≤ bin2bcd_h 59 ∧ bin2bcd_h 59 ≤ 9 ∧ 0 ≤ bin2bcd_l 59 ∧ bin2bcd_l 59 ≤ 9 :=
  bcd_round_trip 59 (by decide) (by decide)

/-! ## Calendar -/

theorem tmod_zero_iff (a b : Int) : Int.tmod a b = 0 ↔ a % b = 0 := by
  rw [← Int.dvd_iff_tmod_eq_zero, Int.dvd_iff_emod_eq_zero]

theorem isLeapYear_eq (year : Int) :
    isLeapYear year = if year % 4 = 0 ∧ (year % 100 ≠ 0 ∨ year % 400 = 0) then 1 else 0 := by
  unfold isLeapYear
  simp only [tmod_zero_iff, ne_eq]

theorem isLeapYear_century (k : Nat) (hk : k ≤ 100) :
    isLeapYear (2000 + (k : Int)) = if k % 4 = 0 ∧ k ≠ 100 then 1 else 0 := by
  rw [isLeapYear_eq]
  split_ifs <;> omega

theorem numDayInMonth_cases (year month : Int) (h1 : 1 ≤ month) (h12 : month ≤ 12) :
    numDayInMonth year month =
      some (if month = 2 then (if isLeapYear year = 1 then 29 else 28)
            else if month = 4 ∨ month = 6 ∨ month = 9 ∨ month = 11 then 30 else 31) := by
  have hm : month = 1 ∨ month = 2 ∨ month = 3 ∨ month = 4 ∨ month = 5 ∨ month = 6 ∨
      month = 7 ∨ month = 8 ∨ month = 9 ∨ month = 10 ∨ month = 11 ∨ month = 12 := by omega
  rcases hm with h | h | h | h | h | h | h | h | h | h | h | h <;> subst h
  all_goals first
    | (simp [numDayInMonth, cIndex, num_day_in_month]; done)
    | (simp [numDayInMonth, cIndex, num_day_in_month]; split_ifs <;> rfl)

/-- C4. For every year and every month in `1..12`, `numDayInMonth year month` is the
Gregorian length of the month: 31 for months 1, 3, 5, 7, 8, 10, 12; 30 for months 4, 6, 9,
11; and for month 2 it is 29 when `isLeapYear year` holds and 28 otherwise, so that it is 29
if and only if `isLeapYear year` holds. -/
theorem numDayInMonth_gregorian (year month : Int) (h1 : 1 ≤ month) (h12 : month ≤ 12) :
    (month ∈ [1, 3, 5, 7, 8, 10, 12] → numDayInMonth year month = some 31) ∧
    (month ∈ [4, 6, 9, 11] → numDayInMonth year month = some 30) ∧
    (month = 2 → (isLeapYear year ≠ 0 → numDayInMonth year month = some 29) ∧
                 (isLeapYear year = 0 → numDayInMonth year month = some 28) ∧
                 (numDayInMonth year month = some 29 ↔ isLeapYear year ≠ 0)) := by
  have hc := numDayInMonth_cases year month h1 h12
  have hl := isLeapYear_eq year
  refine ⟨fun hm => ?_, fun hm => ?_, fun hm => ?_⟩
  · simp only [List.mem_cons, List.mem_singleton, List.not_mem_nil, or_false] at hm
    rw [hc]
    rcases hm with h | h | h | h | h | h | h <;> subst h <;> simp
  · simp only [List.mem_cons, List.mem_singleton, List.not_mem_nil, or_false] at hm
    rw [hc]
    rcases hm with h | h | h | h <;> subst h <;> simp
  · subst hm
    rw [hc]
    by_cases hy : year % 4 = 0 ∧ (year % 100 ≠ 0 ∨ year % 400 = 0)
    · rw [if_pos hy] at hl
      simp [hl]
    · rw [if_neg hy] at hl
      simp [hl]

theorem numDayInMonth_gregorian_witness :
    ((2 : Int) ∈ [1, 3, 5, 7, 8, 10, 12] → numDayInMonth 2024 2 = some 31) ∧
    ((2 : Int) ∈ [4, 6, 9, 11] → numDayInMonth 2024 2 = some 30) ∧
    ((2 : Int) = 2 → (isLeapYear 2024 ≠ 0 → numDayInMonth 2024 2 = some 29) ∧
                 (isLeapYear 2024 = 0 → numDayInMonth 2024 2 = some 28) ∧
                 (numDayInMonth 2024 2 = some 29 ↔ isLeapYear 2024 ≠ 0)) :=
  numDayInMonth_gregorian 2024 2 (by decide) (by decide)

theorem monthLength_eq (y : Nat) (hy : y ≤ 100) (m : Int) (h1 : 1 ≤ m) (h12 : m ≤ 12) :
    monthLength y m =
      if m = 2 then (if y % 4 = 0 ∧ y ≠ 100 then 29 else 28)
      else if m = 4 ∨ m = 6 ∨ m = 9 ∨ m = 11 then 30 else 31 := by
  unfold monthLength
  rw [numDayInMonth_cases _ _ h1 h12, isLeapYear_century y hy]
  simp only [Option.getD_some]
  split_ifs <;> first | rfl | omega

theorem daysBeforeMonth_eq (y : Nat) (hy : y ≤ 100) (m : Nat) (h1 : 1 ≤ m) (h13 : m ≤ 13) :
    daysBeforeMonth y m =
      ([0, 31, 59, 90, 120, 151, 181, 212, 243, 273, 304, 334, 365].getD (m - 1) 0 : Int)
        + (if 3 ≤ m ∧ y % 4 = 0 ∧ y ≠ 100 then 1 else 0) := by
  have e (k : Int) (h1 : 1 ≤ k) (h12 : k ≤ 12) := monthLength_eq y hy k h1 h12
  interval_cases m <;>
    simp only [daysBeforeMonth, e 1 (by decide) (by decide), e 2 (by decide) (by decide),
      e 3 (by decide) (by decide), e 4 (by decide) (by decide), e 5 (by decide) (by decide),
      e 6 (by decide) (by decide), e 7 (by decide) (by decide), e 8 (by decide) (by decide),
      e 9 (by decide) (by decide), e 10 (by decide) (by decide), e 11 (by decide) (by decide),
      e 12 (by decide) (by decide), Nat.cast_ofNat, Nat.cast_one] <;>
    simp <;> split_ifs <;> omega

theorem daysBeforeYear_eq (y : Nat) (hy : y ≤ 100) :
    daysBeforeYear y = 365 * (y : Int) + (((y + 3) / 4 : Nat) : Int) := by
  induction y with
  | zero => simp [daysBeforeYear]
  | succ k ih =>
    rw [daysBeforeYear, ih (by omega), daysBeforeMonth_eq k (by omega) 13 (by omega) (by omega)]
    simp
    split_ifs <;> omega

theorem dayofweek_t_lookup (m : Int) (h1 : 1 ≤ m) (h12 : m ≤ 12) :
    cIndex dayofweek_t (m - 1) = some (dowOffset m) ∧ 0 ≤ dowOffset m ∧ dowOffset m ≤ 6 := by
  have hm : m = 1 ∨ m = 2 ∨ m = 3 ∨ m = 4 ∨ m = 5 ∨ m = 6 ∨
      m = 7 ∨ m = 8 ∨ m = 9 ∨ m = 10 ∨ m = 11 ∨ m = 12 := by omega
  rcases hm with h | h | h | h | h | h | h | h | h | h | h | h <;> subst h <;> decide

theorem dowYear_nonneg (m y : Int) (hy : 0 ≤ y) : 0 ≤ dowYear m y := by
  unfold dowYear
  split_ifs <;> omega

theorem dayofweek_eq (d m y : Int) (h1 : 1 ≤ m) (h12 : m ≤ 12) (hd : 0 ≤ d) (hy : 0 ≤ y) :
    dayofweek d m y =
      some ((dowYear m y + dowYear m y / 4 - dowYear m y / 100 + dowYear m y / 400
              + dowOffset m + d) % 7) := by
  obtain ⟨hlook, hT, _⟩ := dayofweek_t_lookup m h1 h12
  have hY := dowYear_nonneg m y hy
  unfold dayofweek
  rw [hlook]
  simp only [Option.map_some']
  change some (Int.tmod (dowYear m y + Int.tdiv (dowYear m y) 4 - Int.tdiv (dowYear m y) 100
    + Int.tdiv (dowYear m y) 400 + dowOffset m + d) 7) = _
  generalize dowYear m y = Y at *
  generalize dowOffset m = T at *
  rw [tdiv_of_nonneg hY (by decide), tdiv_of_nonneg hY (by decide),
    tdiv_of_nonneg hY (by decide), tmod_of_nonneg (by omega) (by decide)]

theorem dayofweek_range (d m y : Int) (h1 : 1 ≤ m) (h12 : m ≤ 12) (hd : 0 ≤ d) (hy : 0 ≤ y) :
    ∃ r : Int, dayofweek d m y = some r ∧ 0 ≤ r ∧ r ≤ 6 := by
  refine ⟨_, dayofweek_eq d m y h1 h12 hd hy, ?_, ?_⟩ <;> omega

theorem weekday_name_shift (n : Int) (hn : 0 ≤ n) :
    MonthNames.get? ((6 + n) % 7).toNat = some (weekdayNameAfter n.toNat) := by
  have hk : n.toNat % 7 < 7 := Nat.mod_lt _ (by decide)
  have e : ((6 + n) % 7).toNat = (6 + n.toNat % 7) % 7 := by omega
  rw [e]
  unfold weekdayNameAfter
  generalize n.toNat % 7 = k at hk
  interval_cases k <;> rfl

theorem daysSince2000_nonneg (d m y : Nat) (hv : validDate d m y) : 0 ≤ daysSince2000 d m y := by
  obtain ⟨hy, hm1, hm12, hd1, hd⟩ := hv
  unfold daysSince2000
  rw [daysBeforeYear_eq y (by omega), daysBeforeMonth_eq y (by omega) m hm1 (by omega)]
  have : (0 : Int) ≤ ([0, 31, 59, 90, 120, 151, 181, 212, 243, 273, 304, 334, 365].getD (m - 1) 0 : Int) := by
    interval_cases m <;> simp
  split_ifs <;> omega

/-- The year terms of `dayofweek` for the years 2000 to 2100, written through `y / 4`. -/
theorem dowYear_sum (m : Int) (y : Nat) (hy : y ≤ 100) :
    dowYear m y + dowYear m y / 4 - dowYear m y / 100 + dowYear m y / 400 =
      if m < 3 then
        (y : Int) + (y : Int) / 4 + (if y % 4 = 0 then 0 else 1) + 2483
      else (y : Int) + (y : Int) / 4 + (if y = 100 then 2484 else 2485) := by
  unfold dowYear
  split_ifs <;> omega

/-- C3. For every calendar date `(d, m, y)` with `y` in `0..99`, `1 ≤ m ≤ 12` and
`1 ≤ d ≤ numDayInMonth (2000 + y) m`, `dayofweek d m y` returns the value
`(6 + days elapsed since 1 January 2000) mod 7`, which lies in `0..6`, and the table
`MonthNames` at that index holds the name of the weekday that lies that many days after
Saturday 1 January 2000 (0 is Sunday, 1 is Monday, up to 6, Saturday). -/
theorem dayofweek_gregorian (d m y : Nat) (hv : validDate d m y) :
    dayofweek d m y = some ((6 + daysSince2000 d m y) % 7) ∧
    0 ≤ (6 + daysSince2000 d m y) % 7 ∧ (6 + daysSince2000 d m y) % 7 ≤ 6 ∧
    MonthNames.get? ((6 + daysSince2000 d m y) % 7).toNat =
      some (weekdayNameAfter (daysSince2000 d m y).toNat) := by
  have hnn := daysSince2000_nonneg d m y hv
  refine ⟨?_, by omega, by omega, weekday_name_shift _ hnn⟩
  obtain ⟨hy, hm1, hm12, hd1, hd⟩ := hv
  rw [dayofweek_eq d m y (by omega) (by omega) (by omega) (by omega)]
  unfold daysSince2000
  rw [daysBeforeYear_eq y (by omega), daysBeforeMonth_eq y (by omega) m hm1 (by omega),
    dowYear_sum m y (by omega)]
  congr 1
  have c3 : (((y + 3) / 4 : Nat) : Int) = (y : Int) / 4 + (if y % 4 = 0 then 0 else 1) := by
    split_ifs <;> omega
  rw [c3]
  interval_cases m <;> simp [show dowOffset 1 = 0 from rfl, show dowOffset 2 = 3 from rfl,
    show dowOffset 3 = 2 from rfl, show dowOffset 4 = 5 from rfl, show dowOffset 5 = 0 from rfl,
    show dowOffset 6 = 3 from rfl, show dowOffset 7 = 5 from rfl, show dowOffset 8 = 1 from rfl,
    show dowOffset 9 = 4 from rfl, show dowOffset 10 = 6 from rfl,
    show dowOffset 11 = 2 from rfl, show dowOffset 12 = 4 from rfl] <;> split_ifs <;> omega

theorem dayofweek_gregorian_witness :
    validDate 15 4 13 ∧ dayofweek 15 4 13 = some 1 ∧
    MonthNames.get? 1 = some "MON" ∧
    (dayofweek (15 : Nat) (4 : Nat) (13 : Nat) = some ((6 + daysSince2000 15 4 13) % 7) ∧
    0 ≤ (6 + daysSince2000 15 4 13) % 7 ∧ (6 + daysSince2000 15 4 13) % 7 ≤ 6 ∧
    MonthNames.get? ((6 + daysSince2000 15 4 13) % 7).toNat =
      some (weekdayNameAfter (daysSince2000 15 4 13).toNat)) :=
  ⟨by decide, by decide, by decide, dayofweek_gregorian 15 4 13 (by decide)⟩

theorem dayofweek_add_seven (d m y : Int) (h1 : 1 ≤ m) (h12 : m ≤ 12) (hd : 0 ≤ d)
    (hy : 0 ≤ y) : dayofweek (d + 7) m y = dayofweek d m y := by
  rw [dayofweek_eq d m y h1 h12 hd hy, dayofweek_eq (d + 7) m y h1 h12 (by omega) hy]
  congr 1
  generalize dowYear m y + dowYear m y / 4 - dowYear m y / 100 + dowYear m y / 400
    + dowOffset m = X
  omega

theorem dayofweek_next_month (d m y : Nat) (hy : y ≤ 99) (h1 : 1 ≤ m) (h11 : m ≤ 11)
    (hd : 1 ≤ d) (hlt : monthLength y m < (d : Int) + 7) (hle : (d : Int) ≤ monthLength y m) :
    dayofweek ((d : Int) + 7 - monthLength y m) ((m : Int) + 1) y = dayofweek d m y := by
  have hl := monthLength_eq y (by omega) m (by omega) (by omega)
  have hL : 28 ≤ monthLength y m ∧ monthLength y m ≤ 31 := by
    rw [hl]; split_ifs <;> omega
  rw [dayofweek_eq d m y (by omega) (by omega) (by omega) (by omega),
    dayofweek_eq _ _ y (by omega) (by omega) (by omega) (by omega),
    dowYear_sum _ y (by omega), dowYear_sum _ y (by omega)]
  congr 1
  generalize monthLength y m = L at *
  subst hl
  interval_cases m <;> simp [show dowOffset 1 = 0 from rfl, show dowOffset 2 = 3 from rfl,
    show dowOffset 3 = 2 from rfl, show dowOffset 4 = 5 from rfl, show dowOffset 5 = 0 from rfl,
    show dowOffset 6 = 3 from rfl, show dowOffset 7 = 5 from rfl, show dowOffset 8 = 1 from rfl,
    show dowOffset 9 = 4 from rfl, show dowOffset 10 = 6 from rfl,
    show dowOffset 11 = 2 from rfl, show dowOffset 12 = 4 from rfl,
    show dowOffset (1 + 1) = 3 from rfl, show dowOffset (2 + 1) = 2 from rfl,
    show dowOffset (3 + 1) = 5 from rfl, show dowOffset (4 + 1) = 0 from rfl,
    show dowOffset (5 + 1) = 3 from rfl, show dowOffset (6 + 1) = 5 from rfl,
    show dowOffset (7 + 1) = 1 from rfl, show dowOffset (8 + 1) = 4 from rfl,
    show dowOffset (9 + 1) = 6 from rfl, show dowOffset (10 + 1) = 2 from rfl,
    show dowOffset (11 + 1) = 4 from rfl] <;> split_ifs <;> omega

theorem dayofweek_next_year (d y : Nat) (hy : y ≤ 99)
    (hlt : 31 < (d : Int) + 7) (hle : (d : Int) ≤ 31) :
    dayofweek ((d : Int) + 7 - 31) 1 ((y + 1 : Nat) : Int) = dayofweek d 12 y := by
  rw [dayofweek_eq d 12 y (by omega) (by omega) (by omega) (by omega),
    dayofweek_eq _ 1 _ (by omega) (by omega) (by omega) (by omega),
    dowYear_sum _ y (by omega), dowYear_sum _ (y + 1) (by omega)]
  congr 1
  simp [show dowOffset 1 = 0 from rfl, show dowOffset 12 = 4 from rfl]
  split_ifs <;> omega

/-- C5. For every calendar date `(d, m, y)` with `y` in `0..99`, `1 ≤ m ≤ 12` and
`1 ≤ d ≤ numDayInMonth (2000 + y) m`, `dayofweek` returns a value, and returns the same
value for the date seven days later (with the carry into the next month, and from December
into January of the year `y + 1`). -/
theorem dayofweek_week_periodic (d m y : Nat) (hv : validDate d m y) :
    ∃ r : Int, dayofweek d m y = some r ∧
      dayofweek ((weekLater d m y).1 : Nat) ((weekLater d m y).2.1 : Nat)
        ((weekLater d m y).2.2 : Nat) = some r := by
  obtain ⟨hy, hm1, hm12, hd1, hd⟩ := hv
  have hs := dayofweek_eq d m y (by omega) (by omega) (by omega) (by omega)
  refine ⟨_, hs, ?_⟩
  rw [← hs]
  have hl := monthLength_eq y (by omega) m (by omega) (by omega)
  have hL : 28 ≤ monthLength y m ∧ monthLength y m ≤ 31 := by
    rw [hl]; split_ifs <;> omega
  unfold weekLater
  split_ifs with h7 h12
  · have := dayofweek_add_seven d m y (by omega) (by omega) (by omega) (by omega)
    show dayofweek ((d + 7 : Nat) : Int) (m : Int) (y : Int) = _
    rw [Nat.cast_add]
    exact this
  · subst h12
    have h31 : monthLength y (12 : Nat) = 31 := by rw [hl]; rfl
    rw [h31] at h7
    have := dayofweek_next_year d y hy (by omega) (by omega)
    have e : ((d + 7 - Int.toNat (monthLength y (12 : Nat)) : Nat) : Int) = (d : Int) + 7 - 31 := by
      omega
    show dayofweek ((d + 7 - Int.toNat (monthLength y (12 : Nat)) : Nat) : Int) ((1 : Nat) : Int)
      ((y + 1 : Nat) : Int) = _
    rw [e]
    exact this
  · have := dayofweek_next_month d m y hy hm1 (by omega) hd1 (by omega) hd
    have e : ((d + 7 - Int.toNat (monthLength y m) : Nat) : Int)
        = (d : Int) + 7 - monthLength y m := by omega
    show dayofweek ((d + 7 - Int.toNat (monthLength y m) : Nat) : Int) ((m + 1 : Nat) : Int)
      (y : Int) = _
    rw [e, Nat.cast_add]
    exact this

theorem dayofweek_week_periodic_witness :
    validDate 25 12 99 ∧ weekLater 25 12 99 = (1, 1, 100) ∧
    ∃ r : Int, dayofweek (25 : Nat) (12 : Nat) (99 : Nat) = some r ∧
      dayofweek ((weekLater 25 12 99).1 : Nat) ((weekLater 25 12 99).2.1 : Nat)
        ((weekLater 25 12 99).2.2 : Nat) = some r :=
  ⟨by decide, by decide, dayofweek_week_periodic 25 12 99 (by decide)⟩

/-! ## Encoding and decoding of the snapshot -/

@[simp] theorem bitfield_val (n : Nat) (hn : 0 < n) (x : Int) :
    (bitfield n hn x).val = (x % (n : Int)).toNat := rfl

/-- The snapshot that `_DS1302_set_date_time` builds, field by field. -/
theorem set_date_time_fill_eq (b : int_time) (dow : Int)
    (hdow : dayofweek b.Date b.Month b.Year = some dow) :
    set_date_time_fill b = some
      { Seconds := bitfield 16 (by decide) ((b.Seconds % 10 : Nat) : Int)
        Seconds10 := bitfield 8 (by decide) ((b.Seconds / 10 : Nat) : Int)
        CH := 0
        Minutes := bitfield 16 (by decide) ((b.Minutes % 10 : Nat) : Int)
        Minutes10 := bitfield 8 (by decide) ((b.Minutes / 10 : Nat) : Int)
        reserved1 := 0
        h24_Hour := bitfield 16 (by decide) ((b.Hours % 10 : Nat) : Int)
        h24_Hour10 := bitfield 4 (by decide) ((b.Hours / 10 : Nat) : Int)
        h24_reserved2 := 0
        h24_hour_12_24 := 0
        Date := bitfield 16 (by decide) ((b.Date % 10 : Nat) : Int)
        Date10 := bitfield 4 (by decide) ((b.Date / 10 : Nat) : Int)
        reserved3 := 0
        Month := bitfield 16 (by decide) ((b.Month % 10 : Nat) : Int)
        Month10 := bitfield 2 (by decide) ((b.Month / 10 : Nat) : Int)
        reserved4 := 0
        Day := bitfield 8 (by decide) dow
        reserved5 := 0
        Year := bitfield 16 (by decide) ((b.Year % 10 : Nat) : Int)
        Year10 := bitfield 16 (by decide) ((b.Year / 10 : Nat) : Int)
        reserved6 := 0
        WP := 0 } := by
  unfold set_date_time_fill
  rw [hdow]
  simp only [Option.map_some', bin2bcd_h_nat, bin2bcd_l_nat]
  rfl





/-- The digits that `_DS1302_set_date_time` stores for a normalized time whose fields are
in their ranges: no digit is truncated. -/
theorem set_date_time_fill_valid (b : int_time)
    (hs : b.Seconds ≤ 59) (hm : b.Minutes ≤ 59) (hh : b.Hours ≤ 23)
    (hd : b.Date ≤ 31) (hmo1 : 1 ≤ b.Month) (hmo : b.Month ≤ 12) (hy : b.Year ≤ 99) :
    ∃ (T : ds_time) (dow : Int),
      dayofweek b.Date b.Month b.Year = some dow ∧ set_date_time_fill b = some T ∧
      (T.Day.val : Int) = dow ∧
      T.Seconds.val = b.Seconds % 10 ∧ T.Seconds10.val = b.Seconds / 10 ∧
      T.Minutes.val = b.Minutes % 10 ∧ T.Minutes10.val = b.Minutes / 10 ∧
      T.h24_Hour.val = b.Hours % 10 ∧ T.h24_Hour10.val = b.Hours / 10 ∧
      T.Date.val = b.Date % 10 ∧ T.Date10.val = b.Date / 10 ∧
      T.Month.val = b.Month % 10 ∧ T.Month10.val = b.Month / 10 ∧
      T.Year.val = b.Year % 10 ∧ T.Year10.val = b.Year / 10 := by
  obtain ⟨dow, hdow, h0, h6⟩ :=
    dayofweek_range b.Date b.Month b.Year (by omega) (by omega) (by omega) (by omega)
  refine ⟨_, dow, hdow, set_date_time_fill_eq b dow hdow, ?_⟩
  simp only [bitfield_val]
  refine ⟨?_, ?_, ?_, ?_, ?_, ?_, ?_, ?_, ?_, ?_, ?_, ?_, ?_⟩ <;> omega

theorem set_date_time_some {σ : Type} (B : Board σ) (self : ds1302_struct) (w : World σ)
    (b : int_time) (T : ds_time) (h : set_date_time_fill b = some T) :
    _DS1302_set_date_time B self b w =
      some ({ self with t_time := T },
            DS1302_clock_burst_write B { self with t_time := T } w) := by
  simp only [_DS1302_set_date_time, h, Option.map_some']

theorem decode_digits (x : Nat) (h : x < 256) :
    u8 (bcd2bin ((x / 10 : Nat) : Int) ((x % 10 : Nat) : Int)) = x := by
  unfold u8 bcd2bin
  omega

/-- The result of `_DS1302_get_time_and_date` once `dayofweek` has returned `dow`. -/
theorem get_time_and_date_some (self : ds1302_struct) (out : int_time) (dow : Int)
    (h : dayofweek (u8 (bcd2bin self.t_time.Date10.val self.t_time.Date.val))
          (u8 (bcd2bin self.t_time.Month10.val self.t_time.Month.val))
          (u8 (bcd2bin self.t_time.Year10.val self.t_time.Year.val)) = some dow) :
    _DS1302_get_time_and_date self out =
      some ({ self with t_time := { self.t_time with Day := bitfield 8 (by decide) dow } },
            { Seconds := u8 (bcd2bin self.t_time.Seconds10.val self.t_time.Seconds.val)
              Minutes := u8 (bcd2bin self.t_time.Minutes10.val self.t_time.Minutes.val)
              Hours := u8 (bcd2bin self.t_time.h24_Hour10.val self.t_time.h24_Hour.val)
              Day := (bitfield 8 (by decide) dow).val
              Date := u8 (bcd2bin self.t_time.Date10.val self.t_time.Date.val)
              Month := u8 (bcd2bin self.t_time.Month10.val self.t_time.Month.val)
              Year := u8 (bcd2bin self.t_time.Year10.val self.t_time.Year.val) }) := by
  simp only [_DS1302_get_time_and_date, h, Option.map_some']

/-- C1. Encode-then-decode round trip: for every normalized time with Seconds and Minutes
in `0..59`, Hours in `0..23`, Date in `1..31`, Month in `1..12` and Year in `0..99` (Day
arbitrary), `_DS1302_set_date_time` followed by `_DS1302_get_time_and_date` on the held
snapshot both return, and the result has the same Seconds, Minutes, Hours, Date, Month and
Year, and its Day is `dayofweek Date Month Year`. -/
theorem set_then_get_round_trip {σ : Type} (B : Board σ) (self : ds1302_struct)
    (w : World σ) (b out : int_time)
    (hs : b.Seconds ≤ 59) (hm : b.Minutes ≤ 59) (hh : b.Hours ≤ 23)
    (hd1 : 1 ≤ b.Date) (hd : b.Date ≤ 31) (hmo1 : 1 ≤ b.Month) (hmo : b.Month ≤ 12)
    (hy : b.Year ≤ 99) :
    ∃ self1 w1 self2 r,
      _DS1302_set_date_time B self b w = some (self1, w1) ∧
      _DS1302_get_time_and_date self1 out = some (self2, r) ∧
      r.Seconds = b.Seconds ∧ r.Minutes = b.Minutes ∧ r.Hours = b.Hours ∧
      r.Date = b.Date ∧ r.Month = b.Month ∧ r.Year = b.Year ∧
      dayofweek b.Date b.Month b.Year = some (r.Day : Int) := by
  have _ := hd1
  obtain ⟨T, dow, hdow, hfill, hDay, hS, hS10, hM, hM10, hH, hH10, hD, hD10, hMo, hMo10,
    hY, hY10⟩ := set_date_time_fill_valid b hs hm hh hd hmo1 hmo hy
  have h7 : T.Day.val < 8 := T.Day.isLt
  have e8 : (((dow % ((8 : Nat) : Int)).toNat : Nat) : Int) = dow := by omega
  have eS := decode_digits b.Seconds (by omega)
  have eM := decode_digits b.Minutes (by omega)
  have eH := decode_digits b.Hours (by omega)
  have eD := decode_digits b.Date (by omega)
  have eMo := decode_digits b.Month (by omega)
  have eY := decode_digits b.Year (by omega)
  have hdec : dayofweek
      (u8 (bcd2bin ({ self with t_time := T } : ds1302_struct).t_time.Date10.val
        ({ self with t_time := T } : ds1302_struct).t_time.Date.val))
      (u8 (bcd2bin ({ self with t_time := T } : ds1302_struct).t_time.Month10.val
        ({ self with t_time := T } : ds1302_struct).t_time.Month.val))
      (u8 (bcd2bin ({ self with t_time := T } : ds1302_struct).t_time.Year10.val
        ({ self with t_time := T } : ds1302_struct).t_time.Year.val)) = some dow := by
    simp only [hD, hD10, hMo, hMo10, hY, hY10, eD, eMo, eY, hdow]
  refine ⟨_, _, _, _, set_date_time_some B self w b T hfill,
    get_time_and_date_some _ out dow hdec, ?_⟩
  simp only [hS, hS10, hM, hM10, hH, hH10, hD, hD10, hMo, hMo10, hY, hY10, eS, eM, eH, eD,
    eMo, eY, hdow, bitfield_val, e8, true_and]

theorem set_then_get_round_trip_witness :
    (exampleTime.Seconds ≤ 59 ∧ exampleTime.Minutes ≤ 59 ∧ exampleTime.Hours ≤ 23 ∧
      1 ≤ exampleTime.Date ∧ exampleTime.Date ≤ 31 ∧ 1 ≤ exampleTime.Month ∧
      exampleTime.Month ≤ 12 ∧ exampleTime.Year ≤ 99) ∧
    ∃ self1 w1 self2 r,
      _DS1302_set_date_time idleBoard exampleHandle exampleTime idleWorld = some (self1, w1) ∧
      _DS1302_get_time_and_date self1 {} = some (self2, r) ∧
      r.Seconds = exampleTime.Seconds ∧ r.Minutes = exampleTime.Minutes ∧
      r.Hours = exampleTime.Hours ∧ r.Date = exampleTime.Date ∧
      r.Month = exampleTime.Month ∧ r.Year = exampleTime.Year ∧
      dayofweek exampleTime.Date exampleTime.Month exampleTime.Year = some (r.Day : Int) :=
  ⟨by decide,
   set_then_get_round_trip idleBoard exampleHandle idleWorld exampleTime {}
    (by decide) (by decide) (by decide) (by decide) (by decide) (by decide) (by decide)
    (by decide)⟩

/-! ## Formatting -/

theorem printf_02d_lt_100 : ∀ n : Fin 100,
    printf_0d 2 ((n.val : Nat) : Int) = twoDigits n.val := by
  decide

theorem printf_04d_2000 : ∀ n : Fin 100,
    printf_0d 4 (2000 + ((n.val : Nat) : Int)) = fourDigits (2000 + n.val) := by
  decide

theorem printf_02d_digits (x : Nat) (h : x < 100) :
    printf_0d 2 (bcd2bin ((x / 10 : Nat) : Int) ((x % 10 : Nat) : Int)) = twoDigits x := by
  have e : bcd2bin ((x / 10 : Nat) : Int) ((x % 10 : Nat) : Int) = (x : Int) := by
    unfold bcd2bin; omega
  rw [e]
  exact printf_02d_lt_100 ⟨x, h⟩

theorem printf_04d_digits (x : Nat) (h : x < 100) :
    printf_0d 4 (2000 + bcd2bin ((x / 10 : Nat) : Int) ((x % 10 : Nat) : Int))
      = fourDigits (2000 + x) := by
  have e : bcd2bin ((x / 10 : Nat) : Int) ((x % 10 : Nat) : Int) = (x : Int) := by
    unfold bcd2bin; omega
  rw [e]
  exact printf_04d_2000 ⟨x, h⟩

/-- C6. End-to-end formatting: for every normalized time with Seconds and Minutes in
`0..59`, Hours in `0..23`, Date in `1..31`, Month in `1..12` and Year in `0..99`,
`_DS1302_set_date_time` returns, and afterwards `_DS1302_get_time` writes the two-digit
decimals of Hours, Minutes, Seconds joined by `:` and `_DS1302_get_date` writes the
two-digit Date and Month and the four-digit number `2000 + Year` joined by `/`. -/
theorem set_then_format {σ : Type} (B : Board σ) (self : ds1302_struct)
    (w : World σ) (b : int_time)
    (hs : b.Seconds ≤ 59) (hm : b.Minutes ≤ 59) (hh : b.Hours ≤ 23)
    (hd1 : 1 ≤ b.Date) (hd : b.Date ≤ 31) (hmo1 : 1 ≤ b.Month) (hmo : b.Month ≤ 12)
    (hy : b.Year ≤ 99) :
    ∃ self1 w1,
      _DS1302_set_date_time B self b w = some (self1, w1) ∧
      _DS1302_get_time self1 =
        String.mk (twoDigits b.Hours ++ [':'] ++ twoDigits b.Minutes ++ [':'] ++
          twoDigits b.Seconds) ∧
      _DS1302_get_date self1 =
        String.mk (twoDigits b.Date ++ ['/'] ++ twoDigits b.Month ++ ['/'] ++
          fourDigits (2000 + b.Year)) := by
  have _ := hd1
  obtain ⟨T, dow, hdow, hfill, hDay, hS, hS10, hM, hM10, hH, hH10, hD, hD10, hMo, hMo10,
    hY, hY10⟩ := set_date_time_fill_valid b hs hm hh hd hmo1 hmo hy
  refine ⟨_, _, set_date_time_some B self w b T hfill, ?_, ?_⟩
  · simp only [_DS1302_get_time, hS, hS10, hM, hM10, hH, hH10,
      printf_02d_digits b.Seconds (by omega), printf_02d_digits b.Minutes (by omega),
      printf_02d_digits b.Hours (by omega)]
  · simp only [_DS1302_get_date, hD, hD10, hMo, hMo10, hY, hY10,
      printf_02d_digits b.Date (by omega), printf_02d_digits b.Month (by omega),
      printf_04d_digits b.Year (by omega)]

theorem set_then_format_witness :
    (exampleTime.Seconds ≤ 59 ∧ exampleTime.Minutes ≤ 59 ∧ exampleTime.Hours ≤ 23 ∧
      1 ≤ exampleTime.Date ∧ exampleTime.Date ≤ 31 ∧ 1 ≤ exampleTime.Month ∧
      exampleTime.Month ≤ 12 ∧ exampleTime.Year ≤ 99) ∧
    ∃ self1 w1,
      _DS1302_set_date_time idleBoard exampleHandle exampleTime idleWorld = some (self1, w1) ∧
      _DS1302_get_time self1 = "10:08:00" ∧ _DS1302_get_date self1 = "15/04/2013" :=
  ⟨by decide,
   set_then_format idleBoard exampleHandle idleWorld exampleTime
    (by decide) (by decide) (by decide) (by decide) (by decide) (by decide) (by decide)
    (by decide)⟩


/-! ## Range of the stored day of week -/

/-- C7 (the code at a failing input). Sunday 2 January 2000: `_DS1302_set_date_time`
stores Day 0 in the snapshot, and `_DS1302_get_time_and_date` stores 0 in the snapshot and
in the Day of its output, outside the documented range `1..7`. -/
theorem day_of_week_zero_on_sunday :
    ∃ self1 w1 self2 r,
      _DS1302_set_date_time idleBoard exampleHandle sundayTime idleWorld = some (self1, w1) ∧
      self1.t_time.toBytes = [0x00, 0x00, 0x00, 0x02, 0x01, 0x00, 0x00, 0x00] ∧
      _DS1302_get_time_and_date self1 {} = some (self2, r) ∧
      r.Date = 2 ∧ r.Month = 1 ∧ r.Year = 0 ∧
      r.Day = 0 ∧ self2.t_time.Day.val = 0 ∧ ¬ (1 ≤ r.Day ∧ r.Day ≤ 7) := by
  have hfill : set_date_time_fill sundayTime = some (ds_time.ofBytes [0, 0, 0, 2, 1, 0, 0, 0]) := by
    decide
  refine ⟨_, _, _, _, set_date_time_some idleBoard exampleHandle idleWorld sundayTime _ hfill,
    by decide, get_time_and_date_some _ {} 0 (by decide), ?_⟩
  decide

/-! ## Flag and reserved bits -/

/-- C9. For every normalized time whose Month is in `1..12`, whatever its other fields
(also out of range, such as Seconds 255), `_DS1302_set_date_time` returns and the snapshot
it builds has clock-halt, `reserved1`, the 12/24 flag, `reserved2`, `reserved3`,
`reserved4`, `reserved5`, `reserved6` and write-protect all zero; in the bytes: bit 7 of
bytes 0 and 1, bits 7-6 of bytes 2 and 3, bits 7-5 of byte 4 and bits 7-3 of byte 5 are
zero and byte 7 is zero. -/
theorem set_date_time_flags_zero {σ : Type} (B : Board σ) (self : ds1302_struct)
    (w : World σ) (b : int_time) (hmo1 : 1 ≤ b.Month) (hmo : b.Month ≤ 12) :
    ∃ self1 w1,
      _DS1302_set_date_time B self b w = some (self1, w1) ∧
      self1.t_time.CH = 0 ∧ self1.t_time.reserved1 = 0 ∧
      self1.t_time.h24_hour_12_24 = 0 ∧ self1.t_time.h24_reserved2 = 0 ∧
      self1.t_time.reserved3 = 0 ∧ self1.t_time.reserved4 = 0 ∧
      self1.t_time.reserved5 = 0 ∧ self1.t_time.reserved6 = 0 ∧ self1.t_time.WP = 0 ∧
      self1.t_time.toBytes.getD 0 0 / 128 = 0 ∧
      self1.t_time.toBytes.getD 1 0 / 128 = 0 ∧
      self1.t_time.toBytes.getD 2 0 / 64 = 0 ∧
      self1.t_time.toBytes.getD 3 0 / 64 = 0 ∧
      self1.t_time.toBytes.getD 4 0 / 32 = 0 ∧
      self1.t_time.toBytes.getD 5 0 / 8 = 0 ∧
      self1.t_time.toBytes.getD 7 0 = 0 := by
  obtain ⟨dow, hdow, -, -⟩ :=
    dayofweek_range b.Date b.Month b.Year (by omega) (by omega) (by omega) (by omega)
  refine ⟨_, _, set_date_time_some B self w b _ (set_date_time_fill_eq b dow hdow), ?_⟩
  refine ⟨rfl, rfl, rfl, rfl, rfl, rfl, rfl, rfl, rfl, ?_⟩
  simp only [ds_time.toBytes, bitfield_val, List.getD_cons_zero, List.getD_cons_succ,
    Fin.val_zero, Fin.isValue]
  refine ⟨?_, ?_, ?_, ?_, ?_, ?_, ?_⟩ <;> first | omega | trivial

theorem set_date_time_flags_zero_witness :
    (1 ≤ oversizedTime.Month ∧ oversizedTime.Month ≤ 12 ∧ oversizedTime.Seconds = 255) ∧
    ∃ self1 w1,
      _DS1302_set_date_time idleBoard exampleHandle oversizedTime idleWorld
        = some (self1, w1) ∧
      self1.t_time.CH = 0 ∧ self1.t_time.reserved1 = 0 ∧
      self1.t_time.h24_hour_12_24 = 0 ∧ self1.t_time.h24_reserved2 = 0 ∧
      self1.t_time.reserved3 = 0 ∧ self1.t_time.reserved4 = 0 ∧
      self1.t_time.reserved5 = 0 ∧ self1.t_time.reserved6 = 0 ∧ self1.t_time.WP = 0 ∧
      self1.t_time.toBytes.getD 0 0 / 128 = 0 ∧
      self1.t_time.toBytes.getD 1 0 / 128 = 0 ∧
      self1.t_time.toBytes.getD 2 0 / 64 = 0 ∧
      self1.t_time.toBytes.getD 3 0 / 64 = 0 ∧
      self1.t_time.toBytes.getD 4 0 / 32 = 0 ∧
      self1.t_time.toBytes.getD 5 0 / 8 = 0 ∧
      self1.t_time.toBytes.getD 7 0 = 0 :=
  ⟨by decide,
   set_date_time_flags_zero idleBoard exampleHandle idleWorld oversizedTime
    (by decide) (by decide)⟩

/-! ## The transport seen on the lines -/

theorem range_eight : List.range 8 = [0, 1, 2, 3, 4, 5, 6, 7] := by decide

theorem latch_foldl (bits : List Bool) (s : Wire) :
    (bits.foldl Wire.latch s).ce = s.ce ∧ (bits.foldl Wire.latch s).sclk = s.sclk ∧
    (bits.foldl Wire.latch s).ioMode = s.ioMode ∧ (bits.foldl Wire.latch s).past = s.past ∧
    (bits.foldl Wire.latch s).releases = s.releases ∧
    (bits ≠ [] → (bits.foldl Wire.latch s).cur = some (s.cur.getD [] ++ bits.map some)) := by
  induction bits generalizing s with
  | nil => simp
  | cons v rest ih =>
    obtain ⟨h1, h2, h3, h4, h5, h6⟩ := ih (s.latch v)
    simp only [List.foldl_cons]
    refine ⟨h1, h2, h3, h4, h5, fun _ => ?_⟩
    by_cases hr : rest = []
    · subst hr
      simp [Wire.latch]
    · rw [h6 hr]
      simp [Wire.latch]

section WireLemmas

variable {σ : Type} (B : Board σ) (clk dat en : Int)

theorem observe_emit (s0 : Wire) (e : Event) (w : World σ) :
    Wire.observe clk dat en s0 (emit B e w).trace =
      Wire.react clk dat en (Wire.observe clk dat en s0 w.trace) e := by
  simp [emit, Wire.observe, List.foldl_append]

/-- One iteration of `_DS1302_togglewrite` without release, seen on the lines inside a
session with the clock low: the bit is put on the data line and latched. -/
theorem observe_togglewrite_body (hce : clk ≠ en) (hde : dat ≠ en) (hdc : dat ≠ clk)
    (self : ds1302_struct) (hclk : self.DS1302_SCLK_PIN = clk) (hdat : self.DS1302_IO_PIN = dat)
    (s0 : Wire) (data i : Nat) (w : World σ)
    (h1 : (Wire.observe clk dat en s0 w.trace).ce = true)
    (h2 : (Wire.observe clk dat en s0 w.trace).sclk = false)
    (h3 : (Wire.observe clk dat en s0 w.trace).ioMode = PinMode.OUTPUT) :
    Wire.observe clk dat en s0 (togglewrite_body B self data 0 w i).trace =
      (Wire.observe clk dat en s0 w.trace).latch (bitRead data i != 0) := by
  simp only [togglewrite_body, digitalWrite, delayMicroseconds, ne_eq, not_true_eq_false,
    false_and, if_false, observe_emit, hclk, hdat]
  generalize Wire.observe clk dat en s0 w.trace = s at *
  cases s
  simp_all [Wire.react, Wire.latch]

theorem observe_togglewrite_fold (hce : clk ≠ en) (hde : dat ≠ en) (hdc : dat ≠ clk)
    (self : ds1302_struct) (hclk : self.DS1302_SCLK_PIN = clk) (hdat : self.DS1302_IO_PIN = dat)
    (s0 : Wire) (data : Nat) (is : List Nat) (w : World σ)
    (h1 : (Wire.observe clk dat en s0 w.trace).ce = true)
    (h2 : (Wire.observe clk dat en s0 w.trace).sclk = false)
    (h3 : (Wire.observe clk dat en s0 w.trace).ioMode = PinMode.OUTPUT) :
    Wire.observe clk dat en s0 (is.foldl (togglewrite_body B self data 0) w).trace =
      (is.map (fun i => bitRead data i != 0)).foldl Wire.latch
        (Wire.observe clk dat en s0 w.trace) := by
  induction is generalizing w with
  | nil => rfl
  | cons i rest ih =>
    have hb := observe_togglewrite_body B clk dat en hce hde hdc self hclk hdat s0 data i w h1 h2 h3
    simp only [List.foldl_cons, List.map_cons]
    rw [ih (togglewrite_body B self data 0 w i) (by rw [hb]; exact h1) (by rw [hb]; exact h2)
      (by rw [hb]; exact h3), hb]

/-- A byte written by `_DS1302_togglewrite` without release is latched least significant
bit first. -/
theorem observe_togglewrite (hce : clk ≠ en) (hde : dat ≠ en) (hdc : dat ≠ clk)
    (self : ds1302_struct) (hclk : self.DS1302_SCLK_PIN = clk) (hdat : self.DS1302_IO_PIN = dat)
    (s0 : Wire) (data : Nat) (w : World σ)
    (h1 : (Wire.observe clk dat en s0 w.trace).ce = true)
    (h2 : (Wire.observe clk dat en s0 w.trace).sclk = false)
    (h3 : (Wire.observe clk dat en s0 w.trace).ioMode = PinMode.OUTPUT) :
    Wire.observe clk dat en s0 (_DS1302_togglewrite B self data 0 w).trace =
      (byteBits data).foldl Wire.latch (Wire.observe clk dat en s0 w.trace) := by
  unfold _DS1302_togglewrite byteBits
  exact observe_togglewrite_fold B clk dat en hce hde hdc self hclk hdat s0 data _ w h1 h2 h3

/-- The bytes written by the loop of `DS1302_clock_burst_write` are latched in index order. -/
theorem observe_burst_write_fold (hce : clk ≠ en) (hde : dat ≠ en) (hdc : dat ≠ clk)
    (self : ds1302_struct) (hclk : self.DS1302_SCLK_PIN = clk) (hdat : self.DS1302_IO_PIN = dat)
    (s0 : Wire) (is : List Nat) (w : World σ)
    (h1 : (Wire.observe clk dat en s0 w.trace).ce = true)
    (h2 : (Wire.observe clk dat en s0 w.trace).sclk = false)
    (h3 : (Wire.observe clk dat en s0 w.trace).ioMode = PinMode.OUTPUT) :
    Wire.observe clk dat en s0 (is.foldl (burst_write_body B self) w).trace =
      (is.flatMap (fun i => byteBits (self.t_time.toBytes.getD i 0))).foldl Wire.latch
        (Wire.observe clk dat en s0 w.trace) := by
  induction is generalizing w with
  | nil => rfl
  | cons i rest ih =>
    have hb := observe_togglewrite B clk dat en hce hde hdc self hclk hdat s0
      (self.t_time.toBytes.getD i 0) w h1 h2 h3
    obtain ⟨l1, l2, l3, -, -, -⟩ := latch_foldl (byteBits (self.t_time.toBytes.getD i 0))
      (Wire.observe clk dat en s0 w.trace)
    simp only [List.foldl_cons, List.flatMap_cons, List.foldl_append]
    have hb2 : Wire.observe clk dat en s0 (burst_write_body B self w i).trace = _ := hb
    rw [ih (burst_write_body B self w i) (by rw [hb2, l1]; exact h1) (by rw [hb2, l2]; exact h2)
      (by rw [hb2, l3]; exact h3), hb2]

/-- The lines after `_DS1302_start`: a new, empty session is open and the clock is low. -/
theorem observe_start (hce : clk ≠ en) (hde : dat ≠ en) (hdc : dat ≠ clk)
    (self : ds1302_struct) (hclk : self.DS1302_SCLK_PIN = clk) (hdat : self.DS1302_IO_PIN = dat)
    (hen : self.DS1302_CE_PIN = en) (s0 : Wire) (w : World σ) :
    Wire.observe clk dat en s0 (_DS1302_start B self w).trace =
      { Wire.observe clk dat en s0 w.trace with
        ce := true, sclk := false, ioMode := PinMode.OUTPUT,
        past := (Wire.observe clk dat en s0 w.trace).sessions, cur := some [] } := by
  simp only [_DS1302_start, digitalWrite, delayMicroseconds, pinMode, observe_emit, hclk, hdat,
    hen]
  generalize Wire.observe clk dat en s0 w.trace = s at *
  cases s
  simp_all [Wire.react, Wire.sessions, hce.symm, hde.symm, hdc.symm]

/-- The lines after `_DS1302_stop`: the enable line is low. -/
theorem observe_stop (self : ds1302_struct) (hen : self.DS1302_CE_PIN = en) (s0 : Wire)
    (w : World σ) :
    Wire.observe clk dat en s0 (_DS1302_stop B self w).trace =
      { Wire.observe clk dat en s0 w.trace with ce := false } := by
  simp only [_DS1302_stop, digitalWrite, delayMicroseconds, observe_emit, hen]
  generalize Wire.observe clk dat en s0 w.trace = s at *
  cases s
  simp_all [Wire.react]

/-- What `DS1302_clock_burst_write` puts on the lines: one new session made of the
command `0xBE` and the eight bytes of the snapshot, every bit driven by the controller, and
no release of the data line; the enable line is low at the end. -/
theorem observe_burst_write (hce : clk ≠ en) (hde : dat ≠ en) (hdc : dat ≠ clk)
    (self : ds1302_struct) (hclk : self.DS1302_SCLK_PIN = clk) (hdat : self.DS1302_IO_PIN = dat)
    (hen : self.DS1302_CE_PIN = en) (s0 : Wire) (w : World σ) :
    (Wire.observe clk dat en s0 (DS1302_clock_burst_write B self w).trace).sessions =
      (Wire.observe clk dat en s0 w.trace).sessions ++
        [((0xBE :: self.t_time.toBytes).flatMap byteBits).map some] ∧
    (Wire.observe clk dat en s0 (DS1302_clock_burst_write B self w).trace).releases =
      (Wire.observe clk dat en s0 w.trace).releases ∧
    (Wire.observe clk dat en s0 (DS1302_clock_burst_write B self w).trace).ce = false := by
  have hs := observe_start B clk dat en hce hde hdc self hclk hdat hen s0 w
  have hc := observe_togglewrite B clk dat en hce hde hdc self hclk hdat s0
    (u8 DS1302_CLOCK_BURST_WRITE) (_DS1302_start B self w) (by rw [hs]) (by rw [hs]) (by rw [hs])
  obtain ⟨c1, c2, c3, c4, c5, c6⟩ := latch_foldl (byteBits (u8 DS1302_CLOCK_BURST_WRITE))
    (Wire.observe clk dat en s0 (_DS1302_start B self w).trace)
  have hl := observe_burst_write_fold B clk dat en hce hde hdc self hclk hdat s0 (List.range 8)
    (_DS1302_togglewrite B self (u8 DS1302_CLOCK_BURST_WRITE) 0 (_DS1302_start B self w))
    (by rw [hc, c1, hs]) (by rw [hc, c2, hs]) (by rw [hc, c3, hs])
  obtain ⟨d1, d2, d3, d4, d5, d6⟩ := latch_foldl
    ((List.range 8).flatMap (fun i => byteBits (self.t_time.toBytes.getD i 0)))
    (Wire.observe clk dat en s0 (_DS1302_togglewrite B self (u8 DS1302_CLOCK_BURST_WRITE) 0
      (_DS1302_start B self w)).trace)
  have hbytes : (List.range 8).flatMap (fun i => byteBits (self.t_time.toBytes.getD i 0)) =
      self.t_time.toBytes.flatMap byteBits := by
    simp [range_eight, ds_time.toBytes]
  have hne : (List.range 8).flatMap (fun i => byteBits (self.t_time.toBytes.getD i 0)) ≠ [] := by
    simp [range_eight, byteBits]
  have hne2 : byteBits (u8 DS1302_CLOCK_BURST_WRITE) ≠ [] := by simp [byteBits, range_eight]
  have h190 : u8 DS1302_CLOCK_BURST_WRITE = 0xBE := by decide
  simp only [DS1302_clock_burst_write, observe_stop B clk dat en self hen, hl, Wire.sessions]
  rw [d4, d5, d6 hne, hc, c4, c5, c6 hne2, hs, hbytes, h190]
  simp [Wire.sessions]

end WireLemmas

/-- The eight bytes of the snapshot that `_DS1302_set_date_time` builds from a normalized
time whose fields are in their ranges. -/
theorem set_date_time_bytes (b : int_time)
    (hs : b.Seconds ≤ 59) (hm : b.Minutes ≤ 59) (hh : b.Hours ≤ 23)
    (hd : b.Date ≤ 31) (hmo1 : 1 ≤ b.Month) (hmo : b.Month ≤ 12) (hy : b.Year ≤ 99) :
    ∃ (T : ds_time) (dow : Nat),
      dayofweek b.Date b.Month b.Year = some (dow : Int) ∧ dow ≤ 6 ∧
      set_date_time_fill b = some T ∧
      T.toBytes = [bcd b.Seconds, bcd b.Minutes, bcd b.Hours, bcd b.Date, bcd b.Month, dow,
        bcd b.Year, 0x00] := by
  obtain ⟨dow, hdow, h0, h6⟩ :=
    dayofweek_range b.Date b.Month b.Year (by omega) (by omega) (by omega) (by omega)
  have hcast : ((dow.toNat : Nat) : Int) = dow := Int.toNat_of_nonneg h0
  refine ⟨_, dow.toNat, by rw [hcast]; exact hdow, by omega,
    set_date_time_fill_eq b dow hdow, ?_⟩
  simp only [ds_time.toBytes, bitfield_val, bcd, Fin.val_zero, Fin.isValue, List.cons.injEq,
    and_true]
  refine ⟨?_, ?_, ?_, ?_, ?_, ?_, ?_⟩ <;> omega

/-- C8. Wire image of set date/time: for every normalized time with Seconds and Minutes in
`0..59`, Hours in `0..23`, Date in `1..31`, Month in `1..12` and Year in `0..99`, on three
distinct pins, `_DS1302_set_date_time` returns and adds exactly one session to what the chip
has seen; in it the chip latches, least significant bit first and each bit driven by the
controller, the command `0xBE` and then the eight snapshot bytes
`[bcd Seconds, bcd Minutes, bcd Hours, bcd Date, bcd Month, dayofweek Date Month Year,
bcd Year, 0]`; the data line is never released and the enable line ends low.  The result
does not depend on the Day the caller supplies. -/
theorem set_date_time_wire_image {σ : Type} (B : Board σ) (self : ds1302_struct)
    (w : World σ) (b : int_time) (s0 : Wire)
    (hce : self.DS1302_SCLK_PIN ≠ self.DS1302_CE_PIN)
    (hde : self.DS1302_IO_PIN ≠ self.DS1302_CE_PIN)
    (hdc : self.DS1302_IO_PIN ≠ self.DS1302_SCLK_PIN)
    (hs : b.Seconds ≤ 59) (hm : b.Minutes ≤ 59) (hh : b.Hours ≤ 23)
    (hd1 : 1 ≤ b.Date) (hd : b.Date ≤ 31) (hmo1 : 1 ≤ b.Month) (hmo : b.Month ≤ 12)
    (hy : b.Year ≤ 99) :
    ∃ (self1 : ds1302_struct) (w1 : World σ) (dow : Nat),
      _DS1302_set_date_time B self b w = some (self1, w1) ∧
      dayofweek b.Date b.Month b.Year = some (dow : Int) ∧
      self1.t_time.toBytes =
        [bcd b.Seconds, bcd b.Minutes, bcd b.Hours, bcd b.Date, bcd b.Month, dow,
         bcd b.Year, 0x00] ∧
      (Wire.observe self.DS1302_SCLK_PIN self.DS1302_IO_PIN self.DS1302_CE_PIN s0
          w1.trace).sessions =
        (Wire.observe self.DS1302_SCLK_PIN self.DS1302_IO_PIN self.DS1302_CE_PIN s0
          w.trace).sessions ++
          [(([0xBE, bcd b.Seconds, bcd b.Minutes, bcd b.Hours, bcd b.Date, bcd b.Month, dow,
              bcd b.Year, 0x00] : List Nat).flatMap byteBits).map some] ∧
      (Wire.observe self.DS1302_SCLK_PIN self.DS1302_IO_PIN self.DS1302_CE_PIN s0
          w1.trace).releases =
        (Wire.observe self.DS1302_SCLK_PIN self.DS1302_IO_PIN self.DS1302_CE_PIN s0
          w.trace).releases ∧
      (Wire.observe self.DS1302_SCLK_PIN self.DS1302_IO_PIN self.DS1302_CE_PIN s0
          w1.trace).ce = false ∧
      ∀ day : Nat, _DS1302_set_date_time B self { b with Day := day } w = some (self1, w1) := by
  have _ := hd1
  obtain ⟨T, dow, hdow, -, hfill, hbytes⟩ := set_date_time_bytes b hs hm hh hd hmo1 hmo hy
  have hset := set_date_time_some B self w b T hfill
  obtain ⟨o1, o2, o3⟩ := observe_burst_write B self.DS1302_SCLK_PIN self.DS1302_IO_PIN
    self.DS1302_CE_PIN hce hde hdc { self with t_time := T } rfl rfl rfl s0 w
  refine ⟨_, _, dow, hset, hdow, hbytes, ?_, o2, o3, fun day => ?_⟩
  · rw [o1]
    simp only [hbytes]
  · rw [← hset]
    rfl

theorem set_date_time_wire_image_witness :
    (exampleHandle.DS1302_SCLK_PIN ≠ exampleHandle.DS1302_CE_PIN ∧
      exampleHandle.DS1302_IO_PIN ≠ exampleHandle.DS1302_CE_PIN ∧
      exampleHandle.DS1302_IO_PIN ≠ exampleHandle.DS1302_SCLK_PIN ∧
      exampleTime.Seconds ≤ 59 ∧ exampleTime.Minutes ≤ 59 ∧ exampleTime.Hours ≤ 23 ∧
      1 ≤ exampleTime.Date ∧ exampleTime.Date ≤ 31 ∧ 1 ≤ exampleTime.Month ∧
      exampleTime.Month ≤ 12 ∧ exampleTime.Year ≤ 99) ∧
    ∃ (self1 : ds1302_struct) (w1 : World Unit) (dow : Nat),
      _DS1302_set_date_time idleBoard exampleHandle exampleTime idleWorld = some (self1, w1) ∧
      dayofweek exampleTime.Date exampleTime.Month exampleTime.Year = some (dow : Int) ∧
      self1.t_time.toBytes =
        [bcd exampleTime.Seconds, bcd exampleTime.Minutes, bcd exampleTime.Hours,
         bcd exampleTime.Date, bcd exampleTime.Month, dow, bcd exampleTime.Year, 0x00] ∧
      (Wire.observe exampleHandle.DS1302_SCLK_PIN exampleHandle.DS1302_IO_PIN
          exampleHandle.DS1302_CE_PIN idleWire w1.trace).sessions =
        (Wire.observe exampleHandle.DS1302_SCLK_PIN exampleHandle.DS1302_IO_PIN
          exampleHandle.DS1302_CE_PIN idleWire idleWorld.trace).sessions ++
          [(([0xBE, bcd exampleTime.Seconds, bcd exampleTime.Minutes, bcd exampleTime.Hours,
              bcd exampleTime.Date, bcd exampleTime.Month, dow, bcd exampleTime.Year, 0x00]
              : List Nat).flatMap byteBits).map some] ∧
      (Wire.observe exampleHandle.DS1302_SCLK_PIN exampleHandle.DS1302_IO_PIN
          exampleHandle.DS1302_CE_PIN idleWire w1.trace).releases =
        (Wire.observe exampleHandle.DS1302_SCLK_PIN exampleHandle.DS1302_IO_PIN
          exampleHandle.DS1302_CE_PIN idleWire idleWorld.trace).releases ∧
      (Wire.observe exampleHandle.DS1302_SCLK_PIN exampleHandle.DS1302_IO_PIN
          exampleHandle.DS1302_CE_PIN idleWire w1.trace).ce = false ∧
      ∀ day : Nat, _DS1302_set_date_time idleBoard exampleHandle
        { exampleTime with Day := day } idleWorld = some (self1, w1) :=
  ⟨by decide,
   set_date_time_wire_image idleBoard exampleHandle idleWorld exampleTime idleWire
    (by decide) (by decide) (by decide) (by decide) (by decide) (by decide) (by decide)
    (by decide) (by decide) (by decide) (by decide)⟩

/-! ## Snapshot bytes -/

theorem ofBytes_toBytes (t : ds_time) : ds_time.ofBytes t.toBytes = t := by
  cases t
  simp only [ds_time.ofBytes, ds_time.toBytes, List.getD_cons_zero, List.getD_cons_succ,
    ds_time.mk.injEq]
  refine ⟨?_, ?_, ?_, ?_, ?_, ?_, ?_, ?_, ?_, ?_, ?_, ?_, ?_, ?_, ?_, ?_, ?_, ?_, ?_, ?_, ?_, ?_⟩ <;>
    (apply Fin.ext; simp only [bitfield_val]; omega)

theorem toBytes_ofBytes (b0 b1 b2 b3 b4 b5 b6 b7 : Nat) (h0 : b0 < 256) (h1 : b1 < 256)
    (h2 : b2 < 256) (h3 : b3 < 256) (h4 : b4 < 256) (h5 : b5 < 256) (h6 : b6 < 256)
    (h7 : b7 < 256) :
    (ds_time.ofBytes [b0, b1, b2, b3, b4, b5, b6, b7]).toBytes =
      [b0, b1, b2, b3, b4, b5, b6, b7] := by
  simp only [ds_time.ofBytes, ds_time.toBytes, List.getD_cons_zero, List.getD_cons_succ,
    bitfield_val, List.cons.injEq, and_true]
  refine ⟨?_, ?_, ?_, ?_, ?_, ?_, ?_, ?_⟩ <;> omega

theorem toBytes_lt (t : ds_time) (i : Nat) : t.toBytes.getD i 0 < 256 := by
  have h : i = 0 ∨ i = 1 ∨ i = 2 ∨ i = 3 ∨ i = 4 ∨ i = 5 ∨ i = 6 ∨ i = 7 ∨ 8 ≤ i := by omega
  rcases h with h | h | h | h | h | h | h | h | h
  all_goals try subst h
  all_goals try (simp only [ds_time.toBytes, List.getD_cons_zero, List.getD_cons_succ]; omega)
  rw [List.getD_eq_default]
  · decide
  · simpa [ds_time.toBytes] using h

/-! ## The transport against the loopback device -/

section LoopbackLemmas

variable (clk dat en : Int)

theorem loopback_emit (e : Event) (w : World Loopback) :
    (emit (loopbackBoard clk dat en) e w).board = Loopback.react clk dat en w.board e := rfl

theorem loopback_start (hce : clk ≠ en)
    (self : ds1302_struct) (hclk : self.DS1302_SCLK_PIN = clk) (hdat : self.DS1302_IO_PIN = dat)
    (hen : self.DS1302_CE_PIN = en) (w : World Loopback) :
    (_DS1302_start (loopbackBoard clk dat en) self w).board =
      { w.board with ce := true, sclk := false, n := 0, cmd := 0 } := by
  simp only [_DS1302_start, digitalWrite, delayMicroseconds, pinMode, loopback_emit, hclk, hdat,
    hen]
  generalize w.board = s
  cases s
  simp_all [Loopback.react, hce.symm]

theorem loopback_stop (self : ds1302_struct) (hen : self.DS1302_CE_PIN = en)
    (w : World Loopback) :
    (_DS1302_stop (loopbackBoard clk dat en) self w).board = { w.board with ce := false } := by
  simp only [_DS1302_stop, digitalWrite, delayMicroseconds, loopback_emit, hen]
  generalize w.board = s
  cases s
  simp_all [Loopback.react]

/-- The command byte `0xBE` at the start of a session: the device clears its memory. -/
theorem loopback_command_write (hce : clk ≠ en) (hde : dat ≠ en) (hdc : dat ≠ clk)
    (self : ds1302_struct) (hclk : self.DS1302_SCLK_PIN = clk) (hdat : self.DS1302_IO_PIN = dat)
    (w : World Loopback) (h1 : w.board.ce = true) (h2 : w.board.sclk = false)
    (h3 : w.board.n = 0) (h4 : w.board.cmd = 0) :
    (_DS1302_togglewrite (loopbackBoard clk dat en) self (u8 DS1302_CLOCK_BURST_WRITE) 0 w).board =
      { w.board with io := true, n := 8, cmd := 0xBE, mem := [] } := by
  have h190 : u8 DS1302_CLOCK_BURST_WRITE = 0xBE := by decide
  simp only [_DS1302_togglewrite, range_eight, List.foldl_cons, List.foldl_nil, togglewrite_body,
    digitalWrite, delayMicroseconds, h190, ne_eq, not_true_eq_false, false_and, if_false,
    loopback_emit, hclk, hdat]
  generalize w.board = s at *
  cases s
  simp only at h1 h2 h3 h4
  subst h1 h2 h3 h4
  simp [Loopback.react, hce, hde, hdc, bitRead]

/-- One iteration of `_DS1302_togglewrite` without release after the command `0xBE`: the
device records the bit. -/
theorem loopback_togglewrite_body (hce : clk ≠ en) (hde : dat ≠ en) (hdc : dat ≠ clk)
    (self : ds1302_struct) (hclk : self.DS1302_SCLK_PIN = clk) (hdat : self.DS1302_IO_PIN = dat)
    (data i : Nat) (w : World Loopback) (h1 : w.board.ce = true) (h2 : w.board.sclk = false)
    (h3 : w.board.n = 8) (h4 : w.board.cmd = 0xBE) :
    (togglewrite_body (loopbackBoard clk dat en) self data 0 w i).board =
      w.board.record (bitRead data i != 0) := by
  simp only [togglewrite_body, digitalWrite, delayMicroseconds, ne_eq, not_true_eq_false,
    false_and, if_false, loopback_emit, hclk, hdat]
  generalize w.board = s at *
  cases s
  simp only at h1 h2 h3 h4
  subst h1 h2 h3 h4
  simp [Loopback.react, Loopback.record, hce, hde, hdc]

theorem record_foldl (bits : List Bool) (s : Loopback) :
    (bits.foldl Loopback.record s).ce = s.ce ∧ (bits.foldl Loopback.record s).sclk = s.sclk ∧
    (bits.foldl Loopback.record s).n = s.n ∧ (bits.foldl Loopback.record s).cmd = s.cmd ∧
    (bits.foldl Loopback.record s).mem = s.mem ++ bits := by
  induction bits generalizing s with
  | nil => simp
  | cons v rest ih =>
    obtain ⟨h1, h2, h3, h4, h5⟩ := ih (s.record v)
    simp only [List.foldl_cons]
    refine ⟨h1, h2, h3, h4, ?_⟩
    rw [h5]
    simp [Loopback.record]

theorem loopback_togglewrite_fold (hce : clk ≠ en) (hde : dat ≠ en) (hdc : dat ≠ clk)
    (self : ds1302_struct) (hclk : self.DS1302_SCLK_PIN = clk) (hdat : self.DS1302_IO_PIN = dat)
    (data : Nat) (is : List Nat) (w : World Loopback)
    (h1 : w.board.ce = true) (h2 : w.board.sclk = false)
    (h3 : w.board.n = 8) (h4 : w.board.cmd = 0xBE) :
    (is.foldl (togglewrite_body (loopbackBoard clk dat en) self data 0) w).board =
      (is.map (fun i => bitRead data i != 0)).foldl Loopback.record w.board := by
  induction is generalizing w with
  | nil => rfl
  | cons i rest ih =>
    have hb := loopback_togglewrite_body clk dat en hce hde hdc self hclk hdat data i w h1 h2 h3 h4
    simp only [List.foldl_cons, List.map_cons]
    rw [ih (togglewrite_body (loopbackBoard clk dat en) self data 0 w i) (by rw [hb]; exact h1)
      (by rw [hb]; exact h2) (by rw [hb]; exact h3) (by rw [hb]; exact h4), hb]

theorem loopback_togglewrite (hce : clk ≠ en) (hde : dat ≠ en) (hdc : dat ≠ clk)
    (self : ds1302_struct) (hclk : self.DS1302_SCLK_PIN = clk) (hdat : self.DS1302_IO_PIN = dat)
    (data : Nat) (w : World Loopback)
    (h1 : w.board.ce = true) (h2 : w.board.sclk = false)
    (h3 : w.board.n = 8) (h4 : w.board.cmd = 0xBE) :
    (_DS1302_togglewrite (loopbackBoard clk dat en) self data 0 w).board =
      (byteBits data).foldl Loopback.record w.board := by
  unfold _DS1302_togglewrite byteBits
  exact loopback_togglewrite_fold clk dat en hce hde hdc self hclk hdat data _ w h1 h2 h3 h4

theorem loopback_burst_write_fold (hce : clk ≠ en) (hde : dat ≠ en) (hdc : dat ≠ clk)
    (self : ds1302_struct) (hclk : self.DS1302_SCLK_PIN = clk) (hdat : self.DS1302_IO_PIN = dat)
    (is : List Nat) (w : World Loopback)
    (h1 : w.board.ce = true) (h2 : w.board.sclk = false)
    (h3 : w.board.n = 8) (h4 : w.board.cmd = 0xBE) :
    (is.foldl (burst_write_body (loopbackBoard clk dat en) self) w).board =
      (is.flatMap (fun i => byteBits (self.t_time.toBytes.getD i 0))).foldl Loopback.record
        w.board := by
  induction is generalizing w with
  | nil => rfl
  | cons i rest ih =>
    have hb : (burst_write_body (loopbackBoard clk dat en) self w i).board = _ :=
      loopback_togglewrite clk dat en hce hde hdc self hclk hdat
        (self.t_time.toBytes.getD i 0) w h1 h2 h3 h4
    obtain ⟨r1, r2, r3, r4, -⟩ := record_foldl (byteBits (self.t_time.toBytes.getD i 0)) w.board
    simp only [List.foldl_cons, List.flatMap_cons, List.foldl_append]
    rw [ih (burst_write_body (loopbackBoard clk dat en) self w i) (by rw [hb, r1]; exact h1)
      (by rw [hb, r2]; exact h2) (by rw [hb, r3]; exact h3) (by rw [hb, r4]; exact h4), hb]

/-- After `DS1302_clock_burst_write` the memory of the device holds the bits of the eight
snapshot bytes, in index order and least significant bit first. -/
theorem loopback_burst_write (hce : clk ≠ en) (hde : dat ≠ en) (hdc : dat ≠ clk)
    (self : ds1302_struct) (hclk : self.DS1302_SCLK_PIN = clk) (hdat : self.DS1302_IO_PIN = dat)
    (hen : self.DS1302_CE_PIN = en) (w : World Loopback) :
    (DS1302_clock_burst_write (loopbackBoard clk dat en) self w).board.mem =
      self.t_time.toBytes.flatMap byteBits := by
  have hs := loopback_start clk dat en hce self hclk hdat hen w
  have hc := loopback_command_write clk dat en hce hde hdc self hclk hdat
    (_DS1302_start (loopbackBoard clk dat en) self w) (by rw [hs]) (by rw [hs]) (by rw [hs])
    (by rw [hs])
  have hl := loopback_burst_write_fold clk dat en hce hde hdc self hclk hdat (List.range 8)
    (_DS1302_togglewrite (loopbackBoard clk dat en) self (u8 DS1302_CLOCK_BURST_WRITE) 0
      (_DS1302_start (loopbackBoard clk dat en) self w))
    (by rw [hc, hs]) (by rw [hc, hs]) (by rw [hc]) (by rw [hc])
  have hbytes : (List.range 8).flatMap (fun i => byteBits (self.t_time.toBytes.getD i 0)) =
      self.t_time.toBytes.flatMap byteBits := by
    simp [range_eight, ds_time.toBytes]
  obtain ⟨-, -, -, -, r5⟩ := record_foldl
    ((List.range 8).flatMap (fun i => byteBits (self.t_time.toBytes.getD i 0)))
    (_DS1302_togglewrite (loopbackBoard clk dat en) self (u8 DS1302_CLOCK_BURST_WRITE) 0
      (_DS1302_start (loopbackBoard clk dat en) self w)).board
  simp only [DS1302_clock_burst_write, loopback_stop clk dat en self hen]
  rw [hl, r5, hc, hbytes]
  rfl

end LoopbackLemmas

section LoopbackRead

variable (clk dat en : Int)

/-- The command byte `0xBF` with release at the start of a session: the device queues its
memory for playback and the clock is left high. -/
theorem loopback_command_read (hce : clk ≠ en) (hde : dat ≠ en) (hdc : dat ≠ clk)
    (self : ds1302_struct) (hclk : self.DS1302_SCLK_PIN = clk) (hdat : self.DS1302_IO_PIN = dat)
    (w : World Loopback) (h1 : w.board.ce = true) (h2 : w.board.sclk = false)
    (h3 : w.board.n = 0) (h4 : w.board.cmd = 0) :
    (_DS1302_togglewrite (loopbackBoard clk dat en) self (u8 DS1302_CLOCK_BURST_READ) 1 w).board =
      { w.board with io := true, sclk := true, n := 8, cmd := 0xBF, queue := w.board.mem } := by
  have h191 : u8 DS1302_CLOCK_BURST_READ = 0xBF := by decide
  simp only [_DS1302_togglewrite, range_eight, List.foldl_cons, List.foldl_nil, togglewrite_body,
    digitalWrite, delayMicroseconds, pinMode, h191, ne_eq, one_ne_zero, not_false_eq_true,
    true_and, Nat.reduceEqDiff, OfNat.zero_ne_ofNat, OfNat.one_ne_ofNat, if_false,
    if_true, loopback_emit, hclk, hdat]
  generalize w.board = s at *
  cases s
  simp only at h1 h2 h3 h4
  subst h1 h2 h3 h4
  simp [Loopback.react, hce, hde, hdc, bitRead]

/-- One iteration of `_DS1302_toggleread` after the command `0xBF`: the device plays back
one bit on the falling clock edge and the driver stores it in bit `i`. -/
theorem loopback_toggleread_body (hce : clk ≠ en)
    (self : ds1302_struct) (hclk : self.DS1302_SCLK_PIN = clk) (hdat : self.DS1302_IO_PIN = dat)
    (data i : Nat) (w : World Loopback) (h1 : w.board.ce = true)
    (h3 : w.board.n = 8) (h4 : w.board.cmd = 0xBF) :
    (toggleread_body (loopbackBoard clk dat en) self (data, w) i).1 =
      u8 (bitWrite data i (w.board.queue.headD false)) ∧
    (toggleread_body (loopbackBoard clk dat en) self (data, w) i).2.board = w.board.play := by
  simp only [toggleread_body, digitalWrite, delayMicroseconds, digitalRead, loopback_emit, hclk,
    hdat]
  generalize w.board = s at *
  cases s
  simp only at h1 h3 h4
  subst h1 h3 h4
  simp [Loopback.react, Loopback.play, loopbackBoard, hce]

theorem loopback_toggleread_fold (hce : clk ≠ en)
    (self : ds1302_struct) (hclk : self.DS1302_SCLK_PIN = clk) (hdat : self.DS1302_IO_PIN = dat)
    (is : List Nat) (data : Nat) (w : World Loopback) (h1 : w.board.ce = true)
    (h3 : w.board.n = 8) (h4 : w.board.cmd = 0xBF) :
    (is.foldl (toggleread_body (loopbackBoard clk dat en) self) (data, w)).1 =
      assemble data is w.board.queue ∧
    (is.foldl (toggleread_body (loopbackBoard clk dat en) self) (data, w)).2.board.ce = true ∧
    (is.foldl (toggleread_body (loopbackBoard clk dat en) self) (data, w)).2.board.n = 8 ∧
    (is.foldl (toggleread_body (loopbackBoard clk dat en) self) (data, w)).2.board.cmd = 0xBF ∧
    (is.foldl (toggleread_body (loopbackBoard clk dat en) self) (data, w)).2.board.queue =
      w.board.queue.drop is.length := by
  induction is generalizing data w with
  | nil => simp [assemble, h1, h3, h4]
  | cons i rest ih =>
    obtain ⟨hb1, hb2⟩ := loopback_toggleread_body clk dat en hce self hclk hdat data i w h1 h3 h4
    obtain ⟨i1, i2, i3, i4, i5⟩ :=
      ih (toggleread_body (loopbackBoard clk dat en) self (data, w) i).1
        (toggleread_body (loopbackBoard clk dat en) self (data, w) i).2
        (by rw [hb2]; exact h1) (by rw [hb2]; exact h3) (by rw [hb2]; exact h4)
    simp only [List.foldl_cons]
    refine ⟨?_, i2, i3, i4, ?_⟩
    · rw [i1, hb1, hb2]
      rfl
    · rw [i5, hb2]
      simp [Loopback.play]

theorem assemble_append (is : List Nat) (data : Nat) (a rest : List Bool)
    (h : is.length ≤ a.length) : assemble data is (a ++ rest) = assemble data is a := by
  induction is generalizing data a with
  | nil => rfl
  | cons i more ih =>
    cases a with
    | nil => simp at h
    | cons v a =>
      simp only [assemble, List.cons_append, List.headD_cons, List.tail_cons]
      exact ih _ a (by simpa using h)

set_option maxRecDepth 100000 in
theorem assemble_byteBits_fin : ∀ d : Fin 256,
    assemble 0 [0, 1, 2, 3, 4, 5, 6, 7] (byteBits d.val) = d.val := by
  decide

/-- The byte read by `_DS1302_toggleread` after the command `0xBF` when the device has the
bits of `d` at the head of its queue. -/
theorem loopback_toggleread (hce : clk ≠ en)
    (self : ds1302_struct) (hclk : self.DS1302_SCLK_PIN = clk) (hdat : self.DS1302_IO_PIN = dat)
    (d : Nat) (hd : d < 256) (rest : List Bool) (w : World Loopback) (h1 : w.board.ce = true)
    (h3 : w.board.n = 8) (h4 : w.board.cmd = 0xBF) (hq : w.board.queue = byteBits d ++ rest) :
    (_DS1302_toggleread (loopbackBoard clk dat en) self w).1 = d ∧
    (_DS1302_toggleread (loopbackBoard clk dat en) self w).2.board.ce = true ∧
    (_DS1302_toggleread (loopbackBoard clk dat en) self w).2.board.n = 8 ∧
    (_DS1302_toggleread (loopbackBoard clk dat en) self w).2.board.cmd = 0xBF ∧
    (_DS1302_toggleread (loopbackBoard clk dat en) self w).2.board.queue = rest := by
  obtain ⟨i1, i2, i3, i4, i5⟩ :=
    loopback_toggleread_fold clk dat en hce self hclk hdat (List.range 8) 0 w h1 h3 h4
  have hlen : (byteBits d).length = 8 := by simp [byteBits]
  unfold _DS1302_toggleread
  refine ⟨?_, i2, i3, i4, ?_⟩
  · rw [i1, hq, range_eight, assemble_append _ _ _ _ (by rw [hlen]; decide)]
    exact assemble_byteBits_fin ⟨d, hd⟩
  · rw [i5, hq]
    simp [hlen]

end LoopbackRead

theorem poke_toBytes (t : ds_time) (i v : Nat) (hi : i < 8) :
    (t.poke i v).toBytes = t.toBytes.set i (v % 256) := by
  have hv : v % 256 < 256 := Nat.mod_lt _ (by decide)
  have b0 := toBytes_lt t 0
  have b1 := toBytes_lt t 1
  have b2 := toBytes_lt t 2
  have b3 := toBytes_lt t 3
  have b4 := toBytes_lt t 4
  have b5 := toBytes_lt t 5
  have b6 := toBytes_lt t 6
  have b7 := toBytes_lt t 7
  unfold ds_time.poke
  generalize v % 256 = x at *
  have hshape : ∃ a0 a1 a2 a3 a4 a5 a6 a7, t.toBytes = [a0, a1, a2, a3, a4, a5, a6, a7] :=
    ⟨_, _, _, _, _, _, _, _, rfl⟩
  obtain ⟨a0, a1, a2, a3, a4, a5, a6, a7, hs⟩ := hshape
  rw [hs] at b0 b1 b2 b3 b4 b5 b6 b7 ⊢
  simp only [List.getD_cons_zero, List.getD_cons_succ] at b0 b1 b2 b3 b4 b5 b6 b7
  interval_cases i <;> simp only [List.set] <;> apply toBytes_ofBytes <;> assumption

/-- Storing the eight bytes of `T` through the byte pointer, in index order, gives `T`
whatever the object held before. -/
theorem poke_all (t T : ds_time) :
    [0, 1, 2, 3, 4, 5, 6, 7].foldl (fun t i => t.poke i (T.toBytes.getD i 0)) t = T := by
  have b0 := toBytes_lt T 0
  have b1 := toBytes_lt T 1
  have b2 := toBytes_lt T 2
  have b3 := toBytes_lt T 3
  have b4 := toBytes_lt T 4
  have b5 := toBytes_lt T 5
  have b6 := toBytes_lt T 6
  have b7 := toBytes_lt T 7
  have key : ([0, 1, 2, 3, 4, 5, 6, 7].foldl
      (fun t i => t.poke i (T.toBytes.getD i 0)) t).toBytes = T.toBytes := by
    simp only [List.foldl_cons, List.foldl_nil]
    rw [poke_toBytes _ 7 _ (by decide), poke_toBytes _ 6 _ (by decide),
      poke_toBytes _ 5 _ (by decide), poke_toBytes _ 4 _ (by decide),
      poke_toBytes _ 3 _ (by decide), poke_toBytes _ 2 _ (by decide),
      poke_toBytes _ 1 _ (by decide), poke_toBytes _ 0 _ (by decide),
      Nat.mod_eq_of_lt b0, Nat.mod_eq_of_lt b1, Nat.mod_eq_of_lt b2, Nat.mod_eq_of_lt b3,
      Nat.mod_eq_of_lt b4, Nat.mod_eq_of_lt b5, Nat.mod_eq_of_lt b6, Nat.mod_eq_of_lt b7]
    have hshape : ∃ a0 a1 a2 a3 a4 a5 a6 a7, t.toBytes = [a0, a1, a2, a3, a4, a5, a6, a7] :=
      ⟨_, _, _, _, _, _, _, _, rfl⟩
    obtain ⟨a0, a1, a2, a3, a4, a5, a6, a7, hs⟩ := hshape
    have hshape2 : ∃ a0 a1 a2 a3 a4 a5 a6 a7, T.toBytes = [a0, a1, a2, a3, a4, a5, a6, a7] :=
      ⟨_, _, _, _, _, _, _, _, rfl⟩
    obtain ⟨c0, c1, c2, c3, c4, c5, c6, c7, hs2⟩ := hshape2
    rw [hs, hs2]
    rfl
  rw [← ofBytes_toBytes ([0, 1, 2, 3, 4, 5, 6, 7].foldl
    (fun t i => t.poke i (T.toBytes.getD i 0)) t), key, ofBytes_toBytes]

section LoopbackBurst

variable (clk dat en : Int)

theorem loopback_burst_read_fold (hce : clk ≠ en) (f : Nat → Nat) (hf : ∀ i, f i < 256)
    (is : List Nat) (rest : List Bool) (self : ds1302_struct) (w : World Loopback)
    (hclk : self.DS1302_SCLK_PIN = clk) (hdat : self.DS1302_IO_PIN = dat)
    (h1 : w.board.ce = true) (h3 : w.board.n = 8) (h4 : w.board.cmd = 0xBF)
    (hq : w.board.queue = is.flatMap (fun i => byteBits (f i)) ++ rest) :
    (is.foldl (burst_read_body (loopbackBoard clk dat en)) (self, w)).1.t_time =
      is.foldl (fun t i => t.poke i (f i)) self.t_time ∧
    (is.foldl (burst_read_body (loopbackBoard clk dat en)) (self, w)).1.DS1302_CE_PIN =
      self.DS1302_CE_PIN := by
  induction is generalizing self w with
  | nil => exact ⟨rfl, rfl⟩
  | cons i more ih =>
    have hq2 : w.board.queue = byteBits (f i) ++ (more.flatMap (fun i => byteBits (f i)) ++ rest) := by
      rw [hq]; simp
    obtain ⟨r1, r2, r3, r4, r5⟩ := loopback_toggleread clk dat en hce self hclk hdat (f i) (hf i)
      _ w h1 h3 h4 hq2
    obtain ⟨j1, j2⟩ := ih
      { self with t_time := self.t_time.poke i (_DS1302_toggleread (loopbackBoard clk dat en) self w).1 }
      (_DS1302_toggleread (loopbackBoard clk dat en) self w).2 hclk hdat r2 r3 r4 r5
    simp only [List.foldl_cons]
    refine ⟨?_, ?_⟩
    · rw [← r1]
      exact j1
    · exact j2

end LoopbackBurst

/-- C10. Burst framing round trip: for every content of the register snapshot, on three
distinct pins and against the loopback device in any state, `DS1302_clock_burst_write`
leaves in the device the bits of the eight snapshot bytes, in index order `0..7` and each
byte least significant bit first, and a following `DS1302_clock_burst_read`, whatever the
object holds when it starts, leaves a snapshot equal to the one written, byte for byte. -/
theorem burst_write_read_round_trip (self : ds1302_struct) (w : World Loopback) (t1 : ds_time)
    (hce : self.DS1302_SCLK_PIN ≠ self.DS1302_CE_PIN)
    (hde : self.DS1302_IO_PIN ≠ self.DS1302_CE_PIN)
    (hdc : self.DS1302_IO_PIN ≠ self.DS1302_SCLK_PIN) :
    (DS1302_clock_burst_write
        (loopbackBoard self.DS1302_SCLK_PIN self.DS1302_IO_PIN self.DS1302_CE_PIN) self w).board.mem
      = self.t_time.toBytes.flatMap byteBits ∧
    (DS1302_clock_burst_read
        (loopbackBoard self.DS1302_SCLK_PIN self.DS1302_IO_PIN self.DS1302_CE_PIN)
        { self with t_time := t1 }
        (DS1302_clock_burst_write
          (loopbackBoard self.DS1302_SCLK_PIN self.DS1302_IO_PIN self.DS1302_CE_PIN) self w)).1.t_time
      = self.t_time ∧
    (DS1302_clock_burst_read
        (loopbackBoard self.DS1302_SCLK_PIN self.DS1302_IO_PIN self.DS1302_CE_PIN)
        { self with t_time := t1 }
        (DS1302_clock_burst_write
          (loopbackBoard self.DS1302_SCLK_PIN self.DS1302_IO_PIN self.DS1302_CE_PIN) self w)).1.t_time.toBytes
      = self.t_time.toBytes := by
  have hmem := loopback_burst_write self.DS1302_SCLK_PIN self.DS1302_IO_PIN self.DS1302_CE_PIN
    hce hde hdc self rfl rfl rfl w
  generalize DS1302_clock_burst_write
    (loopbackBoard self.DS1302_SCLK_PIN self.DS1302_IO_PIN self.DS1302_CE_PIN) self w = w1 at *
  have hs := loopback_start self.DS1302_SCLK_PIN self.DS1302_IO_PIN self.DS1302_CE_PIN hce
    { self with t_time := t1 } rfl rfl rfl w1
  have hc := loopback_command_read self.DS1302_SCLK_PIN self.DS1302_IO_PIN self.DS1302_CE_PIN
    hce hde hdc { self with t_time := t1 } rfl rfl
    (_DS1302_start (loopbackBoard self.DS1302_SCLK_PIN self.DS1302_IO_PIN self.DS1302_CE_PIN)
      { self with t_time := t1 } w1)
    (by rw [hs]) (by rw [hs]) (by rw [hs]) (by rw [hs])
  have hbytes : (List.range 8).flatMap (fun i => byteBits (self.t_time.toBytes.getD i 0)) =
      self.t_time.toBytes.flatMap byteBits := by
    simp [range_eight, ds_time.toBytes]
  obtain ⟨hl, -⟩ := loopback_burst_read_fold self.DS1302_SCLK_PIN self.DS1302_IO_PIN
    self.DS1302_CE_PIN hce (fun i => self.t_time.toBytes.getD i 0) (toBytes_lt self.t_time)
    (List.range 8) [] { self with t_time := t1 }
    (_DS1302_togglewrite
      (loopbackBoard self.DS1302_SCLK_PIN self.DS1302_IO_PIN self.DS1302_CE_PIN)
      { self with t_time := t1 } (u8 DS1302_CLOCK_BURST_READ) 1
      (_DS1302_start (loopbackBoard self.DS1302_SCLK_PIN self.DS1302_IO_PIN self.DS1302_CE_PIN)
        { self with t_time := t1 } w1))
    rfl rfl (by rw [hc, hs]) (by rw [hc]) (by rw [hc])
    (by rw [hc, hs, hbytes, List.append_nil]; exact hmem)
  have hread : (DS1302_clock_burst_read
        (loopbackBoard self.DS1302_SCLK_PIN self.DS1302_IO_PIN self.DS1302_CE_PIN)
        { self with t_time := t1 } w1).1.t_time = self.t_time := by
    simp only [DS1302_clock_burst_read]
    rw [hl, range_eight]
    exact poke_all t1 self.t_time
  exact ⟨hmem, hread, by rw [hread]⟩

theorem burst_write_read_round_trip_witness :
    (busyHandle.DS1302_SCLK_PIN ≠ busyHandle.DS1302_CE_PIN ∧
      busyHandle.DS1302_IO_PIN ≠ busyHandle.DS1302_CE_PIN ∧
      busyHandle.DS1302_IO_PIN ≠ busyHandle.DS1302_SCLK_PIN ∧
      busyHandle.t_time.toBytes = [0x92, 0x83, 0xFE, 0x55, 0xAA, 0x07, 0x99, 0x80]) ∧
    ((DS1302_clock_burst_write
        (loopbackBoard busyHandle.DS1302_SCLK_PIN busyHandle.DS1302_IO_PIN
          busyHandle.DS1302_CE_PIN) busyHandle
        { board := exampleLoopback, trace := [] }).board.mem
      = busyHandle.t_time.toBytes.flatMap byteBits ∧
    (DS1302_clock_burst_read
        (loopbackBoard busyHandle.DS1302_SCLK_PIN busyHandle.DS1302_IO_PIN
          busyHandle.DS1302_CE_PIN)
        { busyHandle with t_time := ds_time.zero }
        (DS1302_clock_burst_write
          (loopbackBoard busyHandle.DS1302_SCLK_PIN busyHandle.DS1302_IO_PIN
            busyHandle.DS1302_CE_PIN) busyHandle
          { board := exampleLoopback, trace := [] })).1.t_time
      = busyHandle.t_time ∧
    (DS1302_clock_burst_read
        (loopbackBoard busyHandle.DS1302_SCLK_PIN busyHandle.DS1302_IO_PIN
          busyHandle.DS1302_CE_PIN)
        { busyHandle with t_time := ds_time.zero }
        (DS1302_clock_burst_write
          (loopbackBoard busyHandle.DS1302_SCLK_PIN busyHandle.DS1302_IO_PIN
            busyHandle.DS1302_CE_PIN) busyHandle
          { board := exampleLoopback, trace := [] })).1.t_time.toBytes
      = busyHandle.t_time.toBytes) :=
  ⟨by decide,
   burst_write_read_round_trip busyHandle { board := exampleLoopback, trace := [] } ds_time.zero
    (by decide) (by decide) (by decide)⟩

/-! ## Leap years -/

/-- C12. For every integer year, `isLeapYear year` is true (non-zero, and then 1) if and
only if the year is divisible by 4 and either not divisible by 100 or divisible by 400; it
is true for 2000, 2400 and 2024 and false for 1900, 2100 and 2023. -/
theorem isLeapYear_gregorian_rule (year : Int) :
    (isLeapYear year ≠ 0 ↔ (4 ∣ year ∧ (¬ 100 ∣ year ∨ 400 ∣ year))) ∧
    (isLeapYear year = 1 ∨ isLeapYear year = 0) ∧
    isLeapYear 2000 = 1 ∧ isLeapYear 2400 = 1 ∧ isLeapYear 2024 = 1 ∧
    isLeapYear 1900 = 0 ∧ isLeapYear 2100 = 0 ∧ isLeapYear 2023 = 0 := by
  refine ⟨?_, ?_, by decide, by decide, by decide, by decide, by decide, by decide⟩
  · rw [isLeapYear_eq, Int.dvd_iff_emod_eq_zero, Int.dvd_iff_emod_eq_zero,
      Int.dvd_iff_emod_eq_zero]
    by_cases h : year % 4 = 0 ∧ (year % 100 ≠ 0 ∨ year % 400 = 0)
    · rw [if_pos h]
      exact ⟨fun _ => h, fun _ => by decide⟩
    · rw [if_neg h]
      exact ⟨fun h0 => absurd rfl h0, fun h1 => absurd h1 h⟩
  · rw [isLeapYear_eq]
    split_ifs
    · exact Or.inl rfl
    · exact Or.inr rfl

/-! ## Formatting of an arbitrary snapshot -/

set_option maxRecDepth 100000 in
theorem printf_04d_snapshot : ∀ n : Fin 166,
    printf_0d 4 (2000 + ((n.val : Nat) : Int)) = fourDigits (2000 + n.val) := by
  decide

theorem bcd2bin_val (a b : Nat) : bcd2bin (a : Int) (b : Int) = ((a * 10 + b : Nat) : Int) := by
  unfold bcd2bin
  push_cast
  rfl

theorem printf_02d_field (a b : Nat) (h : a * 10 + b < 100) :
    printf_0d 2 (bcd2bin (a : Int) (b : Int)) = twoDigits (a * 10 + b) := by
  rw [bcd2bin_val]
  exact printf_02d_lt_100 ⟨a * 10 + b, h⟩

theorem printf_04d_field (a b : Nat) (h : a * 10 + b < 166) :
    printf_0d 4 (2000 + bcd2bin (a : Int) (b : Int)) = fourDigits (2000 + (a * 10 + b)) := by
  rw [bcd2bin_val]
  exact printf_04d_snapshot ⟨a * 10 + b, h⟩

/-- The strings of `_DS1302_get_time` and `_DS1302_get_date` for any snapshot, through the
decoded values. -/
theorem get_time_date_strings (self : ds1302_struct) :
    _DS1302_get_time self =
      String.mk (twoDigits (self.t_time.h24_Hour10.val * 10 + self.t_time.h24_Hour.val) ++
        [':'] ++ twoDigits (self.t_time.Minutes10.val * 10 + self.t_time.Minutes.val) ++
        [':'] ++ twoDigits (self.t_time.Seconds10.val * 10 + self.t_time.Seconds.val)) ∧
    _DS1302_get_date self =
      String.mk (twoDigits (self.t_time.Date10.val * 10 + self.t_time.Date.val) ++
        ['/'] ++ twoDigits (self.t_time.Month10.val * 10 + self.t_time.Month.val) ++
        ['/'] ++ fourDigits (2000 + (self.t_time.Year10.val * 10 + self.t_time.Year.val))) := by
  have h1 := self.t_time.h24_Hour10.isLt
  have h2 := self.t_time.h24_Hour.isLt
  have h3 := self.t_time.Minutes10.isLt
  have h4 := self.t_time.Minutes.isLt
  have h5 := self.t_time.Seconds10.isLt
  have h6 := self.t_time.Seconds.isLt
  have h7 := self.t_time.Date10.isLt
  have h8 := self.t_time.Date.isLt
  have h9 := self.t_time.Month10.isLt
  have h10 := self.t_time.Month.isLt
  have h11 := self.t_time.Year10.isLt
  have h12 := self.t_time.Year.isLt
  constructor
  · simp only [_DS1302_get_time, printf_02d_field _ _ (show self.t_time.h24_Hour10.val * 10
      + self.t_time.h24_Hour.val < 100 by omega), printf_02d_field _ _ (show
      self.t_time.Minutes10.val * 10 + self.t_time.Minutes.val < 100 by omega),
      printf_02d_field _ _ (show self.t_time.Seconds10.val * 10 + self.t_time.Seconds.val
      < 100 by omega)]
  · simp only [_DS1302_get_date, printf_02d_field _ _ (show self.t_time.Date10.val * 10
      + self.t_time.Date.val < 100 by omega), printf_02d_field _ _ (show
      self.t_time.Month10.val * 10 + self.t_time.Month.val < 100 by omega),
      printf_04d_field _ _ (show self.t_time.Year10.val * 10 + self.t_time.Year.val
      < 166 by omega)]

/-- C17. For every content of the held register snapshot (invalid BCD nibbles and any flag
bits included) each decoded hour, minute, second, date and month value is at most 99 and
2000 plus the decoded year is at most 9999, `_DS1302_get_time` writes exactly 8 characters
and `_DS1302_get_date` exactly 10 characters before the terminator. -/
theorem formatted_length_bounded (self : ds1302_struct) :
    bcd2bin self.t_time.h24_Hour10.val self.t_time.h24_Hour.val ≤ 99 ∧
    bcd2bin self.t_time.Minutes10.val self.t_time.Minutes.val ≤ 99 ∧
    bcd2bin self.t_time.Seconds10.val self.t_time.Seconds.val ≤ 99 ∧
    bcd2bin self.t_time.Date10.val self.t_time.Date.val ≤ 99 ∧
    bcd2bin self.t_time.Month10.val self.t_time.Month.val ≤ 99 ∧
    2000 + bcd2bin self.t_time.Year10.val self.t_time.Year.val ≤ 9999 ∧
    (_DS1302_get_time self).length = 8 ∧ (_DS1302_get_date self).length = 10 := by
  have h1 := self.t_time.h24_Hour10.isLt
  have h2 := self.t_time.h24_Hour.isLt
  have h3 := self.t_time.Minutes10.isLt
  have h4 := self.t_time.Minutes.isLt
  have h5 := self.t_time.Seconds10.isLt
  have h6 := self.t_time.Seconds.isLt
  have h7 := self.t_time.Date10.isLt
  have h8 := self.t_time.Date.isLt
  have h9 := self.t_time.Month10.isLt
  have h10 := self.t_time.Month.isLt
  have h11 := self.t_time.Year10.isLt
  have h12 := self.t_time.Year.isLt
  obtain ⟨ht, hd⟩ := get_time_date_strings self
  refine ⟨?_, ?_, ?_, ?_, ?_, ?_, ?_, ?_⟩
  · unfold bcd2bin; omega
  · unfold bcd2bin; omega
  · unfold bcd2bin; omega
  · unfold bcd2bin; omega
  · unfold bcd2bin; omega
  · unfold bcd2bin; omega
  · rw [ht]
    simp [String.length, twoDigits]
  · rw [hd]
    simp [String.length, twoDigits, fourDigits]

/-! ## Decoding of an arbitrary snapshot -/

theorem u8_bcd2bin (a b : Nat) (h : a * 10 + b < 256) :
    u8 (bcd2bin (a : Int) (b : Int)) = a * 10 + b := by
  rw [bcd2bin_val]
  unfold u8
  omega

/-- The decoded values that `_DS1302_get_time_and_date` passes to `dayofweek`. -/
theorem decoded_date_fields (t : ds_time) :
    u8 (bcd2bin t.Date10.val t.Date.val) = t.Date10.val * 10 + t.Date.val ∧
    u8 (bcd2bin t.Month10.val t.Month.val) = t.Month10.val * 10 + t.Month.val ∧
    u8 (bcd2bin t.Year10.val t.Year.val) = t.Year10.val * 10 + t.Year.val ∧
    u8 (bcd2bin t.h24_Hour10.val t.h24_Hour.val) = t.h24_Hour10.val * 10 + t.h24_Hour.val ∧
    u8 (bcd2bin t.Minutes10.val t.Minutes.val) = t.Minutes10.val * 10 + t.Minutes.val ∧
    u8 (bcd2bin t.Seconds10.val t.Seconds.val) = t.Seconds10.val * 10 + t.Seconds.val := by
  have h1 := t.h24_Hour10.isLt
  have h2 := t.h24_Hour.isLt
  have h3 := t.Minutes10.isLt
  have h4 := t.Minutes.isLt
  have h5 := t.Seconds10.isLt
  have h6 := t.Seconds.isLt
  have h7 := t.Date10.isLt
  have h8 := t.Date.isLt
  have h9 := t.Month10.isLt
  have h10 := t.Month.isLt
  have h11 := t.Year10.isLt
  have h12 := t.Year.isLt
  refine ⟨?_, ?_, ?_, ?_, ?_, ?_⟩ <;> (apply u8_bcd2bin; omega)

/-- Whatever `_DS1302_get_time_and_date` returns has the decoded hour in Hours. -/
theorem get_time_and_date_hours (self self2 : ds1302_struct) (out r : int_time)
    (h : _DS1302_get_time_and_date self out = some (self2, r)) :
    r.Hours = self.t_time.h24_Hour10.val * 10 + self.t_time.h24_Hour.val := by
  obtain ⟨-, -, -, hH, -, -⟩ := decoded_date_fields self.t_time
  unfold _DS1302_get_time_and_date at h
  simp only [Option.map_eq_some'] at h
  obtain ⟨dow, -, hpair⟩ := h
  have h2 := congrArg (fun p => p.2.Hours) hpair
  simp only at h2
  rw [← h2, hH]

/-- For a snapshot whose decoded month is in `1..12`, `_DS1302_get_time_and_date` returns,
with the value of `dayofweek` on the decoded date, which lies in `0..6`. -/
theorem get_time_and_date_returns (self : ds1302_struct) (out : int_time)
    (h1 : 1 ≤ self.t_time.Month10.val * 10 + self.t_time.Month.val)
    (h12 : self.t_time.Month10.val * 10 + self.t_time.Month.val ≤ 12) :
    ∃ dow : Int, 0 ≤ dow ∧ dow ≤ 6 ∧
      dayofweek ((self.t_time.Date10.val * 10 + self.t_time.Date.val : Nat) : Int)
        ((self.t_time.Month10.val * 10 + self.t_time.Month.val : Nat) : Int)
        ((self.t_time.Year10.val * 10 + self.t_time.Year.val : Nat) : Int) = some dow ∧
      _DS1302_get_time_and_date self out =
        some ({ self with t_time := { self.t_time with Day := bitfield 8 (by decide) dow } },
          { Seconds := self.t_time.Seconds10.val * 10 + self.t_time.Seconds.val
            Minutes := self.t_time.Minutes10.val * 10 + self.t_time.Minutes.val
            Hours := self.t_time.h24_Hour10.val * 10 + self.t_time.h24_Hour.val
            Day := (bitfield 8 (by decide) dow).val
            Date := self.t_time.Date10.val * 10 + self.t_time.Date.val
            Month := self.t_time.Month10.val * 10 + self.t_time.Month.val
            Year := self.t_time.Year10.val * 10 + self.t_time.Year.val }) := by
  obtain ⟨hD, hM, hY, hH, hMi, hS⟩ := decoded_date_fields self.t_time
  obtain ⟨dow, hdow, h0, h6⟩ := dayofweek_range
    ((self.t_time.Date10.val * 10 + self.t_time.Date.val : Nat) : Int)
    ((self.t_time.Month10.val * 10 + self.t_time.Month.val : Nat) : Int)
    ((self.t_time.Year10.val * 10 + self.t_time.Year.val : Nat) : Int)
    (by omega) (by omega) (by omega) (by omega)
  refine ⟨dow, h0, h6, hdow, ?_⟩
  rw [get_time_and_date_some self out dow (by rw [hD, hM, hY]; exact hdow), hD, hM, hY, hH,
    hMi, hS]

/-- C15. For every held register snapshot whose decoded month is in `1..12`,
`_DS1302_get_time_and_date` returns; the Day field of the snapshot and the Day of the
output both become `dayofweek` of the decoded Date, Month and Year; every other field of
the snapshot and of the object is unchanged, so that bytes 0-4, 6 and 7 are unchanged and
in byte 5 only the three low bits change. -/
theorem get_time_and_date_frame (self : ds1302_struct) (out : int_time)
    (h1 : 1 ≤ self.t_time.Month10.val * 10 + self.t_time.Month.val)
    (h12 : self.t_time.Month10.val * 10 + self.t_time.Month.val ≤ 12) :
    ∃ (self2 : ds1302_struct) (r : int_time) (dow : Int),
      _DS1302_get_time_and_date self out = some (self2, r) ∧
      dayofweek ((self.t_time.Date10.val * 10 + self.t_time.Date.val : Nat) : Int)
        ((self.t_time.Month10.val * 10 + self.t_time.Month.val : Nat) : Int)
        ((self.t_time.Year10.val * 10 + self.t_time.Year.val : Nat) : Int) = some dow ∧
      (self2.t_time.Day.val : Int) = dow ∧ (r.Day : Int) = dow ∧
      self2.t_time = { self.t_time with Day := self2.t_time.Day } ∧
      self2 = { self with t_time := self2.t_time } ∧
      (∀ i, i ≠ 5 → self2.t_time.toBytes.getD i 0 = self.t_time.toBytes.getD i 0) ∧
      self2.t_time.toBytes.getD 5 0 / 8 = self.t_time.toBytes.getD 5 0 / 8 ∧
      ((self2.t_time.toBytes.getD 5 0 % 8 : Nat) : Int) = dow := by
  obtain ⟨dow, h0, h6, hdow, hget⟩ := get_time_and_date_returns self out h1 h12
  have hday : (((bitfield 8 (by decide) dow : Fin 8).val : Nat) : Int) = dow := by
    simp only [bitfield_val]
    omega
  refine ⟨_, _, dow, hget, hdow, hday, hday, rfl, rfl, ?_, ?_, ?_⟩
  · intro i hi
    have hc : i = 0 ∨ i = 1 ∨ i = 2 ∨ i = 3 ∨ i = 4 ∨ i = 6 ∨ i = 7 ∨ 8 ≤ i := by omega
    rcases hc with h | h | h | h | h | h | h | h
    all_goals try (subst h; rfl)
    rw [List.getD_eq_default, List.getD_eq_default]
    · simpa [ds_time.toBytes] using h
    · simpa [ds_time.toBytes] using h
  · have hr := self.t_time.reserved5.isLt
    have hd := self.t_time.Day.isLt
    simp only [ds_time.toBytes, List.getD_cons_zero, List.getD_cons_succ, bitfield_val]
    omega
  · have hr := self.t_time.reserved5.isLt
    simp only [ds_time.toBytes, List.getD_cons_zero, List.getD_cons_succ, bitfield_val]
    omega

theorem get_time_and_date_frame_witness :
    (1 ≤ busyHandle.t_time.Month10.val * 10 + busyHandle.t_time.Month.val ∧
      busyHandle.t_time.Month10.val * 10 + busyHandle.t_time.Month.val ≤ 12 ∧
      busyHandle.t_time.toBytes = [0x92, 0x83, 0xFE, 0x55, 0xAA, 0x07, 0x99, 0x80]) ∧
    ∃ (self2 : ds1302_struct) (r : int_time) (dow : Int),
      _DS1302_get_time_and_date busyHandle {} = some (self2, r) ∧
      dayofweek ((busyHandle.t_time.Date10.val * 10 + busyHandle.t_time.Date.val : Nat) : Int)
        ((busyHandle.t_time.Month10.val * 10 + busyHandle.t_time.Month.val : Nat) : Int)
        ((busyHandle.t_time.Year10.val * 10 + busyHandle.t_time.Year.val : Nat) : Int)
          = some dow ∧
      (self2.t_time.Day.val : Int) = dow ∧ (r.Day : Int) = dow ∧
      self2.t_time = { busyHandle.t_time with Day := self2.t_time.Day } ∧
      self2 = { busyHandle with t_time := self2.t_time } ∧
      (∀ i, i ≠ 5 → self2.t_time.toBytes.getD i 0 = busyHandle.t_time.toBytes.getD i 0) ∧
      self2.t_time.toBytes.getD 5 0 / 8 = busyHandle.t_time.toBytes.getD 5 0 / 8 ∧
      ((self2.t_time.toBytes.getD 5 0 % 8 : Nat) : Int) = dow :=
  ⟨by decide, get_time_and_date_frame busyHandle {} (by decide) (by decide)⟩

/-- C18. For every held register snapshot the Hours that `_DS1302_get_time_and_date`
produces (it returns whenever the decoded month is in `1..12`) and the hour that
`_DS1302_get_time` prints equal `10 * (bits 5-4 of the hour byte) + (bits 3-0 of the hour
byte)`: bit 7, the 12/24 flag, is not looked at, so changing only that flag changes neither;
read through the 12-hour view the value is `20 * AM_PM + 10 * Hour10 + Hour`, and the hour
byte `0xA1` (12-hour mode, 1 PM) decodes to 21. -/
theorem hours_ignore_mode_flag (self : ds1302_struct) (out : int_time) :
    (∀ self2 r, _DS1302_get_time_and_date self out = some (self2, r) →
      r.Hours = 10 * (self.t_time.toBytes.getD 2 0 / 16 % 4)
        + self.t_time.toBytes.getD 2 0 % 16) ∧
    (1 ≤ self.t_time.Month10.val * 10 + self.t_time.Month.val →
      self.t_time.Month10.val * 10 + self.t_time.Month.val ≤ 12 →
      ∃ self2 r, _DS1302_get_time_and_date self out = some (self2, r) ∧
        r.Hours = 10 * (self.t_time.toBytes.getD 2 0 / 16 % 4)
          + self.t_time.toBytes.getD 2 0 % 16) ∧
    (_DS1302_get_time self).data.take 2 =
      twoDigits (10 * (self.t_time.toBytes.getD 2 0 / 16 % 4)
        + self.t_time.toBytes.getD 2 0 % 16) ∧
    (∀ flag : Fin 2,
      (_DS1302_get_time_and_date
        { self with t_time := { self.t_time with h24_hour_12_24 := flag } } out).map
          (fun p => p.2.Hours) =
        (_DS1302_get_time_and_date self out).map (fun p => p.2.Hours) ∧
      _DS1302_get_time { self with t_time := { self.t_time with h24_hour_12_24 := flag } } =
        _DS1302_get_time self) ∧
    10 * (self.t_time.toBytes.getD 2 0 / 16 % 4) + self.t_time.toBytes.getD 2 0 % 16 =
      20 * self.t_time.h12_AM_PM + 10 * self.t_time.h12_Hour10 + self.t_time.h12_Hour ∧
    (pmHandle.t_time.toBytes.getD 2 0 = 0xA1 ∧ pmHandle.t_time.h24_hour_12_24 = 1 ∧
      pmHandle.t_time.h12_AM_PM = 1 ∧ pmHandle.t_time.h12_Hour10 = 0 ∧
      pmHandle.t_time.h12_Hour = 1 ∧
      (_DS1302_get_time_and_date pmHandle out).map (fun p => p.2.Hours) = some 21 ∧
      (_DS1302_get_time pmHandle).data.take 2 = ['2', '1']) := by
  have a1 := self.t_time.h24_Hour.isLt
  have a2 := self.t_time.h24_Hour10.isLt
  have a3 := self.t_time.h24_reserved2.isLt
  have a4 := self.t_time.h24_hour_12_24.isLt
  have hb : 10 * (self.t_time.toBytes.getD 2 0 / 16 % 4) + self.t_time.toBytes.getD 2 0 % 16
      = self.t_time.h24_Hour10.val * 10 + self.t_time.h24_Hour.val := by
    simp only [ds_time.toBytes, List.getD_cons_zero, List.getD_cons_succ]
    omega
  rw [hb]
  refine ⟨fun self2 r h => get_time_and_date_hours self self2 out r h, fun h1 h12 => ?_, ?_,
    fun flag => ⟨by simp only [_DS1302_get_time_and_date, Option.map_map]; rfl, rfl⟩, ?_,
    by decide, by decide, by decide, by decide, by decide, ?_, ?_⟩
  · obtain ⟨dow, -, -, -, hget⟩ := get_time_and_date_returns self out h1 h12
    exact ⟨_, _, hget, rfl⟩
  · rw [(get_time_date_strings self).1]
    simp [twoDigits]
  · simp only [ds_time.h12_AM_PM, ds_time.h12_Hour10, ds_time.h12_Hour]
    omega
  · obtain ⟨dow, -, -, -, hget⟩ := get_time_and_date_returns pmHandle out (by decide) (by decide)
    rw [hget]
    rfl
  · rw [(get_time_date_strings pmHandle).1]
    decide

theorem hours_ignore_mode_flag_witness :
    (1 ≤ pmHandle.t_time.Month10.val * 10 + pmHandle.t_time.Month.val ∧
      pmHandle.t_time.Month10.val * 10 + pmHandle.t_time.Month.val ≤ 12) ∧
    ∃ self2 r, _DS1302_get_time_and_date pmHandle {} = some (self2, r) ∧
      r.Hours = 10 * (pmHandle.t_time.toBytes.getD 2 0 / 16 % 4)
          + pmHandle.t_time.toBytes.getD 2 0 % 16 :=
  ⟨by decide, (hours_ignore_mode_flag pmHandle {}).2.1 (by decide) (by decide)⟩

/-! ## The read bit of an address -/

theorem nat_ldiff_zero (m : Nat) : Nat.ldiff m 0 = m := by
  unfold Nat.ldiff
  rw [Nat.bitwise_zero_right]
  rfl

theorem int_lor_zero (a : Int) : Int.lor a 0 = a := by
  cases a with
  | ofNat m => simp [Int.lor]
  | negSucc m => simp [Int.lor, nat_ldiff_zero]

theorem int_land_neg_one (a : Int) : Int.land a (-1) = a := by
  cases a with
  | ofNat m => show Int.land (Int.ofNat m) (Int.negSucc 0) = _; simp [Int.land, nat_ldiff_zero]
  | negSucc m => show Int.land (Int.negSucc m) (Int.negSucc 0) = _; simp [Int.land]

/-- Setting bit 0 of an `int`. -/
theorem bitSetInt_zero (a : Int) : bitSetInt a 0 = 2 * (a / 2) + 1 := by
  unfold bitSetInt
  have h1 : ((1 <<< 0 : Nat) : Int) = Int.bit true 0 := by decide
  conv_lhs => rw [← Int.bit_decomp a, h1, Int.lor_bit, int_lor_zero]
  rw [Int.bit_val, Int.div2_val]
  simp

/-- Clearing bit 0 of an `int`. -/
theorem bitClearInt_zero (a : Int) : bitClearInt a 0 = 2 * (a / 2) := by
  unfold bitClearInt
  have h1 : Int.lnot ((1 <<< 0 : Nat) : Int) = Int.bit false (-1) := by decide
  conv_lhs => rw [← Int.bit_decomp a, h1, Int.land_bit, int_land_neg_one]
  rw [Int.bit_val, Int.div2_val]
  simp

/-- The command byte of `DS1302_read`: the low byte of the address with bit 0 set. -/
theorem read_command_byte (a : Int) :
    u8 (bitSetInt a DS1302_READBIT) = 2 * ((a % 256).toNat / 2) + 1 := by
  rw [show DS1302_READBIT = 0 from rfl, bitSetInt_zero]
  unfold u8
  omega

/-- The command byte of `DS1302_write`: the low byte of the address with bit 0 cleared. -/
theorem write_command_byte (a : Int) :
    u8 (bitClearInt a DS1302_READBIT) = 2 * ((a % 256).toNat / 2) := by
  rw [show DS1302_READBIT = 0 from rfl, bitClearInt_zero]
  unfold u8
  omega

/-! ## Release semantics of the toggle-write -/

section PulseLemmas

variable {σ : Type} (B : Board σ) (clk dat : Int)

theorem pulse_emit (s0 : Pulse) (e : Event) (w : World σ) :
    Pulse.observe clk dat s0 (emit B e w).trace =
      Pulse.react clk dat (Pulse.observe clk dat s0 w.trace) e := by
  simp [emit, Pulse.observe, List.foldl_append]

theorem bytePulses_eq (data : Nat) :
    bytePulses data =
      [(true, bitRead data 0 != 0), (false, bitRead data 0 != 0),
       (true, bitRead data 1 != 0), (false, bitRead data 1 != 0),
       (true, bitRead data 2 != 0), (false, bitRead data 2 != 0),
       (true, bitRead data 3 != 0), (false, bitRead data 3 != 0),
       (true, bitRead data 4 != 0), (false, bitRead data 4 != 0),
       (true, bitRead data 5 != 0), (false, bitRead data 5 != 0),
       (true, bitRead data 6 != 0), (false, bitRead data 6 != 0),
       (true, bitRead data 7 != 0), (false, bitRead data 7 != 0)] := by
  simp [bytePulses, byteBits, range_eight]

/-- The record after `_DS1302_togglewrite` without release. -/
theorem pulse_togglewrite_keep (hdc : dat ≠ clk)
    (self : ds1302_struct) (hclk : self.DS1302_SCLK_PIN = clk) (hdat : self.DS1302_IO_PIN = dat)
    (s0 : Pulse) (data : Nat) (w : World σ) :
    Pulse.observe clk dat s0 (_DS1302_togglewrite B self data 0 w).trace =
      { Pulse.observe clk dat s0 w.trace with
        sclk := false, io := (bitRead data 7 != 0),
        clock := (Pulse.observe clk dat s0 w.trace).clock ++ bytePulses data,
        highs := (Pulse.observe clk dat s0 w.trace).highs + 8,
        lows := (Pulse.observe clk dat s0 w.trace).lows + 8 } := by
  rw [bytePulses_eq]
  simp only [_DS1302_togglewrite, range_eight, List.foldl_cons, List.foldl_nil, togglewrite_body,
    digitalWrite, delayMicroseconds, ne_eq, not_true_eq_false, false_and, if_false,
    pulse_emit, hclk, hdat]
  generalize Pulse.observe clk dat s0 w.trace = s
  cases s
  simp [Pulse.react, hdc]

/-- The record after `_DS1302_togglewrite` with release. -/
theorem pulse_togglewrite_release (hdc : dat ≠ clk)
    (self : ds1302_struct) (hclk : self.DS1302_SCLK_PIN = clk) (hdat : self.DS1302_IO_PIN = dat)
    (s0 : Pulse) (data release : Nat) (hr : release ≠ 0) (w : World σ) :
    Pulse.observe clk dat s0 (_DS1302_togglewrite B self data release w).trace =
      { Pulse.observe clk dat s0 w.trace with
        sclk := true, io := (bitRead data 7 != 0), ioMode := PinMode.INPUT,
        clock := (Pulse.observe clk dat s0 w.trace).clock ++ (bytePulses data).dropLast,
        highs := (Pulse.observe clk dat s0 w.trace).highs + 8,
        lows := (Pulse.observe clk dat s0 w.trace).lows + 7,
        modes := (Pulse.observe clk dat s0 w.trace).modes + 1 } := by
  rw [bytePulses_eq]
  simp only [_DS1302_togglewrite, range_eight, List.foldl_cons, List.foldl_nil, togglewrite_body,
    digitalWrite, delayMicroseconds, pinMode, ne_eq, hr, not_false_eq_true, true_and,
    Nat.reduceEqDiff, OfNat.zero_ne_ofNat, OfNat.one_ne_ofNat, if_false, if_true,
    pulse_emit, hclk, hdat]
  generalize Pulse.observe clk dat s0 w.trace = s
  cases s
  simp [Pulse.react, hdc]

end PulseLemmas

/-- C14. Release semantics of `_DS1302_togglewrite`, for every data byte, every board and
every prior state of the clock and data pins (two distinct pins).  With `release` non-zero
the call ends with the clock HIGH and the data pin an INPUT (its only change of direction),
and drives the clock LOW 7 times: the clock calls are those of the eight bits without the
last LOW.  With `release` zero it ends with the clock LOW, drives it LOW 8 times and makes
no `pinMode` call on the data pin.  In both cases the clock is driven HIGH 8 times, the
`i`-th time with bit `i` of the data last written to the data pin. -/
theorem togglewrite_release_semantics {σ : Type} (B : Board σ) (self : ds1302_struct)
    (data release : Nat) (w : World σ) (s0 : Pulse)
    (hdc : self.DS1302_IO_PIN ≠ self.DS1302_SCLK_PIN) :
    (release ≠ 0 →
      (Pulse.observe self.DS1302_SCLK_PIN self.DS1302_IO_PIN s0
        (_DS1302_togglewrite B self data release w).trace).sclk = true ∧
      (Pulse.observe self.DS1302_SCLK_PIN self.DS1302_IO_PIN s0
        (_DS1302_togglewrite B self data release w).trace).ioMode = PinMode.INPUT ∧
      (Pulse.observe self.DS1302_SCLK_PIN self.DS1302_IO_PIN s0
        (_DS1302_togglewrite B self data release w).trace).modes =
        (Pulse.observe self.DS1302_SCLK_PIN self.DS1302_IO_PIN s0 w.trace).modes + 1 ∧
      (Pulse.observe self.DS1302_SCLK_PIN self.DS1302_IO_PIN s0
        (_DS1302_togglewrite B self data release w).trace).lows =
        (Pulse.observe self.DS1302_SCLK_PIN self.DS1302_IO_PIN s0 w.trace).lows + 7 ∧
      (Pulse.observe self.DS1302_SCLK_PIN self.DS1302_IO_PIN s0
        (_DS1302_togglewrite B self data release w).trace).highs =
        (Pulse.observe self.DS1302_SCLK_PIN self.DS1302_IO_PIN s0 w.trace).highs + 8 ∧
      (Pulse.observe self.DS1302_SCLK_PIN self.DS1302_IO_PIN s0
        (_DS1302_togglewrite B self data release w).trace).clock =
        (Pulse.observe self.DS1302_SCLK_PIN self.DS1302_IO_PIN s0 w.trace).clock
          ++ (bytePulses data).dropLast) ∧
    (release = 0 →
      (Pulse.observe self.DS1302_SCLK_PIN self.DS1302_IO_PIN s0
        (_DS1302_togglewrite B self data release w).trace).sclk = false ∧
      (Pulse.observe self.DS1302_SCLK_PIN self.DS1302_IO_PIN s0
        (_DS1302_togglewrite B self data release w).trace).ioMode =
        (Pulse.observe self.DS1302_SCLK_PIN self.DS1302_IO_PIN s0 w.trace).ioMode ∧
      (Pulse.observe self.DS1302_SCLK_PIN self.DS1302_IO_PIN s0
        (_DS1302_togglewrite B self data release w).trace).modes =
        (Pulse.observe self.DS1302_SCLK_PIN self.DS1302_IO_PIN s0 w.trace).modes ∧
      (Pulse.observe self.DS1302_SCLK_PIN self.DS1302_IO_PIN s0
        (_DS1302_togglewrite B self data release w).trace).lows =
        (Pulse.observe self.DS1302_SCLK_PIN self.DS1302_IO_PIN s0 w.trace).lows + 8 ∧
      (Pulse.observe self.DS1302_SCLK_PIN self.DS1302_IO_PIN s0
        (_DS1302_togglewrite B self data release w).trace).highs =
        (Pulse.observe self.DS1302_SCLK_PIN self.DS1302_IO_PIN s0 w.trace).highs + 8 ∧
      (Pulse.observe self.DS1302_SCLK_PIN self.DS1302_IO_PIN s0
        (_DS1302_togglewrite B self data release w).trace).clock =
        (Pulse.observe self.DS1302_SCLK_PIN self.DS1302_IO_PIN s0 w.trace).clock
          ++ bytePulses data) := by
  constructor
  · intro hr
    rw [pulse_togglewrite_release B _ _ hdc self rfl rfl s0 data release hr w]
    exact ⟨rfl, rfl, rfl, rfl, rfl, rfl⟩
  · intro hr
    subst hr
    rw [pulse_togglewrite_keep B _ _ hdc self rfl rfl s0 data w]
    exact ⟨rfl, rfl, rfl, rfl, rfl, rfl⟩

theorem togglewrite_release_semantics_witness :
    (exampleHandle.DS1302_IO_PIN ≠ exampleHandle.DS1302_SCLK_PIN ∧ (1 : Nat) ≠ 0 ∧
      bytePulses 0xA5 =
        [(true, true), (false, true), (true, false), (false, false), (true, true),
         (false, true), (true, false), (false, false), (true, false), (false, false),
         (true, true), (false, true), (true, false), (false, false), (true, true),
         (false, true)]) ∧
    ((Pulse.observe exampleHandle.DS1302_SCLK_PIN exampleHandle.DS1302_IO_PIN examplePulse
        (_DS1302_togglewrite idleBoard exampleHandle 0xA5 1 idleWorld).trace).sclk = true ∧
      (Pulse.observe exampleHandle.DS1302_SCLK_PIN exampleHandle.DS1302_IO_PIN examplePulse
        (_DS1302_togglewrite idleBoard exampleHandle 0xA5 1 idleWorld).trace).ioMode
        = PinMode.INPUT ∧
      (Pulse.observe exampleHandle.DS1302_SCLK_PIN exampleHandle.DS1302_IO_PIN examplePulse
        (_DS1302_togglewrite idleBoard exampleHandle 0xA5 1 idleWorld).trace).modes =
        (Pulse.observe exampleHandle.DS1302_SCLK_PIN exampleHandle.DS1302_IO_PIN examplePulse
          idleWorld.trace).modes + 1 ∧
      (Pulse.observe exampleHandle.DS1302_SCLK_PIN exampleHandle.DS1302_IO_PIN examplePulse
        (_DS1302_togglewrite idleBoard exampleHandle 0xA5 1 idleWorld).trace).lows =
        (Pulse.observe exampleHandle.DS1302_SCLK_PIN exampleHandle.DS1302_IO_PIN examplePulse
          idleWorld.trace).lows + 7 ∧
      (Pulse.observe exampleHandle.DS1302_SCLK_PIN exampleHandle.DS1302_IO_PIN examplePulse
        (_DS1302_togglewrite idleBoard exampleHandle 0xA5 1 idleWorld).trace).highs =
        (Pulse.observe exampleHandle.DS1302_SCLK_PIN exampleHandle.DS1302_IO_PIN examplePulse
          idleWorld.trace).highs + 8 ∧
      (Pulse.observe exampleHandle.DS1302_SCLK_PIN exampleHandle.DS1302_IO_PIN examplePulse
        (_DS1302_togglewrite idleBoard exampleHandle 0xA5 1 idleWorld).trace).clock =
        (Pulse.observe exampleHandle.DS1302_SCLK_PIN exampleHandle.DS1302_IO_PIN examplePulse
          idleWorld.trace).clock ++ (bytePulses 0xA5).dropLast) ∧
    ((Pulse.observe exampleHandle.DS1302_SCLK_PIN exampleHandle.DS1302_IO_PIN examplePulse
        (_DS1302_togglewrite idleBoard exampleHandle 0xA5 0 idleWorld).trace).sclk = false ∧
      (Pulse.observe exampleHandle.DS1302_SCLK_PIN exampleHandle.DS1302_IO_PIN examplePulse
        (_DS1302_togglewrite idleBoard exampleHandle 0xA5 0 idleWorld).trace).ioMode =
        (Pulse.observe exampleHandle.DS1302_SCLK_PIN exampleHandle.DS1302_IO_PIN examplePulse
          idleWorld.trace).ioMode ∧
      (Pulse.observe exampleHandle.DS1302_SCLK_PIN exampleHandle.DS1302_IO_PIN examplePulse
        (_DS1302_togglewrite idleBoard exampleHandle 0xA5 0 idleWorld).trace).modes =
        (Pulse.observe exampleHandle.DS1302_SCLK_PIN exampleHandle.DS1302_IO_PIN examplePulse
          idleWorld.trace).modes ∧
      (Pulse.observe exampleHandle.DS1302_SCLK_PIN exampleHandle.DS1302_IO_PIN examplePulse
        (_DS1302_togglewrite idleBoard exampleHandle 0xA5 0 idleWorld).trace).lows =
        (Pulse.observe exampleHandle.DS1302_SCLK_PIN exampleHandle.DS1302_IO_PIN examplePulse
          idleWorld.trace).lows + 8 ∧
      (Pulse.observe exampleHandle.DS1302_SCLK_PIN exampleHandle.DS1302_IO_PIN examplePulse
        (_DS1302_togglewrite idleBoard exampleHandle 0xA5 0 idleWorld).trace).highs =
        (Pulse.observe exampleHandle.DS1302_SCLK_PIN exampleHandle.DS1302_IO_PIN examplePulse
          idleWorld.trace).highs + 8 ∧
      (Pulse.observe exampleHandle.DS1302_SCLK_PIN exampleHandle.DS1302_IO_PIN examplePulse
        (_DS1302_togglewrite idleBoard exampleHandle 0xA5 0 idleWorld).trace).clock =
        (Pulse.observe exampleHandle.DS1302_SCLK_PIN exampleHandle.DS1302_IO_PIN examplePulse
          idleWorld.trace).clock ++ bytePulses 0xA5) :=
  ⟨by decide,
   (togglewrite_release_semantics idleBoard exampleHandle 0xA5 1 idleWorld examplePulse
      (by decide)).1 (by decide),
   (togglewrite_release_semantics idleBoard exampleHandle 0xA5 0 idleWorld examplePulse
      (by decide)).2 rfl⟩

/-! ## Transfers stay inside a session -/

section GuardLemmas

variable {σ : Type} (B : Board σ) (clk dat en : Int)

theorem guard_emit (s0 : Guard) (e : Event) (w : World σ) :
    Guard.observe clk dat en s0 (emit B e w).trace =
      Guard.react clk dat en (Guard.observe clk dat en s0 w.trace) e := by
  simp [emit, Guard.observe, List.foldl_append]

theorem guard_start (hce : clk ≠ en)
    (self : ds1302_struct) (hclk : self.DS1302_SCLK_PIN = clk) (hdat : self.DS1302_IO_PIN = dat)
    (hen : self.DS1302_CE_PIN = en) (s0 : Guard) (w : World σ) :
    (Guard.observe clk dat en s0 (_DS1302_start B self w).trace).ce = true ∧
    (Guard.observe clk dat en s0 (_DS1302_start B self w).trace).outside =
      (Guard.observe clk dat en s0 w.trace).outside := by
  simp only [_DS1302_start, digitalWrite, delayMicroseconds, pinMode, guard_emit, hclk, hdat, hen]
  generalize Guard.observe clk dat en s0 w.trace = s
  cases s
  simp [Guard.react, hce]

theorem guard_stop (self : ds1302_struct) (hen : self.DS1302_CE_PIN = en) (s0 : Guard)
    (w : World σ) :
    (Guard.observe clk dat en s0 (_DS1302_stop B self w).trace).ce = false ∧
    (Guard.observe clk dat en s0 (_DS1302_stop B self w).trace).outside =
      (Guard.observe clk dat en s0 w.trace).outside := by
  simp only [_DS1302_stop, digitalWrite, delayMicroseconds, guard_emit, hen]
  generalize Guard.observe clk dat en s0 w.trace = s
  cases s
  simp [Guard.react]

theorem guard_togglewrite_body (hce : clk ≠ en) (hde : dat ≠ en) (hdc : dat ≠ clk)
    (self : ds1302_struct) (hclk : self.DS1302_SCLK_PIN = clk) (hdat : self.DS1302_IO_PIN = dat)
    (s0 : Guard) (data release i : Nat) (w : World σ)
    (h1 : (Guard.observe clk dat en s0 w.trace).ce = true) :
    (Guard.observe clk dat en s0 (togglewrite_body B self data release w i).trace).ce = true ∧
    (Guard.observe clk dat en s0 (togglewrite_body B self data release w i).trace).outside =
      (Guard.observe clk dat en s0 w.trace).outside := by
  unfold togglewrite_body
  by_cases hr : release ≠ 0 ∧ i = 7
  · simp only [hr, and_self, if_true, ne_eq, not_false_eq_true, digitalWrite, delayMicroseconds,
      pinMode, guard_emit, hclk, hdat]
    generalize Guard.observe clk dat en s0 w.trace = s at *
    cases s
    simp_all [Guard.react]
  · simp only [hr, if_false, digitalWrite, delayMicroseconds, guard_emit, hclk, hdat]
    generalize Guard.observe clk dat en s0 w.trace = s at *
    cases s
    simp_all [Guard.react]

theorem guard_togglewrite_fold (hce : clk ≠ en) (hde : dat ≠ en) (hdc : dat ≠ clk)
    (self : ds1302_struct) (hclk : self.DS1302_SCLK_PIN = clk) (hdat : self.DS1302_IO_PIN = dat)
    (s0 : Guard) (data release : Nat) (is : List Nat) (w : World σ)
    (h1 : (Guard.observe clk dat en s0 w.trace).ce = true) :
    (Guard.observe clk dat en s0
      (is.foldl (togglewrite_body B self data release) w).trace).ce = true ∧
    (Guard.observe clk dat en s0
      (is.foldl (togglewrite_body B self data release) w).trace).outside =
      (Guard.observe clk dat en s0 w.trace).outside := by
  induction is generalizing w with
  | nil => exact ⟨h1, rfl⟩
  | cons i rest ih =>
    obtain ⟨b1, b2⟩ := guard_togglewrite_body B clk dat en hce hde hdc self hclk hdat s0 data
      release i w h1
    obtain ⟨i1, i2⟩ := ih (togglewrite_body B self data release w i) b1
    simp only [List.foldl_cons]
    exact ⟨i1, by rw [i2, b2]⟩

/-- Inside a session `_DS1302_togglewrite` leaves the enable line high and makes no call
outside a session. -/
theorem guard_togglewrite (hce : clk ≠ en) (hde : dat ≠ en) (hdc : dat ≠ clk)
    (self : ds1302_struct) (hclk : self.DS1302_SCLK_PIN = clk) (hdat : self.DS1302_IO_PIN = dat)
    (s0 : Guard) (data release : Nat) (w : World σ)
    (h1 : (Guard.observe clk dat en s0 w.trace).ce = true) :
    (Guard.observe clk dat en s0 (_DS1302_togglewrite B self data release w).trace).ce = true ∧
    (Guard.observe clk dat en s0 (_DS1302_togglewrite B self data release w).trace).outside =
      (Guard.observe clk dat en s0 w.trace).outside :=
  guard_togglewrite_fold B clk dat en hce hde hdc self hclk hdat s0 data release _ w h1

theorem guard_toggleread_body (hce : clk ≠ en)
    (self : ds1302_struct) (hclk : self.DS1302_SCLK_PIN = clk) (hdat : self.DS1302_IO_PIN = dat)
    (s0 : Guard) (i : Nat) (st : Nat × World σ)
    (h1 : (Guard.observe clk dat en s0 st.2.trace).ce = true) :
    (Guard.observe clk dat en s0 (toggleread_body B self st i).2.trace).ce = true ∧
    (Guard.observe clk dat en s0 (toggleread_body B self st i).2.trace).outside =
      (Guard.observe clk dat en s0 st.2.trace).outside := by
  simp only [toggleread_body, digitalWrite, delayMicroseconds, digitalRead, guard_emit, hclk,
    hdat]
  generalize Guard.observe clk dat en s0 st.2.trace = s at *
  cases s
  simp_all [Guard.react]

theorem guard_toggleread_fold (hce : clk ≠ en)
    (self : ds1302_struct) (hclk : self.DS1302_SCLK_PIN = clk) (hdat : self.DS1302_IO_PIN = dat)
    (s0 : Guard) (is : List Nat) (st : Nat × World σ)
    (h1 : (Guard.observe clk dat en s0 st.2.trace).ce = true) :
    (Guard.observe clk dat en s0 (is.foldl (toggleread_body B self) st).2.trace).ce = true ∧
    (Guard.observe clk dat en s0 (is.foldl (toggleread_body B self) st).2.trace).outside =
      (Guard.observe clk dat en s0 st.2.trace).outside := by
  induction is generalizing st with
  | nil => exact ⟨h1, rfl⟩
  | cons i rest ih =>
    obtain ⟨b1, b2⟩ := guard_toggleread_body B clk dat en hce self hclk hdat s0 i st h1
    obtain ⟨i1, i2⟩ := ih (toggleread_body B self st i) b1
    simp only [List.foldl_cons]
    exact ⟨i1, by rw [i2, b2]⟩

/-- Inside a session `_DS1302_toggleread` leaves the enable line high and makes no call
outside a session. -/
theorem guard_toggleread (hce : clk ≠ en)
    (self : ds1302_struct) (hclk : self.DS1302_SCLK_PIN = clk) (hdat : self.DS1302_IO_PIN = dat)
    (s0 : Guard) (w : World σ)
    (h1 : (Guard.observe clk dat en s0 w.trace).ce = true) :
    (Guard.observe clk dat en s0 (_DS1302_toggleread B self w).2.trace).ce = true ∧
    (Guard.observe clk dat en s0 (_DS1302_toggleread B self w).2.trace).outside =
      (Guard.observe clk dat en s0 w.trace).outside :=
  guard_toggleread_fold B clk dat en hce self hclk hdat s0 _ (0, w) h1

/-- Any `DS1302_write` keeps its transfers inside its session and ends with the enable
line low. -/
theorem guard_write (hce : clk ≠ en) (hde : dat ≠ en) (hdc : dat ≠ clk)
    (self : ds1302_struct) (hclk : self.DS1302_SCLK_PIN = clk) (hdat : self.DS1302_IO_PIN = dat)
    (hen : self.DS1302_CE_PIN = en) (s0 : Guard) (address : Int) (data : Nat) (w : World σ) :
    (Guard.observe clk dat en s0 (DS1302_write B self address data w).trace).ce = false ∧
    (Guard.observe clk dat en s0 (DS1302_write B self address data w).trace).outside =
      (Guard.observe clk dat en s0 w.trace).outside := by
  obtain ⟨s1, s2⟩ := guard_start B clk dat en hce self hclk hdat hen s0 w
  obtain ⟨a1, a2⟩ := guard_togglewrite B clk dat en hce hde hdc self hclk hdat s0
    (u8 (bitClearInt address DS1302_READBIT)) 0 (_DS1302_start B self w) s1
  obtain ⟨d1, d2⟩ := guard_togglewrite B clk dat en hce hde hdc self hclk hdat s0 data 0
    (_DS1302_togglewrite B self (u8 (bitClearInt address DS1302_READBIT)) 0
      (_DS1302_start B self w)) a1
  obtain ⟨e1, e2⟩ := guard_stop B clk dat en self hen s0
    (_DS1302_togglewrite B self data 0
      (_DS1302_togglewrite B self (u8 (bitClearInt address DS1302_READBIT)) 0
        (_DS1302_start B self w)))
  unfold DS1302_write
  exact ⟨e1, by rw [e2, d2, a2, s2]⟩

theorem guard_burst_write_fold (hce : clk ≠ en) (hde : dat ≠ en) (hdc : dat ≠ clk)
    (self : ds1302_struct) (hclk : self.DS1302_SCLK_PIN = clk) (hdat : self.DS1302_IO_PIN = dat)
    (s0 : Guard) (is : List Nat) (w : World σ)
    (h1 : (Guard.observe clk dat en s0 w.trace).ce = true) :
    (Guard.observe clk dat en s0 (is.foldl (burst_write_body B self) w).trace).ce = true ∧
    (Guard.observe clk dat en s0 (is.foldl (burst_write_body B self) w).trace).outside =
      (Guard.observe clk dat en s0 w.trace).outside := by
  induction is generalizing w with
  | nil => exact ⟨h1, rfl⟩
  | cons i rest ih =>
    obtain ⟨b1, b2⟩ := guard_togglewrite B clk dat en hce hde hdc self hclk hdat s0
      (self.t_time.toBytes.getD i 0) 0 w h1
    obtain ⟨i1, i2⟩ := ih (burst_write_body B self w i) b1
    simp only [List.foldl_cons]
    exact ⟨i1, by rw [i2]; exact b2⟩

/-- Any `DS1302_clock_burst_write` keeps its transfers inside its session and ends with the
enable line low. -/
theorem guard_burst_write (hce : clk ≠ en) (hde : dat ≠ en) (hdc : dat ≠ clk)
    (self : ds1302_struct) (hclk : self.DS1302_SCLK_PIN = clk) (hdat : self.DS1302_IO_PIN = dat)
    (hen : self.DS1302_CE_PIN = en) (s0 : Guard) (w : World σ) :
    (Guard.observe clk dat en s0 (DS1302_clock_burst_write B self w).trace).ce = false ∧
    (Guard.observe clk dat en s0 (DS1302_clock_burst_write B self w).trace).outside =
      (Guard.observe clk dat en s0 w.trace).outside := by
  obtain ⟨s1, s2⟩ := guard_start B clk dat en hce self hclk hdat hen s0 w
  obtain ⟨a1, a2⟩ := guard_togglewrite B clk dat en hce hde hdc self hclk hdat s0
    (u8 DS1302_CLOCK_BURST_WRITE) 0 (_DS1302_start B self w) s1
  obtain ⟨d1, d2⟩ := guard_burst_write_fold B clk dat en hce hde hdc self hclk hdat s0
    (List.range 8)
    (_DS1302_togglewrite B self (u8 DS1302_CLOCK_BURST_WRITE) 0 (_DS1302_start B self w)) a1
  obtain ⟨e1, e2⟩ := guard_stop B clk dat en self hen s0
    ((List.range 8).foldl (burst_write_body B self)
      (_DS1302_togglewrite B self (u8 DS1302_CLOCK_BURST_WRITE) 0 (_DS1302_start B self w)))
  unfold DS1302_clock_burst_write
  exact ⟨e1, by rw [e2, d2, a2, s2]⟩

theorem guard_burst_read_fold (hce : clk ≠ en)
    (s0 : Guard) (is : List Nat) (st : ds1302_struct × World σ)
    (hclk : st.1.DS1302_SCLK_PIN = clk) (hdat : st.1.DS1302_IO_PIN = dat)
    (hen : st.1.DS1302_CE_PIN = en)
    (h1 : (Guard.observe clk dat en s0 st.2.trace).ce = true) :
    (Guard.observe clk dat en s0 (is.foldl (burst_read_body B) st).2.trace).ce = true ∧
    (Guard.observe clk dat en s0 (is.foldl (burst_read_body B) st).2.trace).outside =
      (Guard.observe clk dat en s0 st.2.trace).outside ∧
    (is.foldl (burst_read_body B) st).1.DS1302_CE_PIN = en := by
  induction is generalizing st with
  | nil => exact ⟨h1, rfl, hen⟩
  | cons i rest ih =>
    obtain ⟨b1, b2⟩ := guard_toggleread B clk dat en hce st.1 hclk hdat s0 st.2 h1
    obtain ⟨i1, i2, i3⟩ := ih (burst_read_body B st i) hclk hdat hen b1
    simp only [List.foldl_cons]
    exact ⟨i1, by rw [i2]; exact b2, i3⟩

/-- Any `DS1302_clock_burst_read` keeps its transfers inside its session and ends with the
enable line low. -/
theorem guard_burst_read (hce : clk ≠ en) (hde : dat ≠ en) (hdc : dat ≠ clk)
    (self : ds1302_struct) (hclk : self.DS1302_SCLK_PIN = clk) (hdat : self.DS1302_IO_PIN = dat)
    (hen : self.DS1302_CE_PIN = en) (s0 : Guard) (w : World σ) :
    (Guard.observe clk dat en s0 (DS1302_clock_burst_read B self w).2.trace).ce = false ∧
    (Guard.observe clk dat en s0 (DS1302_clock_burst_read B self w).2.trace).outside =
      (Guard.observe clk dat en s0 w.trace).outside := by
  obtain ⟨s1, s2⟩ := guard_start B clk dat en hce self hclk hdat hen s0 w
  obtain ⟨a1, a2⟩ := guard_togglewrite B clk dat en hce hde hdc self hclk hdat s0
    (u8 DS1302_CLOCK_BURST_READ) 1 (_DS1302_start B self w) s1
  obtain ⟨d1, d2, d3⟩ := guard_burst_read_fold B clk dat en hce s0 (List.range 8)
    (self, _DS1302_togglewrite B self (u8 DS1302_CLOCK_BURST_READ) 1 (_DS1302_start B self w))
    hclk hdat hen a1
  obtain ⟨e1, e2⟩ := guard_stop B clk dat en
    ((List.range 8).foldl (burst_read_body B)
      (self, _DS1302_togglewrite B self (u8 DS1302_CLOCK_BURST_READ) 1
        (_DS1302_start B self w))).1 d3 s0
    ((List.range 8).foldl (burst_read_body B)
      (self, _DS1302_togglewrite B self (u8 DS1302_CLOCK_BURST_READ) 1
        (_DS1302_start B self w))).2
  unfold DS1302_clock_burst_read
  exact ⟨e1, by rw [e2, d2, a2, s2]⟩

end GuardLemmas

/-- C16. Data transfer happens only inside a session.  On three distinct pins, for every
board and from any state of the three lines, the constructor, `_DS1302_update`,
`_DS1302_set_date_time` (which returns whenever the month is in `1..12`) and the destructor
make no call that drives the clock HIGH or samples the data line while the enable line is
LOW, and each ends with the enable line LOW. -/
theorem transfers_inside_session {σ : Type} (B : Board σ) (self : ds1302_struct)
    (t0 : ds_time) (b : int_time) (w : World σ) (s0 : Guard)
    (hce : self.DS1302_SCLK_PIN ≠ self.DS1302_CE_PIN)
    (hde : self.DS1302_IO_PIN ≠ self.DS1302_CE_PIN)
    (hdc : self.DS1302_IO_PIN ≠ self.DS1302_SCLK_PIN) :
    ((Guard.observe self.DS1302_SCLK_PIN self.DS1302_IO_PIN self.DS1302_CE_PIN s0
        (ds1302_struct.new B self.DS1302_SCLK_PIN self.DS1302_IO_PIN self.DS1302_CE_PIN t0
          w).2.trace).outside =
      (Guard.observe self.DS1302_SCLK_PIN self.DS1302_IO_PIN self.DS1302_CE_PIN s0
        w.trace).outside ∧
     (Guard.observe self.DS1302_SCLK_PIN self.DS1302_IO_PIN self.DS1302_CE_PIN s0
        (ds1302_struct.new B self.DS1302_SCLK_PIN self.DS1302_IO_PIN self.DS1302_CE_PIN t0
          w).2.trace).ce = false) ∧
    ((Guard.observe self.DS1302_SCLK_PIN self.DS1302_IO_PIN self.DS1302_CE_PIN s0
        (_DS1302_update B self w).2.trace).outside =
      (Guard.observe self.DS1302_SCLK_PIN self.DS1302_IO_PIN self.DS1302_CE_PIN s0
        w.trace).outside ∧
     (Guard.observe self.DS1302_SCLK_PIN self.DS1302_IO_PIN self.DS1302_CE_PIN s0
        (_DS1302_update B self w).2.trace).ce = false) ∧
    ((1 ≤ b.Month → b.Month ≤ 12 →
        ∃ self1 w1, _DS1302_set_date_time B self b w = some (self1, w1)) ∧
     ∀ self1 w1, _DS1302_set_date_time B self b w = some (self1, w1) →
      (Guard.observe self.DS1302_SCLK_PIN self.DS1302_IO_PIN self.DS1302_CE_PIN s0
          w1.trace).outside =
        (Guard.observe self.DS1302_SCLK_PIN self.DS1302_IO_PIN self.DS1302_CE_PIN s0
          w.trace).outside ∧
      (Guard.observe self.DS1302_SCLK_PIN self.DS1302_IO_PIN self.DS1302_CE_PIN s0
          w1.trace).ce = false) ∧
    ((Guard.observe self.DS1302_SCLK_PIN self.DS1302_IO_PIN self.DS1302_CE_PIN s0
        (ds1302_struct.delete B self w).trace).outside =
      (Guard.observe self.DS1302_SCLK_PIN self.DS1302_IO_PIN self.DS1302_CE_PIN s0
        w.trace).outside ∧
     (Guard.observe self.DS1302_SCLK_PIN self.DS1302_IO_PIN self.DS1302_CE_PIN s0
        (ds1302_struct.delete B self w).trace).ce = false) := by
  refine ⟨?_, ?_, ⟨?_, ?_⟩, ?_⟩
  · obtain ⟨a1, a2⟩ := guard_write B _ _ _ hce hde hdc
      { DS1302_SCLK_PIN := self.DS1302_SCLK_PIN, DS1302_IO_PIN := self.DS1302_IO_PIN,
        DS1302_CE_PIN := self.DS1302_CE_PIN, t_time := t0, b_time := {} }
      rfl rfl rfl s0 DS1302_ENABLE 0 w
    obtain ⟨b1, b2⟩ := guard_write B _ _ _ hce hde hdc
      { DS1302_SCLK_PIN := self.DS1302_SCLK_PIN, DS1302_IO_PIN := self.DS1302_IO_PIN,
        DS1302_CE_PIN := self.DS1302_CE_PIN, t_time := t0, b_time := {} }
      rfl rfl rfl s0 DS1302_TRICKLE 0x00
      (DS1302_write B
        { DS1302_SCLK_PIN := self.DS1302_SCLK_PIN, DS1302_IO_PIN := self.DS1302_IO_PIN,
          DS1302_CE_PIN := self.DS1302_CE_PIN, t_time := t0, b_time := {} } DS1302_ENABLE 0 w)
    unfold ds1302_struct.new
    exact ⟨by rw [← a2]; exact b2, b1⟩
  · obtain ⟨a1, a2⟩ := guard_burst_read B _ _ _ hce hde hdc self rfl rfl rfl s0 w
    exact ⟨a2, a1⟩
  · intro h1 h12
    obtain ⟨dow, hdow, -, -⟩ :=
      dayofweek_range b.Date b.Month b.Year (by omega) (by omega) (by omega) (by omega)
    exact ⟨_, _, set_date_time_some B self w b _ (set_date_time_fill_eq b dow hdow)⟩
  · intro self1 w1 h
    unfold _DS1302_set_date_time at h
    simp only [Option.map_eq_some'] at h
    obtain ⟨T, -, hpair⟩ := h
    have hw : w1 = DS1302_clock_burst_write B { self with t_time := T } w := by
      have := congrArg Prod.snd hpair
      exact this.symm
    obtain ⟨a1, a2⟩ := guard_burst_write B _ _ _ hce hde hdc { self with t_time := T }
      rfl rfl rfl s0 w
    rw [hw]
    exact ⟨a2, a1⟩
  · obtain ⟨a1, a2⟩ := guard_stop B self.DS1302_SCLK_PIN self.DS1302_IO_PIN _ self rfl s0 w
    exact ⟨a2, a1⟩

theorem transfers_inside_session_witness :
    (exampleHandle.DS1302_SCLK_PIN ≠ exampleHandle.DS1302_CE_PIN ∧
      exampleHandle.DS1302_IO_PIN ≠ exampleHandle.DS1302_CE_PIN ∧
      exampleHandle.DS1302_IO_PIN ≠ exampleHandle.DS1302_SCLK_PIN ∧
      1 ≤ exampleTime.Month ∧ exampleTime.Month ≤ 12) ∧
    (∃ self1 w1, _DS1302_set_date_time highBoard exampleHandle exampleTime idleWorld
      = some (self1, w1)) ∧
    ((Guard.observe exampleHandle.DS1302_SCLK_PIN exampleHandle.DS1302_IO_PIN
        exampleHandle.DS1302_CE_PIN exampleGuard
        (_DS1302_update highBoard exampleHandle idleWorld).2.trace).outside =
      (Guard.observe exampleHandle.DS1302_SCLK_PIN exampleHandle.DS1302_IO_PIN
        exampleHandle.DS1302_CE_PIN exampleGuard idleWorld.trace).outside ∧
     (Guard.observe exampleHandle.DS1302_SCLK_PIN exampleHandle.DS1302_IO_PIN
        exampleHandle.DS1302_CE_PIN exampleGuard
        (_DS1302_update highBoard exampleHandle idleWorld).2.trace).ce = false) :=
  ⟨by decide,
   (transfers_inside_session highBoard exampleHandle ds_time.zero exampleTime idleWorld
      exampleGuard (by decide) (by decide) (by decide)).2.2.1.1 (by decide) (by decide),
   (transfers_inside_session highBoard exampleHandle ds_time.zero exampleTime idleWorld
      exampleGuard (by decide) (by decide) (by decide)).2.1⟩

/-! ## Single-register access seen on the lines -/

section WireAccess

variable {σ : Type} (B : Board σ) (clk dat en : Int)

/-- A byte written by `_DS1302_togglewrite` with release, seen on the lines inside a
session with the clock low: the eight bits are latched, then the data line is released and
the clock stays high. -/
theorem observe_togglewrite_release (hce : clk ≠ en) (hde : dat ≠ en) (hdc : dat ≠ clk)
    (self : ds1302_struct) (hclk : self.DS1302_SCLK_PIN = clk) (hdat : self.DS1302_IO_PIN = dat)
    (s0 : Wire) (data release : Nat) (hr : release ≠ 0) (w : World σ)
    (h1 : (Wire.observe clk dat en s0 w.trace).ce = true)
    (h2 : (Wire.observe clk dat en s0 w.trace).sclk = false)
    (h3 : (Wire.observe clk dat en s0 w.trace).ioMode = PinMode.OUTPUT) :
    Wire.observe clk dat en s0 (_DS1302_togglewrite B self data release w).trace =
      { Wire.observe clk dat en s0 w.trace with
        sclk := true, io := (bitRead data 7 != 0), ioMode := PinMode.INPUT,
        cur := some ((Wire.observe clk dat en s0 w.trace).cur.getD [] ++
          (byteBits data).map some),
        releases := (Wire.observe clk dat en s0 w.trace).releases + 1 } := by
  simp only [_DS1302_togglewrite, range_eight, List.foldl_cons, List.foldl_nil, togglewrite_body,
    digitalWrite, delayMicroseconds, pinMode, ne_eq, hr, not_false_eq_true, true_and,
    Nat.reduceEqDiff, OfNat.zero_ne_ofNat, OfNat.one_ne_ofNat, if_false, if_true,
    observe_emit, hclk, hdat]
  generalize Wire.observe clk dat en s0 w.trace = s at *
  cases s
  simp only at h1 h2 h3
  subst h1 h2 h3
  simp [Wire.react, hce, hde, hdc, byteBits, range_eight]

/-- The eight clock pulses of `_DS1302_toggleread` after a release, seen on the lines: the
first finds the clock already high, the other seven are rising edges at which the
controller does not drive the data line. -/
theorem observe_toggleread (hce : clk ≠ en)
    (self : ds1302_struct) (hclk : self.DS1302_SCLK_PIN = clk) (hdat : self.DS1302_IO_PIN = dat)
    (s0 : Wire) (w : World σ)
    (h1 : (Wire.observe clk dat en s0 w.trace).ce = true)
    (h2 : (Wire.observe clk dat en s0 w.trace).sclk = true)
    (h3 : (Wire.observe clk dat en s0 w.trace).ioMode = PinMode.INPUT) :
    Wire.observe clk dat en s0 (_DS1302_toggleread B self w).2.trace =
      { Wire.observe clk dat en s0 w.trace with
        sclk := false,
        cur := some ((Wire.observe clk dat en s0 w.trace).cur.getD [] ++
          List.replicate 7 none) } := by
  simp only [_DS1302_toggleread, range_eight, List.foldl_cons, List.foldl_nil, toggleread_body,
    digitalWrite, delayMicroseconds, digitalRead, observe_emit, hclk, hdat]
  generalize Wire.observe clk dat en s0 w.trace = s at *
  cases s
  simp only at h1 h2 h3
  subst h1 h2 h3
  simp [Wire.react, hce, List.replicate]

end WireAccess

/-! ## The samples of the data line -/

section ReadsLemmas

variable {σ : Type} (B : Board σ)

theorem reads_digitalWrite (pin : Int) (v : Bool) (w : World σ) :
    reads (digitalWrite B pin v w).trace = reads w.trace := by
  simp [digitalWrite, emit, reads, List.filterMap_append]

theorem reads_pinMode (pin : Int) (mode : PinMode) (w : World σ) :
    reads (pinMode B pin mode w).trace = reads w.trace := by
  simp [pinMode, emit, reads, List.filterMap_append]

theorem reads_delay (us : Nat) (w : World σ) :
    reads (delayMicroseconds B us w).trace = reads w.trace := by
  simp [delayMicroseconds, emit, reads, List.filterMap_append]

theorem reads_digitalRead (pin : Int) (w : World σ) :
    reads (digitalRead B pin w).2.trace = reads w.trace ++ [(pin, (digitalRead B pin w).1)] := by
  simp [digitalRead, emit, reads, List.filterMap_append]

theorem reads_start (self : ds1302_struct) (w : World σ) :
    reads (_DS1302_start B self w).trace = reads w.trace := by
  simp only [_DS1302_start, reads_digitalWrite, reads_pinMode, reads_delay]

theorem reads_stop (self : ds1302_struct) (w : World σ) :
    reads (_DS1302_stop B self w).trace = reads w.trace := by
  simp only [_DS1302_stop, reads_digitalWrite, reads_delay]

theorem reads_togglewrite_body (self : ds1302_struct) (data release i : Nat) (w : World σ) :
    reads (togglewrite_body B self data release w i).trace = reads w.trace := by
  unfold togglewrite_body
  split_ifs <;> simp only [reads_digitalWrite, reads_pinMode, reads_delay]

theorem reads_togglewrite_fold (self : ds1302_struct) (data release : Nat) (is : List Nat)
    (w : World σ) :
    reads (is.foldl (togglewrite_body B self data release) w).trace = reads w.trace := by
  induction is generalizing w with
  | nil => rfl
  | cons i rest ih => rw [List.foldl_cons, ih, reads_togglewrite_body]

/-- No sample is taken by `_DS1302_togglewrite`. -/
theorem reads_togglewrite (self : ds1302_struct) (data release : Nat) (w : World σ) :
    reads (_DS1302_togglewrite B self data release w).trace = reads w.trace :=
  reads_togglewrite_fold B self data release _ w

/-- No sample is taken by `DS1302_write`. -/
theorem reads_write (self : ds1302_struct) (address : Int) (data : Nat) (w : World σ) :
    reads (DS1302_write B self address data w).trace = reads w.trace := by
  simp only [DS1302_write, reads_stop, reads_togglewrite, reads_start]

theorem toggleread_fold_samples (self : ds1302_struct) (is : List Nat) (st : Nat × World σ) :
    ∃ vs : List Bool, vs.length = is.length ∧
      (is.foldl (toggleread_body B self) st).1 = assemble st.1 is vs ∧
      reads (is.foldl (toggleread_body B self) st).2.trace =
        reads st.2.trace ++ vs.map (fun v => (self.DS1302_IO_PIN, v)) := by
  induction is generalizing st with
  | nil => exact ⟨[], rfl, rfl, by simp⟩
  | cons i rest ih =>
    obtain ⟨vs, hlen, hval, hreads⟩ := ih (toggleread_body B self st i)
    have hb : reads (toggleread_body B self st i).2.trace = reads st.2.trace ++
        [(self.DS1302_IO_PIN, (digitalRead B self.DS1302_IO_PIN
          (delayMicroseconds B 1 (digitalWrite B self.DS1302_SCLK_PIN false
            (delayMicroseconds B 1 (digitalWrite B self.DS1302_SCLK_PIN true st.2))))).1)] := by
      simp only [toggleread_body, reads_digitalRead, reads_delay, reads_digitalWrite]
    refine ⟨(digitalRead B self.DS1302_IO_PIN
          (delayMicroseconds B 1 (digitalWrite B self.DS1302_SCLK_PIN false
            (delayMicroseconds B 1 (digitalWrite B self.DS1302_SCLK_PIN true st.2))))).1 :: vs,
      by simp [hlen], ?_, ?_⟩
    · rw [List.foldl_cons, hval]
      rfl
    · rw [List.foldl_cons, hreads, hb]
      simp

set_option maxRecDepth 100000 in
theorem assemble_eq_bitsByte : ∀ b0 b1 b2 b3 b4 b5 b6 b7 : Bool,
    assemble 0 [0, 1, 2, 3, 4, 5, 6, 7] [b0, b1, b2, b3, b4, b5, b6, b7] =
      bitsByte [b0, b1, b2, b3, b4, b5, b6, b7] := by
  decide

/-- The byte returned by `_DS1302_toggleread`: eight samples of the data pin are taken and
bit `i` of the result is the `i`-th of them. -/
theorem toggleread_samples (self : ds1302_struct) (w : World σ) :
    ∃ vs : List Bool, vs.length = 8 ∧
      (_DS1302_toggleread B self w).1 = bitsByte vs ∧
      reads (_DS1302_toggleread B self w).2.trace =
        reads w.trace ++ vs.map (fun v => (self.DS1302_IO_PIN, v)) := by
  obtain ⟨vs, hlen, hval, hreads⟩ := toggleread_fold_samples B self (List.range 8) (0, w)
  refine ⟨vs, by simpa using hlen, ?_, hreads⟩
  unfold _DS1302_toggleread
  rw [hval, range_eight]
  match vs, hlen with
  | [b0, b1, b2, b3, b4, b5, b6, b7], _ => exact assemble_eq_bitsByte b0 b1 b2 b3 b4 b5 b6 b7

end ReadsLemmas

section WireRegister

variable {σ : Type} (B : Board σ) (clk dat en : Int)

/-- What `DS1302_write` puts on the lines: one new session made of the command byte and
the data byte, every bit driven by the controller, no release, enable low at the end. -/
theorem observe_write (hce : clk ≠ en) (hde : dat ≠ en) (hdc : dat ≠ clk)
    (self : ds1302_struct) (hclk : self.DS1302_SCLK_PIN = clk) (hdat : self.DS1302_IO_PIN = dat)
    (hen : self.DS1302_CE_PIN = en) (s0 : Wire) (address : Int) (data : Nat) (w : World σ) :
    (Wire.observe clk dat en s0 (DS1302_write B self address data w).trace).sessions =
      (Wire.observe clk dat en s0 w.trace).sessions ++
        [(byteBits (u8 (bitClearInt address DS1302_READBIT)) ++ byteBits data).map some] ∧
    (Wire.observe clk dat en s0 (DS1302_write B self address data w).trace).releases =
      (Wire.observe clk dat en s0 w.trace).releases ∧
    (Wire.observe clk dat en s0 (DS1302_write B self address data w).trace).ce = false := by
  have hs := observe_start B clk dat en hce hde hdc self hclk hdat hen s0 w
  have hc := observe_togglewrite B clk dat en hce hde hdc self hclk hdat s0
    (u8 (bitClearInt address DS1302_READBIT)) (_DS1302_start B self w)
    (by rw [hs]) (by rw [hs]) (by rw [hs])
  obtain ⟨c1, c2, c3, c4, c5, c6⟩ := latch_foldl
    (byteBits (u8 (bitClearInt address DS1302_READBIT)))
    (Wire.observe clk dat en s0 (_DS1302_start B self w).trace)
  have hd := observe_togglewrite B clk dat en hce hde hdc self hclk hdat s0 data
    (_DS1302_togglewrite B self (u8 (bitClearInt address DS1302_READBIT)) 0
      (_DS1302_start B self w))
    (by rw [hc, c1, hs]) (by rw [hc, c2, hs]) (by rw [hc, c3, hs])
  obtain ⟨d1, d2, d3, d4, d5, d6⟩ := latch_foldl (byteBits data)
    (Wire.observe clk dat en s0 (_DS1302_togglewrite B self
      (u8 (bitClearInt address DS1302_READBIT)) 0 (_DS1302_start B self w)).trace)
  have hne : ∀ x : Nat, byteBits x ≠ [] := by
    intro x
    simp [byteBits, range_eight]
  simp only [DS1302_write, observe_stop B clk dat en self hen, hd, Wire.sessions]
  rw [d4, d5, d6 (hne _), hc, c4, c5, c6 (hne _), hs]
  simp [Wire.sessions]

/-- What `DS1302_read` puts on the lines: one new session in which the controller drives
the eight bits of the command byte, releases the data line once, and clocks seven more
rising edges without driving it; enable low at the end. -/
theorem observe_read (hce : clk ≠ en) (hde : dat ≠ en) (hdc : dat ≠ clk)
    (self : ds1302_struct) (hclk : self.DS1302_SCLK_PIN = clk) (hdat : self.DS1302_IO_PIN = dat)
    (hen : self.DS1302_CE_PIN = en) (s0 : Wire) (address : Int) (w : World σ) :
    (Wire.observe clk dat en s0 (DS1302_read B self address w).2.trace).sessions =
      (Wire.observe clk dat en s0 w.trace).sessions ++
        [(byteBits (u8 (bitSetInt address DS1302_READBIT))).map some
          ++ List.replicate 7 none] ∧
    (Wire.observe clk dat en s0 (DS1302_read B self address w).2.trace).releases =
      (Wire.observe clk dat en s0 w.trace).releases + 1 ∧
    (Wire.observe clk dat en s0 (DS1302_read B self address w).2.trace).ce = false := by
  have hs := observe_start B clk dat en hce hde hdc self hclk hdat hen s0 w
  have hc := observe_togglewrite_release B clk dat en hce hde hdc self hclk hdat s0
    (u8 (bitSetInt address DS1302_READBIT)) 1 (by decide) (_DS1302_start B self w)
    (by rw [hs]) (by rw [hs]) (by rw [hs])
  have hr := observe_toggleread B clk dat en hce self hclk hdat s0
    (_DS1302_togglewrite B self (u8 (bitSetInt address DS1302_READBIT)) 1
      (_DS1302_start B self w))
    (by rw [hc, hs]) (by rw [hc]) (by rw [hc])
  simp only [DS1302_read, observe_stop B clk dat en self hen, hr, Wire.sessions]
  rw [hc, hs]
  simp [Wire.sessions]

end WireRegister

/-- C11. Read-bit handling of single-register access, on three distinct pins, for every
board, address `a` and data byte `v`.  `DS1302_read a` makes one session in which the
controller drives exactly the eight bits of one command byte, the low byte of `a` with bit
0 set, releases the data line once and takes eight samples of it; it returns the byte whose
bit `i` is the `i`-th sample.  `DS1302_write a v` makes one session of exactly two bytes,
the low byte of `a` with bit 0 cleared and then `v`, with no release and no sample.  So
`0x80` and `0x81` are read through `0x81` and written through `0x80`. -/
theorem single_register_access {σ : Type} (B : Board σ) (self : ds1302_struct)
    (a : Int) (v : Nat) (w : World σ) (s0 : Wire)
    (hce : self.DS1302_SCLK_PIN ≠ self.DS1302_CE_PIN)
    (hde : self.DS1302_IO_PIN ≠ self.DS1302_CE_PIN)
    (hdc : self.DS1302_IO_PIN ≠ self.DS1302_SCLK_PIN) :
    ((Wire.observe self.DS1302_SCLK_PIN self.DS1302_IO_PIN self.DS1302_CE_PIN s0
        (DS1302_read B self a w).2.trace).sessions =
      (Wire.observe self.DS1302_SCLK_PIN self.DS1302_IO_PIN self.DS1302_CE_PIN s0
        w.trace).sessions ++
        [(byteBits (2 * ((a % 256).toNat / 2) + 1)).map some ++ List.replicate 7 none] ∧
     (Wire.observe self.DS1302_SCLK_PIN self.DS1302_IO_PIN self.DS1302_CE_PIN s0
        (DS1302_read B self a w).2.trace).releases =
      (Wire.observe self.DS1302_SCLK_PIN self.DS1302_IO_PIN self.DS1302_CE_PIN s0
        w.trace).releases + 1 ∧
     ∃ vs : List Bool, vs.length = 8 ∧
      (DS1302_read B self a w).1 = bitsByte vs ∧
      reads (DS1302_read B self a w).2.trace =
        reads w.trace ++ vs.map (fun x => (self.DS1302_IO_PIN, x))) ∧
    ((Wire.observe self.DS1302_SCLK_PIN self.DS1302_IO_PIN self.DS1302_CE_PIN s0
        (DS1302_write B self a v w).trace).sessions =
      (Wire.observe self.DS1302_SCLK_PIN self.DS1302_IO_PIN self.DS1302_CE_PIN s0
        w.trace).sessions ++
        [(byteBits (2 * ((a % 256).toNat / 2)) ++ byteBits v).map some] ∧
     (Wire.observe self.DS1302_SCLK_PIN self.DS1302_IO_PIN self.DS1302_CE_PIN s0
        (DS1302_write B self a v w).trace).releases =
      (Wire.observe self.DS1302_SCLK_PIN self.DS1302_IO_PIN self.DS1302_CE_PIN s0
        w.trace).releases ∧
     reads (DS1302_write B self a v w).trace = reads w.trace) ∧
    (u8 (bitSetInt a DS1302_READBIT) = 2 * ((a % 256).toNat / 2) + 1 ∧
     u8 (bitClearInt a DS1302_READBIT) = 2 * ((a % 256).toNat / 2) ∧
     u8 (bitSetInt 0x80 DS1302_READBIT) = 0x81 ∧ u8 (bitSetInt 0x81 DS1302_READBIT) = 0x81 ∧
     u8 (bitClearInt 0x80 DS1302_READBIT) = 0x80 ∧
     u8 (bitClearInt 0x81 DS1302_READBIT) = 0x80) := by
  obtain ⟨r1, r2, -⟩ := observe_read B _ _ _ hce hde hdc self rfl rfl rfl s0 a w
  obtain ⟨w1, w2, -⟩ := observe_write B _ _ _ hce hde hdc self rfl rfl rfl s0 a v w
  obtain ⟨vs, hlen, hval, hreads⟩ := toggleread_samples B self
    (_DS1302_togglewrite B self (u8 (bitSetInt a DS1302_READBIT)) 1 (_DS1302_start B self w))
  rw [read_command_byte] at r1
  rw [write_command_byte] at w1
  refine ⟨⟨r1, r2, vs, hlen, hval, ?_⟩, ⟨w1, w2, reads_write B self a v w⟩,
    read_command_byte a, write_command_byte a, ?_, ?_, ?_, ?_⟩
  · simp only [DS1302_read, reads_stop]
    rw [hreads, reads_togglewrite, reads_start]
  · rw [read_command_byte]; decide
  · rw [read_command_byte]; decide
  · rw [write_command_byte]; decide
  · rw [write_command_byte]; decide

theorem single_register_access_witness :
    (exampleHandle.DS1302_SCLK_PIN ≠ exampleHandle.DS1302_CE_PIN ∧
      exampleHandle.DS1302_IO_PIN ≠ exampleHandle.DS1302_CE_PIN ∧
      exampleHandle.DS1302_IO_PIN ≠ exampleHandle.DS1302_SCLK_PIN) ∧
    ((Wire.observe exampleHandle.DS1302_SCLK_PIN exampleHandle.DS1302_IO_PIN
        exampleHandle.DS1302_CE_PIN idleWire
        (DS1302_read highBoard exampleHandle 0x80 idleWorld).2.trace).sessions =
      (Wire.observe exampleHandle.DS1302_SCLK_PIN exampleHandle.DS1302_IO_PIN
        exampleHandle.DS1302_CE_PIN idleWire idleWorld.trace).sessions ++
        [(byteBits (2 * (((0x80 : Int) % 256).toNat / 2) + 1)).map some
          ++ List.replicate 7 none] ∧
     (Wire.observe exampleHandle.DS1302_SCLK_PIN exampleHandle.DS1302_IO_PIN
        exampleHandle.DS1302_CE_PIN idleWire
        (DS1302_read highBoard exampleHandle 0x80 idleWorld).2.trace).releases =
      (Wire.observe exampleHandle.DS1302_SCLK_PIN exampleHandle.DS1302_IO_PIN
        exampleHandle.DS1302_CE_PIN idleWire idleWorld.trace).releases + 1 ∧
     ∃ vs : List Bool, vs.length = 8 ∧
      (DS1302_read highBoard exampleHandle 0x80 idleWorld).1 = bitsByte vs ∧
      reads (DS1302_read highBoard exampleHandle 0x80 idleWorld).2.trace =
        reads idleWorld.trace ++ vs.map (fun x => (exampleHandle.DS1302_IO_PIN, x))) :=
  ⟨by decide,
   (single_register_access highBoard exampleHandle 0x80 0x5A idleWorld idleWire
      (by decide) (by decide) (by decide)).1⟩

/-- C13. Construction configures the chip with writes only.  For every triple of pin
identifiers and every board the constructor binds the pins, is the sequence start, write
`0x8E`, write `0x00`, stop, start, write `0x90`, write `0x00`, stop, none with release, and
takes no sample of any pin.  When the three pins are distinct the chip sees exactly two new
sessions, the first with the bytes `0x8E`, `0x00` and the second with `0x90`, `0x00`, each
bit driven by the controller, and the data line is never released. -/
theorem constructor_writes_only {σ : Type} (B : Board σ) (clk_pin IO_pin CE_pin : Int)
    (t0 : ds_time) (w : World σ) (s0 : Wire) :
    (ds1302_struct.new B clk_pin IO_pin CE_pin t0 w).1 =
      { DS1302_SCLK_PIN := clk_pin, DS1302_IO_PIN := IO_pin, DS1302_CE_PIN := CE_pin,
        t_time := t0, b_time := {} } ∧
    (ds1302_struct.new B clk_pin IO_pin CE_pin t0 w).2 =
      _DS1302_stop B (ds1302_struct.new B clk_pin IO_pin CE_pin t0 w).1
       (_DS1302_togglewrite B (ds1302_struct.new B clk_pin IO_pin CE_pin t0 w).1 0x00 0
        (_DS1302_togglewrite B (ds1302_struct.new B clk_pin IO_pin CE_pin t0 w).1 0x90 0
         (_DS1302_start B (ds1302_struct.new B clk_pin IO_pin CE_pin t0 w).1
          (_DS1302_stop B (ds1302_struct.new B clk_pin IO_pin CE_pin t0 w).1
           (_DS1302_togglewrite B (ds1302_struct.new B clk_pin IO_pin CE_pin t0 w).1 0x00 0
            (_DS1302_togglewrite B (ds1302_struct.new B clk_pin IO_pin CE_pin t0 w).1 0x8E 0
             (_DS1302_start B (ds1302_struct.new B clk_pin IO_pin CE_pin t0 w).1 w))))))) ∧
    reads (ds1302_struct.new B clk_pin IO_pin CE_pin t0 w).2.trace = reads w.trace ∧
    (clk_pin ≠ CE_pin → IO_pin ≠ CE_pin → IO_pin ≠ clk_pin →
      (Wire.observe clk_pin IO_pin CE_pin s0
          (ds1302_struct.new B clk_pin IO_pin CE_pin t0 w).2.trace).sessions =
        (Wire.observe clk_pin IO_pin CE_pin s0 w.trace).sessions ++
          [(byteBits 0x8E ++ byteBits 0x00).map some,
           (byteBits 0x90 ++ byteBits 0x00).map some] ∧
      (Wire.observe clk_pin IO_pin CE_pin s0
          (ds1302_struct.new B clk_pin IO_pin CE_pin t0 w).2.trace).releases =
        (Wire.observe clk_pin IO_pin CE_pin s0 w.trace).releases ∧
      (Wire.observe clk_pin IO_pin CE_pin s0
          (ds1302_struct.new B clk_pin IO_pin CE_pin t0 w).2.trace).ce = false) := by
  have he : u8 (bitClearInt DS1302_ENABLE DS1302_READBIT) = 0x8E := by
    rw [write_command_byte]; decide
  have ht : u8 (bitClearInt DS1302_TRICKLE DS1302_READBIT) = 0x90 := by
    rw [write_command_byte]; decide
  refine ⟨rfl, ?_, ?_, ?_⟩
  · simp only [ds1302_struct.new, DS1302_write, he, ht]
  · simp only [ds1302_struct.new, reads_write]
  · intro hce hde hdc
    obtain ⟨a1, a2, -⟩ := observe_write B clk_pin IO_pin CE_pin hce hde hdc
      { DS1302_SCLK_PIN := clk_pin, DS1302_IO_PIN := IO_pin, DS1302_CE_PIN := CE_pin,
        t_time := t0, b_time := {} } rfl rfl rfl s0 DS1302_ENABLE 0 w
    obtain ⟨b1, b2, b3⟩ := observe_write B clk_pin IO_pin CE_pin hce hde hdc
      { DS1302_SCLK_PIN := clk_pin, DS1302_IO_PIN := IO_pin, DS1302_CE_PIN := CE_pin,
        t_time := t0, b_time := {} } rfl rfl rfl s0 DS1302_TRICKLE 0x00
      (DS1302_write B
        { DS1302_SCLK_PIN := clk_pin, DS1302_IO_PIN := IO_pin, DS1302_CE_PIN := CE_pin,
          t_time := t0, b_time := {} } DS1302_ENABLE 0 w)
    rw [he] at a1
    rw [ht] at b1
    unfold ds1302_struct.new
    refine ⟨?_, ?_, b3⟩
    · rw [b1, a1]
      simp
    · rw [b2, a2]

theorem constructor_writes_only_witness :
    ((6 : Int) ≠ 8 ∧ (7 : Int) ≠ 8 ∧ (7 : Int) ≠ 6) ∧
    ((Wire.observe 6 7 8 idleWire
          (ds1302_struct.new highBoard 6 7 8 ds_time.zero idleWorld).2.trace).sessions =
        (Wire.observe 6 7 8 idleWire idleWorld.trace).sessions ++
          [(byteBits 0x8E ++ byteBits 0x00).map some,
           (byteBits 0x90 ++ byteBits 0x00).map some] ∧
      (Wire.observe 6 7 8 idleWire
          (ds1302_struct.new highBoard 6 7 8 ds_time.zero idleWorld).2.trace).releases =
        (Wire.observe 6 7 8 idleWire idleWorld.trace).releases ∧
      (Wire.observe 6 7 8 idleWire
          (ds1302_struct.new highBoard 6 7 8 ds_time.zero idleWorld).2.trace).ce = false) :=
  ⟨by decide,
   (constructor_writes_only highBoard 6 7 8 ds_time.zero idleWorld idleWire).2.2.2
      (by decide) (by decide) (by decide)⟩

end DS1302
